import Mathlib

/-!
# Verification of the Manatee County PAO property-record extraction pipeline

A shallow embedding, in Lean 4, of the deterministic core of a TypeScript
property-record scraper (address normalization, HTML section parsers, result
matching, record merging, blocking detection, and the search-and-extract
orchestrator), together with theorems settling the specification's testable
properties against the embedded code.

Conventions of the embedding:
* JavaScript strings are Lean `String`s; all inputs handled by this code are
  ASCII, and `toLowerCase`/`toUpperCase` are embedded as ASCII case maps.
* JavaScript numbers are embedded as `JVal`: either `undef` (the field is
  absent / `undefined`), `nan` (`NaN`), or `num q` with `q : ℚ`.  The source
  never divides or uses floats in a precision-relevant way in the embedded
  functions, so rationals are a faithful carrier.
* `Record<string, string>` property access is embedded as own-key association
  list lookup.
* Fallible / thrown errors are embedded with `Except`.
* cheerio HTML documents are embedded as an `Html` structure holding the
  element collections the parsers select on (tables, rows, dt/dd pairs, bold
  label elements, text blocks, body text).
-/

/-! ## JavaScript string primitives -/

/-- JS whitespace (the subset relevant to this code base: `\s` on ASCII). -/
def isJsWs (c : Char) : Bool :=
  c = ' ' || c = '\t' || c = '\n' || c = '\r' || c = '\x0b' || c = '\x0c'

/-- Drop leading whitespace from a character list. -/
def trimLeftChars : List Char → List Char
  | [] => []
  | c :: cs => if isJsWs c then trimLeftChars cs else c :: cs

/-- Drop trailing whitespace from a character list. -/
def trimRightChars (cs : List Char) : List Char :=
  (trimLeftChars cs.reverse).reverse

/-- `String.prototype.trim`. -/
def jsTrim (s : String) : String :=
  ⟨trimRightChars (trimLeftChars s.data)⟩

/-- Split a character list at every occurrence of `sep` (keeping empty pieces,
as JS `split` does). -/
def splitCharAux (sep : Char) : List Char → List Char → List (List Char)
  | [], acc => [acc.reverse]
  | c :: cs, acc =>
    if c = sep then acc.reverse :: splitCharAux sep cs []
    else splitCharAux sep cs (c :: acc)

/-- `s.split(sep)` for a single-character separator; `"".split(sep) = [""]`. -/
def jsSplitChar (sep : Char) (s : String) : List String :=
  (splitCharAux sep s.data []).map (⟨·⟩)

/-- Replace every maximal run of whitespace by a single space
(`s.replace(/\s+/g, " ")`).  `prevWs` records whether the previous character
belonged to a whitespace run. -/
def collapseWsAux : Bool → List Char → List Char
  | _, [] => []
  | prevWs, c :: cs =>
    if isJsWs c then
      (if prevWs then [] else [' ']) ++ collapseWsAux true cs
    else c :: collapseWsAux false cs

/-- `s.replace(/\s+/g, " ")`. -/
def collapseWs (s : String) : String :=
  ⟨collapseWsAux false s.data⟩

/-- `s.split(/\s+/)`: equivalent to collapsing whitespace runs and splitting on
the single space (leading/trailing runs produce empty pieces, as in JS). -/
def jsSplitWs (s : String) : List String :=
  jsSplitChar ' ' (collapseWs s)

/-- Substring containment on character lists. -/
def containsList (hay needle : List Char) : Bool :=
  hay.tails.any (fun t => needle.isPrefixOf t)

/-- `hay.includes(needle)`. -/
def jsIncludes (hay needle : String) : Bool :=
  containsList hay.data needle.data

/-- ASCII lower-case map (the code base only handles ASCII content). -/
def lowerPairs : List (Char × Char) :=
  [('A','a'),('B','b'),('C','c'),('D','d'),('E','e'),('F','f'),('G','g'),
   ('H','h'),('I','i'),('J','j'),('K','k'),('L','l'),('M','m'),('N','n'),
   ('O','o'),('P','p'),('Q','q'),('R','r'),('S','s'),('T','t'),('U','u'),
   ('V','v'),('W','w'),('X','x'),('Y','y'),('Z','z')]

def asciiLowerChar (c : Char) : Char :=
  (lowerPairs.lookup c).getD c

def asciiUpperChar (c : Char) : Char :=
  ((lowerPairs.map (fun p => (p.2, p.1))).lookup c).getD c

/-- `s.toLowerCase()` (ASCII). -/
def jsToLower (s : String) : String :=
  ⟨s.data.map asciiLowerChar⟩

/-- `s.toUpperCase()` (ASCII). -/
def jsToUpper (s : String) : String :=
  ⟨s.data.map asciiUpperChar⟩

/-- Numeric value of a digit run. -/
def digitsToNat (ds : List Char) : Nat :=
  ds.foldl (fun a c => a * 10 + (c.toNat - 48)) 0

/-- `parseInt(s, 10)`: skip leading whitespace and an optional sign, then read
the longest digit run; `none` embeds `NaN`. -/
def parseIntChars (cs : List Char) : Option Int :=
  let cs := trimLeftChars cs
  let (sgn, cs) : Int × List Char :=
    match cs with
    | '-' :: rest => (-1, rest)
    | '+' :: rest => (1, rest)
    | rest => (1, rest)
  let ds := cs.takeWhile Char.isDigit
  if ds.isEmpty then none else some (sgn * (digitsToNat ds : Int))

def parseIntJS (s : String) : Option Int :=
  parseIntChars s.data

/-- Fractional value of a digit run (digits after a decimal point). -/
def fracVal (ds : List Char) : ℚ :=
  (digitsToNat ds : ℚ) / ((10 : ℚ) ^ ds.length)

/-- `parseFloat(s)`: longest decimal prefix after optional whitespace/sign;
`none` embeds `NaN`.  (Exponent forms never occur in this code base's inputs
and are not modeled.) -/
def parseFloatChars (cs : List Char) : Option ℚ :=
  let cs := trimLeftChars cs
  let (sgn, cs) : ℚ × List Char :=
    match cs with
    | '-' :: rest => (-1, rest)
    | '+' :: rest => (1, rest)
    | rest => (1, rest)
  let ip := cs.takeWhile Char.isDigit
  let rest := cs.drop ip.length
  match ip, rest with
  | [], '.' :: r2 =>
    let fp := r2.takeWhile Char.isDigit
    if fp.isEmpty then none else some (sgn * fracVal fp)
  | [], _ => none
  | _, '.' :: r2 =>
    let fp := r2.takeWhile Char.isDigit
    some (sgn * ((digitsToNat ip : ℚ) + fracVal fp))
  | _, _ => some (sgn * (digitsToNat ip : ℚ))

def parseFloatJS (s : String) : Option ℚ :=
  parseFloatChars s.data

/-- JS `\w` character class. -/
def isWordChar (c : Char) : Bool :=
  c.isAlpha || c.isDigit || c = '_'

/-! ## JavaScript number values -/

/-- A JavaScript number-typed field: absent, `NaN`, or an actual number. -/
inductive JVal where
  | undef : JVal
  | nan : JVal
  | num : ℚ → JVal
deriving Repr, DecidableEq

/-- `value !== undefined`. -/
def JVal.defined : JVal → Bool
  | .undef => false
  | _ => true

/-- `x || 0` on a JS number (undefined, NaN and 0 are falsy). -/
def JVal.or0 : JVal → ℚ
  | .num q => q
  | _ => 0

/-- JS truthiness of a number field. -/
def JVal.truthy : JVal → Bool
  | .num q => q ≠ 0
  | _ => false

/-- `a < x` where `a` may be `NaN`/`undefined` (comparisons with `NaN` are
false). -/
def JVal.ltNum : JVal → ℚ → Bool
  | .num q, x => q < x
  | _, _ => false

/-- `a > x` with `NaN`/`undefined` comparing false. -/
def JVal.gtNum : JVal → ℚ → Bool
  | .num q, x => q > x
  | _, _ => false

/-- JS truthiness of a string-or-absent field (absent and `""` are falsy). -/
def jsStrTruthy : Option String → Bool
  | some s => s ≠ ""
  | none => false

/-- Embed a `parseInt` result used directly as a JS number (`NaN` on failure). -/
def jvalOfParseInt (o : Option Int) : JVal :=
  match o with
  | some n => .num n
  | none => .nan

/-! ## Shared numeric field parsers (`parseMoney`, `parseNumber`) -/

/-- Strip a set of characters from a string. -/
def stripChars (bad : List Char) (s : String) : String :=
  ⟨s.data.filter (fun c => ¬ bad.contains c)⟩

/-- `parseMoney`: `undefined` on falsy input, strip `[$,\s]`, `parseFloat`,
and `undefined` when that is `NaN`. -/
def parseMoney (input : Option String) : JVal :=
  if ¬ jsStrTruthy input then .undef
  else
    let cleaned : String :=
      ⟨(input.getD "").data.filter (fun c => ¬ (c = '$' || c = ',' || isJsWs c))⟩
    match parseFloatJS cleaned with
    | none => .undef
    | some q => .num q

/-- `parseNumber`: like `parseMoney` but only strips `[,\s]`. -/
def parseNumber (input : Option String) : JVal :=
  if ¬ jsStrTruthy input then .undef
  else
    let cleaned : String := ⟨(input.getD "").data.filter (fun c => ¬ (c = ',' || isJsWs c))⟩
    match parseFloatJS cleaned with
    | none => .undef
    | some q => .num q

/-! ## Address normalizer (`address-normalizer.ts`)

USPS street-suffix, directional and unit-designator maps, embedded as
association lists (own-key lookup). -/

def STREET_SUFFIX_MAP : List (String × String) :=
  [("alley","Aly"),("avenue","Ave"),("boulevard","Blvd"),("circle","Cir"),
   ("court","Ct"),("drive","Dr"),("expressway","Expy"),("freeway","Fwy"),
   ("highway","Hwy"),("lane","Ln"),("parkway","Pkwy"),("place","Pl"),
   ("road","Rd"),("street","St"),("terrace","Ter"),("trail","Trl"),
   ("way","Way"),
   ("arcade","Arc"),("bayou","Byu"),("beach","Bch"),("bend","Bnd"),
   ("bluff","Blf"),("bluffs","Blfs"),("bottom","Btm"),("branch","Br"),
   ("bridge","Brg"),("brook","Brk"),("brooks","Brks"),("burg","Bg"),
   ("burgs","Bgs"),("bypass","Byp"),("camp","Cp"),("canyon","Cyn"),
   ("cape","Cpe"),("causeway","Cswy"),("center","Ctr"),("centers","Ctrs"),
   ("cliff","Clf"),("cliffs","Clfs"),("club","Clb"),("common","Cmn"),
   ("commons","Cmns"),("corner","Cor"),("corners","Cors"),("course","Crse"),
   ("cove","Cv"),("coves","Cvs"),("creek","Crk"),("crescent","Cres"),
   ("crest","Crst"),("crossing","Xing"),("crossroad","Xrd"),
   ("crossroads","Xrds"),("curve","Curv"),("dale","Dl"),("dam","Dm"),
   ("divide","Dv"),("drives","Drs"),("estate","Est"),("estates","Ests"),
   ("extension","Ext"),("extensions","Exts"),("fall","Fall"),("falls","Fls"),
   ("ferry","Fry"),("field","Fld"),("fields","Flds"),("flat","Flt"),
   ("flats","Flts"),("ford","Frd"),("fords","Frds"),("forest","Frst"),
   ("forge","Frg"),("forges","Frgs"),("fork","Frk"),("forks","Frks"),
   ("fort","Ft"),("garden","Gdn"),("gardens","Gdns"),("gateway","Gtwy"),
   ("glen","Gln"),("glens","Glns"),("green","Grn"),("greens","Grns"),
   ("grove","Grv"),("groves","Grvs"),("harbor","Hbr"),("harbors","Hbrs"),
   ("haven","Hvn"),("heights","Hts"),("hill","Hl"),("hills","Hls"),
   ("hollow","Holw"),("inlet","Inlt"),("island","Is"),("islands","Iss"),
   ("isle","Isle"),("junction","Jct"),("junctions","Jcts"),("key","Ky"),
   ("keys","Kys"),("knoll","Knl"),("knolls","Knls"),("lake","Lk"),
   ("lakes","Lks"),("land","Land"),("landing","Lndg"),("light","Lgt"),
   ("lights","Lgts"),("loaf","Lf"),("lock","Lck"),("locks","Lcks"),
   ("lodge","Ldg"),("loop","Loop"),("mall","Mall"),("manor","Mnr"),
   ("manors","Mnrs"),("meadow","Mdw"),("meadows","Mdws"),("mews","Mews"),
   ("mill","Ml"),("mills","Mls"),("mission","Msn"),("motorway","Mtwy"),
   ("mount","Mt"),("mountain","Mtn"),("mountains","Mtns"),("neck","Nck"),
   ("orchard","Orch"),("oval","Oval"),("overpass","Opas"),("park","Park"),
   ("parks","Parks"),("pass","Pass"),("passage","Psge"),("path","Path"),
   ("pike","Pike"),("pine","Pne"),("pines","Pnes"),("plain","Pln"),
   ("plains","Plns"),("plaza","Plz"),("point","Pt"),("points","Pts"),
   ("port","Prt"),("ports","Prts"),("prairie","Pr"),("radial","Radl"),
   ("ramp","Ramp"),("ranch","Rnch"),("rapid","Rpd"),("rapids","Rpds"),
   ("rest","Rst"),("ridge","Rdg"),("ridges","Rdgs"),("river","Riv"),
   ("roads","Rds"),("route","Rte"),("row","Row"),("rue","Rue"),("run","Run"),
   ("shoal","Shl"),("shoals","Shls"),("shore","Shr"),("shores","Shrs"),
   ("skyway","Skwy"),("spring","Spg"),("springs","Spgs"),("spur","Spur"),
   ("spurs","Spurs"),("square","Sq"),("squares","Sqs"),("station","Sta"),
   ("stravenue","Stra"),("stream","Strm"),("streets","Sts"),("summit","Smt"),
   ("throughway","Trwy"),("trace","Trce"),("track","Trak"),
   ("trafficway","Trfy"),("trails","Trls"),("trailer","Trlr"),
   ("tunnel","Tunl"),("turnpike","Tpke"),("underpass","Upas"),("union","Un"),
   ("unions","Uns"),("valley","Vly"),("valleys","Vlys"),("viaduct","Via"),
   ("view","Vw"),("views","Vws"),("village","Vlg"),("villages","Vlgs"),
   ("ville","Vl"),("vista","Vis"),("walk","Walk"),("walks","Walks"),
   ("wall","Wall"),("ways","Ways"),("well","Wl"),("wells","Wls")]

def DIRECTIONAL_MAP : List (String × String) :=
  [("north","N"),("south","S"),("east","E"),("west","W"),
   ("northeast","NE"),("northwest","NW"),("southeast","SE"),("southwest","SW")]

def UNIT_DESIGNATOR_MAP : List (String × String) :=
  [("apartment","Apt"),("basement","Bsmt"),("building","Bldg"),
   ("department","Dept"),("floor","Fl"),("front","Frnt"),("hangar","Hngr"),
   ("lobby","Lbby"),("lot","Lot"),("lower","Lowr"),("office","Ofc"),
   ("penthouse","Ph"),("pier","Pier"),("rear","Rear"),("room","Rm"),
   ("side","Side"),("slip","Slip"),("space","Spc"),("stop","Stop"),
   ("suite","Ste"),("trailer","Trlr"),("unit","Unit"),("upper","Uppr")]

/-- Address components produced by the normalizer's parser. -/
structure AddressComponents where
  street : Option String := none
  city : Option String := none
  state : Option String := none
  zipCode : Option String := none
deriving Repr, DecidableEq

/-- `/^\d+$/.test t`. -/
def isAllDigits (t : String) : Bool :=
  ¬ t.data.isEmpty && t.data.all Char.isDigit

/-- `/^[A-Z]{2}$/i.test t`. -/
def isTwoAlpha (t : String) : Bool :=
  t.data.length = 2 && t.data.all Char.isAlpha

/-- `/^\d{5}(-\d{4})?$/.test t`. -/
def isZipcode (t : String) : Bool :=
  match t.data with
  | [a, b, c, d, e] => [a,b,c,d,e].all Char.isDigit
  | [a, b, c, d, e, dash, f, g, h, i] =>
    [a,b,c,d,e].all Char.isDigit && dash = '-' && [f,g,h,i].all Char.isDigit
  | _ => false

/-- One token of `normalizeStreet`'s loop (`isFirst` embeds the source's
`i > 0` condition on the street-suffix branch).  Returns the emitted token and
the optional change-log entry. -/
def normToken (isFirst : Bool) (token : String) : String × Option String :=
  let lowerToken := jsToLower token
  match DIRECTIONAL_MAP.lookup lowerToken with
  | some ab =>
    (ab, if token ≠ ab then some (token ++ " → " ++ ab) else none)
  | none =>
    match
      (if ¬ isFirst && ¬ isAllDigits token then STREET_SUFFIX_MAP.lookup lowerToken
       else none) with
    | some ab =>
      (ab,
       if jsToLower token ≠ jsToLower ab then some (token ++ " → " ++ ab)
       else none)
    | none =>
      match UNIT_DESIGNATOR_MAP.lookup lowerToken with
      | some ab =>
        (ab, if token ≠ ab then some (token ++ " → " ++ ab) else none)
      | none => (token, none)

/-- The token loop of `normalizeStreet` (index passed as `isFirst` flag for the
head token). -/
def normTokensGo : Bool → List String → List String × List String
  | _, [] => ([], [])
  | isFirst, t :: ts =>
    let (t', chg) := normToken isFirst t
    let (rest, chgs) := normTokensGo false ts
    (t' :: rest, (chg.toList) ++ chgs)

/-- `Array.prototype.join(sep)`. -/
def joinSep (sep : String) : List String → String
  | [] => ""
  | [p] => p
  | p :: ps => p ++ sep ++ joinSep sep ps

/-- `normalizeStreet`: trim, collapse whitespace, abbreviate each token via
the three USPS maps, re-join with single spaces. -/
def normalizeStreet (street : String) : String × List String :=
  let result := jsTrim street
  let result := collapseWs result
  let tokens := jsSplitChar ' ' result
  let (normalizedTokens, changes) := normTokensGo true tokens
  (joinSep " " normalizedTokens, changes)

/-- `normalizeStreetForUsps`. -/
def normalizeStreetForUsps (street : String) : String :=
  (normalizeStreet street).1

/-- `parseAddressComponents` (address-normalizer.ts): comma-split with
graceful degradation; the state must look like a two-letter abbreviation and
the zip like a 5(+4) digit code. -/
def parseAddressComponents (address : String) : AddressComponents :=
  let parts := (jsSplitChar ',' address).map jsTrim
  let street := parts.get? 0
  let city := if parts.length ≥ 2 then parts.get? 1 else none
  let (state, zip1) :=
    if parts.length ≥ 3 then
      let stateZipParts := jsSplitWs (parts.getD 2 "")
      let state :=
        match stateZipParts.get? 0 with
        | some t => if isTwoAlpha t then some (jsToUpper t) else none
        | none => none
      let zip :=
        match stateZipParts.get? 1 with
        | some t => if isZipcode t then some t else none
        | none => none
      (state, zip)
    else (none, none)
  let zip :=
    if parts.length ≥ 4 then
      match parts.get? 3 with
      | some t => if isZipcode t then some t else zip1
      | none => zip1
    else zip1
  { street := street, city := city, state := state, zipCode := zip }

/-- The normalizer's full result record. -/
structure NormalizedAddress where
  original : String
  street : Option String
  city : Option String
  state : Option String
  zipCode : Option String
  normalizedStreet : Option String
  normalizedFull : String
  wasNormalized : Bool
  normalizations : List String
deriving Repr, DecidableEq

/-- `normalizeAddressForPao`: parse into components, normalize the street
portion, reconstruct the full address string. -/
def normalizeAddressForPao (input : String) : NormalizedAddress :=
  let original := jsTrim input
  let components := parseAddressComponents original
  let (normalizedStreet, normalizations) :=
    match components.street with
    | some s =>
      if s ≠ "" then
        let r := normalizeStreet s
        (some r.1, r.2)
      else (some s, [])
    | none => (none, [])
  let parts : List String :=
    (if jsStrTruthy normalizedStreet then [normalizedStreet.getD ""] else []) ++
    (if jsStrTruthy components.city then [components.city.getD ""] else []) ++
    (if jsStrTruthy components.state && jsStrTruthy components.zipCode then
       [components.state.getD "" ++ " " ++ components.zipCode.getD ""]
     else if jsStrTruthy components.state then [components.state.getD ""]
     else if jsStrTruthy components.zipCode then [components.zipCode.getD ""]
     else [])
  let normalizedFull := joinSep ", " parts
  { original := original
    street := components.street
    city := components.city
    state := components.state
    zipCode := components.zipCode
    normalizedStreet := normalizedStreet
    normalizedFull := normalizedFull
    wasNormalized := ¬ normalizations.isEmpty
    normalizations := normalizations }

/-! ## Property data model (`property-search.ts`)

Fields never touched by the embedded functions (`community`, `listing`,
`zoning`, `legal`, `rawData`) are omitted; everything the merge and the
extraction pipeline read or write is present. -/

structure ValueBreakdown where
  land : JVal := .undef
  building : JVal := .undef
  extraFeatures : JVal := .undef
  total : JVal := .undef
deriving Repr, DecidableEq

structure ValuationRecord where
  year : JVal := .undef
  just : Option ValueBreakdown := none
  assessed : Option ValueBreakdown := none
  taxable : Option ValueBreakdown := none
  adValoremTaxes : JVal := .undef
  nonAdValoremTaxes : JVal := .undef
deriving Repr, DecidableEq

structure SaleRecord where
  date : Option String := none
  price : JVal := .undef
  deedType : Option String := none
  instrumentNumber : Option String := none
  bookPage : Option String := none
  grantor : Option String := none
  grantee : Option String := none
  qualified : Option Bool := none
  vacantOrImproved : Option String := none
  qualificationCode : Option String := none
deriving Repr, DecidableEq

structure ExtraFeatureRecord where
  description : String
  year : JVal := .undef
  areaSqFt : JVal := .undef
  value : JVal := .undef
deriving Repr, DecidableEq

structure InspectionRecord where
  date : Option String := none
  inspector : Option String := none
  type : Option String := none
  result : Option String := none
  notes : Option String := none
deriving Repr, DecidableEq

structure PropertyBasicInfo where
  accountNumber : Option String := none
  useCode : Option String := none
  useDescription : Option String := none
  situsAddress : Option String := none
  mailingAddress : Option String := none
  subdivision : Option String := none
  neighborhood : Option String := none
  municipality : Option String := none
  jurisdiction : Option String := none
  taxDistrict : Option String := none
  sectionTownshipRange : Option String := none
  legalDescription : Option String := none
  shortDescription : Option String := none
  homesteadExemption : Option Bool := none
  femaValue : JVal := .undef
  ownerType : Option String := none
  livingUnits : JVal := .undef
deriving Repr, DecidableEq

structure GarageInfo where
  type : Option String := none
  spaces : JVal := .undef
  areaSqFt : JVal := .undef
deriving Repr, DecidableEq

structure PoolInfo where
  hasPool : Option Bool := none
  type : Option String := none
  areaSqFt : JVal := .undef
deriving Repr, DecidableEq

structure RoomInfo where
  features : Option (List String) := none
  level : Option String := none
deriving Repr, DecidableEq

structure PropertyBuilding where
  yearBuilt : JVal := .undef
  effectiveYearBuilt : JVal := .undef
  livingAreaSqFt : JVal := .undef
  totalAreaSqFt : JVal := .undef
  bedrooms : JVal := .undef
  bathrooms : JVal := .undef
  fullBathrooms : JVal := .undef
  halfBathrooms : JVal := .undef
  stories : JVal := .undef
  units : JVal := .undef
  constructionType : Option String := none
  foundation : Option String := none
  exteriorWalls : Option String := none
  roofCover : Option String := none
  roofStructure : Option String := none
  interiorFinish : Option String := none
  flooring : Option String := none
  heating : Option String := none
  cooling : Option String := none
  electricUtility : Option Bool := none
  waterSource : Option String := none
  sewerType : Option String := none
  garage : Option GarageInfo := none
  pool : Option PoolInfo := none
  primaryBedroom : Option RoomInfo := none
  kitchen : Option RoomInfo := none
  livingRoom : Option RoomInfo := none
  appliances : Option (List String) := none
  laundryLocation : Option String := none
  interiorFeatures : Option (List String) := none
  hasFireplace : Option Bool := none
deriving Repr, DecidableEq

structure PropertyLand where
  lotSizeSqFt : JVal := .undef
  lotSizeAcres : JVal := .undef
  landUse : Option String := none
  landUseCode : Option String := none
  frontageFt : JVal := .undef
  depthFt : JVal := .undef
  dimensions : Option String := none
  roadSurfaceType : Option String := none
deriving Repr, DecidableEq

structure PropertyExtras where
  features : Option (List String) := none
  paoExtraFeatures : Option (List ExtraFeatureRecord) := none
  inspections : Option (List InspectionRecord) := none
deriving Repr, DecidableEq

/-- `Partial<PropertyDetails>` as built by the extraction pipeline. -/
structure PropertyDetails where
  parcelId : Option String := none
  address : Option String := none
  city : Option String := none
  state : Option String := none
  zipCode : Option String := none
  owner : Option String := none
  ownerType : Option String := none
  propertyType : Option String := none
  yearBuilt : JVal := .undef
  bedrooms : JVal := .undef
  bathrooms : JVal := .undef
  sqft : JVal := .undef
  lotSize : Option String := none
  assessedValue : JVal := .undef
  marketValue : JVal := .undef
  lastSalePrice : JVal := .undef
  lastSaleDate : Option String := none
  taxAmount : JVal := .undef
  basicInfo : Option PropertyBasicInfo := none
  valuations : Option (List ValuationRecord) := none
  building : Option PropertyBuilding := none
  land : Option PropertyLand := none
  salesHistory : Option (List SaleRecord) := none
  extras : Option PropertyExtras := none
deriving Repr, DecidableEq

/-- The `{}` record literal. -/
def emptyPropertyDetails : PropertyDetails := {}

/-! ## `mergePropertyDetails` (manatee-pao.playwright.ts) -/

/-- Deep-merge field fill: copy the supplemental value only when the base
field is `undefined` (`value !== undefined && merged[key] === undefined`). -/
def fillOpt {α : Type} (b s : Option α) : Option α :=
  if b.isSome then b else s

/-- Same fill for JS-number fields (a base `NaN` counts as defined). -/
def fillJVal (b s : JVal) : JVal :=
  if b.defined then b else s

/-- Top-level scalar fill: `if (!merged.f && supplemental.f) merged.f = ...`
(JS truthiness: an empty base string is overwritten). -/
def fillScalar (b s : Option String) : Option String :=
  if ¬ jsStrTruthy b && jsStrTruthy s then s else b

def mergeBasicInfo (b : Option PropertyBasicInfo) (s : PropertyBasicInfo) :
    PropertyBasicInfo :=
  let m := b.getD {}
  { accountNumber := fillOpt m.accountNumber s.accountNumber
    useCode := fillOpt m.useCode s.useCode
    useDescription := fillOpt m.useDescription s.useDescription
    situsAddress := fillOpt m.situsAddress s.situsAddress
    mailingAddress := fillOpt m.mailingAddress s.mailingAddress
    subdivision := fillOpt m.subdivision s.subdivision
    neighborhood := fillOpt m.neighborhood s.neighborhood
    municipality := fillOpt m.municipality s.municipality
    jurisdiction := fillOpt m.jurisdiction s.jurisdiction
    taxDistrict := fillOpt m.taxDistrict s.taxDistrict
    sectionTownshipRange := fillOpt m.sectionTownshipRange s.sectionTownshipRange
    legalDescription := fillOpt m.legalDescription s.legalDescription
    shortDescription := fillOpt m.shortDescription s.shortDescription
    homesteadExemption := fillOpt m.homesteadExemption s.homesteadExemption
    femaValue := fillJVal m.femaValue s.femaValue
    ownerType := fillOpt m.ownerType s.ownerType
    livingUnits := fillJVal m.livingUnits s.livingUnits }

def mergeBuilding (b : Option PropertyBuilding) (s : PropertyBuilding) :
    PropertyBuilding :=
  let m := b.getD {}
  { yearBuilt := fillJVal m.yearBuilt s.yearBuilt
    effectiveYearBuilt := fillJVal m.effectiveYearBuilt s.effectiveYearBuilt
    livingAreaSqFt := fillJVal m.livingAreaSqFt s.livingAreaSqFt
    totalAreaSqFt := fillJVal m.totalAreaSqFt s.totalAreaSqFt
    bedrooms := fillJVal m.bedrooms s.bedrooms
    bathrooms := fillJVal m.bathrooms s.bathrooms
    fullBathrooms := fillJVal m.fullBathrooms s.fullBathrooms
    halfBathrooms := fillJVal m.halfBathrooms s.halfBathrooms
    stories := fillJVal m.stories s.stories
    units := fillJVal m.units s.units
    constructionType := fillOpt m.constructionType s.constructionType
    foundation := fillOpt m.foundation s.foundation
    exteriorWalls := fillOpt m.exteriorWalls s.exteriorWalls
    roofCover := fillOpt m.roofCover s.roofCover
    roofStructure := fillOpt m.roofStructure s.roofStructure
    interiorFinish := fillOpt m.interiorFinish s.interiorFinish
    flooring := fillOpt m.flooring s.flooring
    heating := fillOpt m.heating s.heating
    cooling := fillOpt m.cooling s.cooling
    electricUtility := fillOpt m.electricUtility s.electricUtility
    waterSource := fillOpt m.waterSource s.waterSource
    sewerType := fillOpt m.sewerType s.sewerType
    garage := fillOpt m.garage s.garage
    pool := fillOpt m.pool s.pool
    primaryBedroom := fillOpt m.primaryBedroom s.primaryBedroom
    kitchen := fillOpt m.kitchen s.kitchen
    livingRoom := fillOpt m.livingRoom s.livingRoom
    appliances := fillOpt m.appliances s.appliances
    laundryLocation := fillOpt m.laundryLocation s.laundryLocation
    interiorFeatures := fillOpt m.interiorFeatures s.interiorFeatures
    hasFireplace := fillOpt m.hasFireplace s.hasFireplace }

def mergeLand (b : Option PropertyLand) (s : PropertyLand) : PropertyLand :=
  let m := b.getD {}
  { lotSizeSqFt := fillJVal m.lotSizeSqFt s.lotSizeSqFt
    lotSizeAcres := fillJVal m.lotSizeAcres s.lotSizeAcres
    landUse := fillOpt m.landUse s.landUse
    landUseCode := fillOpt m.landUseCode s.landUseCode
    frontageFt := fillJVal m.frontageFt s.frontageFt
    depthFt := fillJVal m.depthFt s.depthFt
    dimensions := fillOpt m.dimensions s.dimensions
    roadSurfaceType := fillOpt m.roadSurfaceType s.roadSurfaceType }

/-- `mergePropertyDetails`: scalar fields fill only when the base value is
falsy; nested groups deep-merge per key; valuations/sales append only entries
whose year/date is not already present in the base list; extras overwrite. -/
def mergePropertyDetails (base supplemental : PropertyDetails) :
    PropertyDetails :=
  let mergedValuations :=
    match supplemental.valuations with
    | some l =>
      if l.length > 0 then
        let existingYears := (base.valuations.getD []).map (·.year)
        let newValuations := l.filter (fun v => ¬ decide (v.year ∈ existingYears))
        some ((base.valuations.getD []) ++ newValuations)
      else base.valuations
    | none => base.valuations
  let mergedSales :=
    match supplemental.salesHistory with
    | some l =>
      if l.length > 0 then
        let existingDates := (base.salesHistory.getD []).map (·.date)
        let newSales := l.filter (fun s => ¬ decide (s.date ∈ existingDates))
        some ((base.salesHistory.getD []) ++ newSales)
      else base.salesHistory
    | none => base.salesHistory
  let mergedExtras :=
    match supplemental.extras with
    | some e =>
      let m := base.extras.getD {}
      some { m with
        paoExtraFeatures :=
          match e.paoExtraFeatures with
          | some x => some x
          | none => m.paoExtraFeatures
        inspections :=
          match e.inspections with
          | some x => some x
          | none => m.inspections }
    | none => base.extras
  { base with
    owner := fillScalar base.owner supplemental.owner
    address := fillScalar base.address supplemental.address
    city := fillScalar base.city supplemental.city
    state := fillScalar base.state supplemental.state
    zipCode := fillScalar base.zipCode supplemental.zipCode
    ownerType := fillScalar base.ownerType supplemental.ownerType
    basicInfo :=
      match supplemental.basicInfo with
      | some s => some (mergeBasicInfo base.basicInfo s)
      | none => base.basicInfo
    building :=
      match supplemental.building with
      | some s => some (mergeBuilding base.building s)
      | none => base.building
    land :=
      match supplemental.land with
      | some s => some (mergeLand base.land s)
      | none => base.land
    valuations := mergedValuations
    salesHistory := mergedSales
    extras := mergedExtras }

/-! ## Embedded regular-expression scanners

Each function embeds one regex literal from the source, as a left-to-right
scan with the engine's greedy/alternation semantics for that pattern. -/

/-- Case-insensitive (ASCII) prefix test. -/
def ciIsPrefix : List Char → List Char → Bool
  | [], _ => true
  | _ :: _, [] => false
  | a :: as, b :: bs => asciiLowerChar a = asciiLowerChar b && ciIsPrefix as bs

/-- Characters matched by `[:\s]`. -/
def isSepChar (c : Char) : Bool :=
  c = ':' || isJsWs c

/-- One attempt of `new RegExp(label + "[:\\s]+([^\n]+)", "i")` at the head of
`text`: the label must match case-insensitively, then a maximal `[:\s]` run of
length ≥ 1; the capture is the rest of the line, or (by backtracking into the
separator run) the run's last non-newline character when nothing follows. -/
def labelLineAttempt (label text : List Char) : Option (List Char) :=
  if ciIsPrefix label text then
    let after := text.drop label.length
    let run := after.takeWhile isSepChar
    let rest2 := after.drop run.length
    if run.length = 0 then none
    else
      match rest2 with
      | c :: _ =>
        if c ≠ '\n' then some (rest2.takeWhile (· ≠ '\n'))
        else
          match ((run.drop 1).filter (· ≠ '\n')).getLast? with
          | some w => some [w]
          | none => none
      | [] =>
        match ((run.drop 1).filter (· ≠ '\n')).getLast? with
        | some w => some [w]
        | none => none
  else none

/-- First match of the label/value line regex in `text` (returns group 1). -/
def labelLineSearch (label : List Char) : List Char → Option (List Char)
  | [] => none
  | c :: cs =>
    match labelLineAttempt label (c :: cs) with
    | some cap => some cap
    | none => labelLineSearch label cs

/-- `s.split(/\s{2,}/)[0]` on an already-trimmed string: the prefix up to the
first occurrence of two consecutive whitespace characters. -/
def headBeforeDoubleWs : List Char → List Char
  | [] => []
  | [c] => [c]
  | a :: b :: rest =>
    if isJsWs a && isJsWs b then []
    else a :: headBeforeDoubleWs (b :: rest)

/-- `/(?:parid|parcel|parcelid)=(\d{10})/i`: first alternative (in source
order) followed by `=` and at least ten digits; captures the first ten. -/
def parcelIdAttempt (text : List Char) : Option (List Char) :=
  let tryAlt := fun (alt : String) =>
    if ciIsPrefix (alt.data ++ ['=']) text then
      let ds := (text.drop (alt.data.length + 1)).takeWhile Char.isDigit
      if ds.length ≥ 10 then some (ds.take 10) else none
    else none
  match tryAlt "parid" with
  | some r => some r
  | none =>
    match tryAlt "parcel" with
    | some r => some r
    | none => tryAlt "parcelid"

def parcelIdSearch : List Char → Option (List Char)
  | [] => none
  | c :: cs =>
    match parcelIdAttempt (c :: cs) with
    | some r => some r
    | none => parcelIdSearch cs

/-- `extractParcelIdFromUrl`. -/
def extractParcelIdFromUrl (url : String) : Option String :=
  (parcelIdSearch url.data).map (⟨·⟩)

/-- `/[?&]parid=(\d{10})/i` (direct-redirect detection). -/
def directParcelAttempt (text : List Char) : Option (List Char) :=
  match text with
  | c :: rest =>
    if (c = '?' || c = '&') && ciIsPrefix "parid=".data rest then
      let ds := (rest.drop 6).takeWhile Char.isDigit
      if ds.length ≥ 10 then some (ds.take 10) else none
    else none
  | [] => none

def directParcelSearch : List Char → Option (List Char)
  | [] => none
  | c :: cs =>
    match directParcelAttempt (c :: cs) with
    | some r => some r
    | none => directParcelSearch cs

def directParcelMatch (url : String) : Option String :=
  (directParcelSearch url.data).map (⟨·⟩)

/-- Is there a word boundary after position `n` of `cs`? -/
def boundaryAfter (n : Nat) (cs : List Char) : Bool :=
  match cs.drop n with
  | [] => true
  | d :: _ => ¬ isWordChar d

/-- `/\b(\d{10})\b/`: ten digits delimited by word boundaries.  `prevWord`
records whether the previous character was a word character. -/
def tenDigitWordSearch (prevWord : Bool) : List Char → Option (List Char)
  | [] => none
  | c :: cs =>
    (if ¬ prevWord then
       let ds := (c :: cs).takeWhile Char.isDigit
       if ds.length = 10 && boundaryAfter 10 (c :: cs) then
         some ds
       else none
     else none).orElse
      (fun _ => tenDigitWordSearch (isWordChar c) cs)

/-- `/\d{1,2}\/\d{1,2}\/\d{4}/` attempt at the head (greedy: two digits tried
before one, per field). -/
def dateAttempt (text : List Char) : Option (List Char) :=
  let readField := fun (cs : List Char) =>
    let ds := cs.takeWhile Char.isDigit
    if ds.length ≥ 2 then some (ds.take 2) else if ds.length = 1 then some (ds.take 1) else none
  match readField text with
  | none => none
  | some d1 =>
    -- greedy backtracking on the field width: try the longer width first
    let tryWidth := fun (w1 : Nat) =>
      let d1' := (text.takeWhile Char.isDigit).take w1
      if d1'.length ≠ w1 then none
      else
        match text.drop w1 with
        | '/' :: r1 =>
          let tryW2 := fun (w2 : Nat) =>
            let d2 := (r1.takeWhile Char.isDigit).take w2
            if d2.length ≠ w2 then none
            else
              match r1.drop w2 with
              | '/' :: r2 =>
                let ys := r2.takeWhile Char.isDigit
                if ys.length ≥ 4 then some (d1' ++ ['/'] ++ d2 ++ ['/'] ++ ys.take 4)
                else none
              | _ => none
          (tryW2 2).orElse (fun _ => tryW2 1)
        | _ => none
    have _ := d1
    (tryWidth 2).orElse (fun _ => tryWidth 1)

def dateSearch : List Char → Option (List Char)
  | [] => none
  | c :: cs =>
    match dateAttempt (c :: cs) with
    | some r => some r
    | none => dateSearch cs

/-- First match of `/\d{1,2}\/\d{1,2}\/\d{4}/` in `s`. -/
def findDateIn (s : String) : Option String :=
  (dateSearch s.data).map (⟨·⟩)

/-- `/\d{1,2}\/\d{1,2}\/\d{2,4}/.test` (inspections allow 2-digit years). -/
def dateAttemptShort (text : List Char) : Option (List Char) :=
  let tryWidth := fun (w1 : Nat) =>
    let d1 := (text.takeWhile Char.isDigit).take w1
    if d1.length ≠ w1 then none
    else
      match text.drop w1 with
      | '/' :: r1 =>
        let tryW2 := fun (w2 : Nat) =>
          let d2 := (r1.takeWhile Char.isDigit).take w2
          if d2.length ≠ w2 then none
          else
            match r1.drop w2 with
            | '/' :: r2 =>
              let ys := r2.takeWhile Char.isDigit
              if ys.length ≥ 2 then some (d1 ++ ['/'] ++ d2 ++ ['/'] ++ ys.take (min 4 ys.length))
              else none
            | _ => none
        (tryW2 2).orElse (fun _ => tryW2 1)
      | _ => none
  (tryWidth 2).orElse (fun _ => tryWidth 1)

def dateSearchShort : List Char → Option (List Char)
  | [] => none
  | c :: cs =>
    match dateAttemptShort (c :: cs) with
    | some r => some r
    | none => dateSearchShort cs

def findShortDateIn (s : String) : Option String :=
  (dateSearchShort s.data).map (⟨·⟩)

/-- `/\b(19|20)\d{2}\b/`: a four-digit year starting `19` or `20`, delimited by
word boundaries. -/
def yearWordSearch (prevWord : Bool) : List Char → Option (List Char)
  | [] => none
  | c :: cs =>
    (if ¬ prevWord then
       let ds := (c :: cs).takeWhile Char.isDigit
       if (decide (ds.take 2 = ['1','9']) || decide (ds.take 2 = ['2','0'])) &&
           ds.length = 4 && boundaryAfter 4 (c :: cs) then
         some (ds.take 4)
       else none
     else none).orElse
      (fun _ => yearWordSearch (isWordChar c) cs)

/-- `/([\d,]+)\s*(?:sq\s*ft|SF)/i`: a digit/comma run, optional whitespace,
then `sq`-ws-`ft` or `SF` (case-insensitive); captures the run. -/
def isDigitComma (c : Char) : Bool := c.isDigit || c = ','

def sqFtUnitAt (text : List Char) : Bool :=
  (ciIsPrefix "sq".data text &&
    (let r := (text.drop 2).dropWhile isJsWs
     ciIsPrefix "ft".data r)) ||
  ciIsPrefix "sf".data text

def areaSearch : List Char → Option (List Char)
  | [] => none
  | c :: cs =>
    (if isDigitComma c then
       let run := (c :: cs).takeWhile isDigitComma
       let rest := ((c :: cs).drop run.length).dropWhile isJsWs
       if sqFtUnitAt rest then some run else none
     else none).orElse (fun _ => areaSearch cs)

/-- `/\$[\d,]+/`: a dollar sign followed by at least one digit or comma. -/
def moneySearch : List Char → Option (List Char)
  | [] => none
  | '$' :: cs =>
    let run := cs.takeWhile isDigitComma
    if run.length ≥ 1 then some ('$' :: run) else moneySearch cs
  | _ :: cs => moneySearch cs

/-- `/pass|fail|complete|pending|approved/i.test`. -/
def looksLikeResult (s : String) : Bool :=
  let l := jsToLower s
  jsIncludes l "pass" || jsIncludes l "fail" || jsIncludes l "complete" ||
  jsIncludes l "pending" || jsIncludes l "approved"

/-- `/^[A-Z][a-z]+ [A-Z]/.test`: an upper-case letter, one or more lower-case
letters, a space, an upper-case letter at the start of the string. -/
def looksLikeName (s : String) : Bool :=
  match s.data with
  | c :: rest =>
    if c.isUpper then
      let run := rest.takeWhile Char.isLower
      run.length ≥ 1 &&
        (match rest.drop run.length with
         | ' ' :: d :: _ => d.isUpper
         | _ => false)
    else false
  | [] => false

/-- `/^\d{4}$/.test`. -/
def isFourDigits (s : String) : Bool :=
  s.data.length = 4 && s.data.all Char.isDigit

/-! ## Number-to-string helpers used in display fields -/

/-- Exponent of `p` dividing `n` (fuel-bounded). -/
def powCountAux (p : Nat) : Nat → Nat → Nat
  | 0, _ => 0
  | fuel + 1, n => if 1 < p && n % p = 0 && n ≠ 0 then 1 + powCountAux p fuel (n / p) else 0

def powCount (p n : Nat) : Nat := powCountAux p n n

/-- JS number-to-string for the non-negative decimal rationals this code
produces (denominator a product of 2s and 5s; the general case, never hit,
falls back to `num/den`). -/
def qToJsString (q : ℚ) : String :=
  let sign := if q < 0 then "-" else ""
  let n := q.num.natAbs
  let d := q.den
  let a := powCount 2 d
  let b := powCount 5 d
  if d = 2 ^ a * 5 ^ b then
    let k := max a b
    let scaled := n * 10 ^ k / d
    let ip := scaled / 10 ^ k
    let fp := scaled % 10 ^ k
    if fp = 0 then sign ++ toString ip
    else
      -- strip trailing zeros of the fractional part
      let fpStr := String.mk (Nat.toDigits 10 fp)
      let pad := String.mk (List.replicate (k - fpStr.length) '0') ++ fpStr
      let trimmed := String.mk (pad.data.reverse.dropWhile (· = '0')).reverse
      sign ++ toString ip ++ "." ++ trimmed
  else sign ++ toString n ++ "/" ++ toString d

/-- `Number.prototype.toLocaleString` (en-US): thousands separators on the
integer part. -/
def groupThousands (ds : List Char) : List Char :=
  let rec go : List Char → List Char
    | [] => []
    | l@(_ :: _) =>
      if h : l.length ≤ 3 then l
      else
        have : (l.take (l.length - 3)).length < l.length := by
          simp [List.length_take]; omega
        go (l.take (l.length - 3)) ++ [','] ++ l.drop (l.length - 3)
  termination_by l => l.length
  go ds

def qToLocaleString (q : ℚ) : String :=
  let s := qToJsString q
  match splitCharAux '.' s.data [] with
  | [ip] => ⟨groupThousands ip⟩
  | ip :: rest => ⟨groupThousands ip⟩ ++ "." ++ joinSep "." (rest.map (⟨·⟩))
  | [] => s

/-! ## HTML document model

The parsers run on cheerio documents; the embedding carries, per document,
the element collections each selector produces:
* `tables`   — `$("table")`, each with the text of its `th, thead` elements
               and the `td` cell texts of its `tbody tr` rows;
* `trs`      — all `tr` elements (`$("tr")` / `$("table tr")` / result rows),
               with th-presence, `td` cells, `td,th` cells, full text and the
               `href`s of contained anchors;
* `items`    — the extra `.feature-row` and `li` elements selected only by the
               features parser;
* `dts`      — `dt` elements (text plus the text of a following `dd` sibling,
               empty if none);
* `bolds`    — `.font-weight-bold, strong, b, .label` elements with their
               sibling/row context (owner-info strategy 1);
* `blocks`   — `div`/`span`/`p` element texts (owner-info strategy 4);
* `bodyText` — `$("body").text()`.
An empty-string HTML input loads to the empty document. -/

structure TrElem where
  hasTh : Bool := false
  tds : List String := []
  tdths : List String := []
  text : String := ""
  links : List String := []
deriving Repr, DecidableEq

structure HtmlTable where
  headerText : String := ""
  bodyRows : List (List String) := []
deriving Repr, DecidableEq

structure DtPair where
  dt : String
  dd : String
deriving Repr, DecidableEq

structure BoldElem where
  text : String := ""
  nextText : Option String := none
  nextHasBoldClass : Bool := false
  parentNextText : Option String := none
  rowCols : List String := []
deriving Repr, DecidableEq

structure Html where
  tables : List HtmlTable := []
  trs : List TrElem := []
  items : List TrElem := []
  dts : List DtPair := []
  bolds : List BoldElem := []
  blocks : List String := []
  bodyText : String := ""
deriving Repr, DecidableEq

/-- `cheerio.load("")`. -/
def emptyHtml : Html := {}

/-! ## Label/value extraction (`extractByLabel`) -/

/-- The `tr` scan of `extractByLabel`: find a cell containing the label
(case-insensitively) whose following cell holds a value other than
`""`, `"-"`, `"N/A"`. -/
def scanCellsForLabel (lowerLabel : String) : List String → Option String
  | c :: nxt :: rest =>
    if jsIncludes (jsToLower c) lowerLabel then
      let value := jsTrim nxt
      if value ≠ "" && value ≠ "-" && value ≠ "N/A" then some value
      else scanCellsForLabel lowerLabel (nxt :: rest)
    else scanCellsForLabel lowerLabel (nxt :: rest)
  | _ => none

/-- `extractByLabel` for a single label: dt/dd pattern, then table-row
pattern, then the `Label: value` body-text scan. -/
def extractByLabelOne (doc : Html) (label : String) : Option String :=
  let ddValue :=
    jsTrim (joinSep "" (((doc.dts.filter (fun p => jsIncludes p.dt label)).map (·.dd))))
  if ddValue ≠ "" then some ddValue
  else
    match doc.trs.findSome? (fun row => scanCellsForLabel (jsToLower label) row.tdths) with
    | some v => some v
    | none =>
      match labelLineSearch label.data doc.bodyText.data with
      | some cap =>
        let cleaned := jsTrim ⟨cap⟩
        if cleaned ≠ "" then some ⟨headBeforeDoubleWs cleaned.data⟩ else none
      | none => none

/-- `extractByLabel`: first label (in order) whose strategies produce a
value. -/
def extractByLabel (doc : Html) (labels : List String) : Option String :=
  labels.findSome? (extractByLabelOne doc)

/-! ## Table parsers (`parseValuationsTable`, `parseSalesTable`) -/

/-- JS stable sort (insertion from the right keeps the original order of
comparator-equal elements). -/
def insertStable {α : Type} (le : α → α → Bool) (x : α) : List α → List α
  | [] => [x]
  | y :: ys => if le x y then x :: y :: ys else y :: insertStable le x ys

def jsSortStable {α : Type} (le : α → α → Bool) (l : List α) : List α :=
  l.foldr (insertStable le) []

/-- One `tbody tr` of a valuations table.  The first cell must survive the
source's year guard `if (year < 2000 || year > 2100) return` — with `parseInt`
returning `NaN` both comparisons are false, so a non-numeric first cell passes
the guard. -/
def valuationOfRow (cells : List String) : Option ValuationRecord :=
  if cells.length < 4 then none
  else
    let firstCell := jsTrim (cells.getD 0 "")
    let year := jvalOfParseInt (parseIntJS firstCell)
    if year.ltNum 2000 || year.gtNum 2100 then none
    else
      let lastCells := cells.drop (cells.length - 2)
      some
        { year := year
          just := some
            { land := parseMoney (some (cells.getD 2 ""))
              building := parseMoney (some (cells.getD 3 ""))
              total := parseMoney (some (cells.getD 4 "")) }
          assessed :=
            if cells.length > 5 then
              some { total := parseMoney (some (cells.getD 5 "")) }
            else none
          taxable :=
            if cells.length > 7 then
              some { total := parseMoney (some (cells.getD 7 "")) }
            else none
          adValoremTaxes :=
            if cells.length > 9 then parseMoney (some (lastCells.getD 0 "")) else .undef
          nonAdValoremTaxes :=
            if cells.length > 9 then parseMoney (some (lastCells.getD 1 "")) else .undef }

/-- Does a table's header text mark it as a values table? -/
def isValuesHeader (t : HtmlTable) : Bool :=
  let headerText := jsToLower t.headerText
  jsIncludes headerText "year" || jsIncludes headerText "land" ||
  jsIncludes headerText "market" || jsIncludes headerText "value"

/-- `parseValuationsTable`: rows of every values-looking table, sorted
descending by `(year || 0)`. -/
def parseValuationsTable (doc : Html) : List ValuationRecord :=
  let valuations :=
    (doc.tables.map (fun t =>
      if isValuesHeader t then t.bodyRows.filterMap valuationOfRow else [])).flatten
  jsSortStable (fun a b => a.year.or0 ≥ b.year.or0) valuations

/-- Sort key used by the sales comparator: `new Date(dateString).getTime()`,
embedded order-faithfully as a lexicographic `(year, month, day)` code for
`M/D/YYYY` strings; `none` embeds `NaN` (the comparator then returns `+0`). -/
def jsDateKey (s : String) : Option ℚ :=
  match (jsSplitChar '/' s).map (fun p => (p, p.data)) with
  | [(_, m), (_, d), (_, y)] =>
    if m.length ≥ 1 && m.length ≤ 2 && m.all Char.isDigit &&
        d.length ≥ 1 && d.length ≤ 2 && d.all Char.isDigit &&
        y.length = 4 && y.all Char.isDigit then
      some ((digitsToNat y : ℚ) * 10000 + (digitsToNat m : ℚ) * 100 + (digitsToNat d : ℚ))
    else none
  | _ => none

/-- The sales sort comparator `(a, b) => dateB - dateA` (0 when either date is
falsy or unparseable). -/
def saleBeforeEq (a b : SaleRecord) : Bool :=
  if ¬ jsStrTruthy a.date || ¬ jsStrTruthy b.date then true
  else
    match jsDateKey (a.date.getD ""), jsDateKey (b.date.getD "") with
    | some ka, some kb => kb - ka ≤ 0
    | _, _ => true

/-- One `tbody tr` of a sales table (positional columns; rows lacking both a
date and a price are skipped). -/
def saleOfRow (cells : List String) : Option SaleRecord :=
  if cells.length < 5 then none
  else
    let dateText := jsTrim (cells.getD 0 "")
    let bookPageText := jsTrim (cells.getD 1 "")
    let instrumentType := jsTrim (cells.getD 2 "")
    let vacantImproved := jsTrim (cells.getD 3 "")
    let qualCode := jsTrim (cells.getD 4 "")
    let priceText := jsTrim (cells.getD 5 "")
    let granteeText := if cells.length > 6 then jsTrim (cells.getD 6 "") else ""
    let date := (findDateIn dateText).getD dateText
    let price := parseMoney (some priceText)
    if date = "" && ¬ price.truthy then none
    else
      some
        { date := some date
          bookPage := if bookPageText ≠ "" then some bookPageText else none
          deedType := if instrumentType ≠ "" then some instrumentType else none
          vacantOrImproved := if vacantImproved ≠ "" then some vacantImproved else none
          qualificationCode := if qualCode ≠ "" then some qualCode else none
          price := price
          grantee := if granteeText ≠ "" then some granteeText else none }

def isSalesHeader (t : HtmlTable) : Bool :=
  let headerText := jsToLower t.headerText
  jsIncludes headerText "sale" || jsIncludes headerText "grantee" ||
  jsIncludes headerText "price"

/-- `parseSalesTable`: rows of every sales-looking table, sorted descending by
date. -/
def parseSalesTable (doc : Html) : List SaleRecord :=
  let sales :=
    (doc.tables.map (fun t =>
      if isSalesHeader t then t.bodyRows.filterMap saleOfRow else [])).flatten
  jsSortStable saleBeforeEq sales

/-! ## Section extractors (`extractBasicInfo`, `extractBuildingSection`,
`extractLandSection`) -/

def extractBasicInfo (doc : Html) : PropertyBasicInfo :=
  { mailingAddress := extractByLabel doc ["Mailing Address"]
    jurisdiction := extractByLabel doc ["Jurisdiction"]
    taxDistrict := extractByLabel doc ["Tax District"]
    sectionTownshipRange := extractByLabel doc ["Sec/Twp/Rge", "Section"]
    neighborhood := extractByLabel doc ["Neighborhood"]
    subdivision := extractByLabel doc ["Subdivision"]
    shortDescription := extractByLabel doc ["Short Description"]
    legalDescription := extractByLabel doc ["Legal Description", "Full Description"]
    useCode := extractByLabel doc ["Land Use Code", "Use Code"]
    useDescription := extractByLabel doc ["Land Use Description", "Use Description"]
    femaValue := parseNumber (extractByLabel doc ["FEMA Value"])
    homesteadExemption := some (jsIncludes (jsToLower doc.bodyText) "homestead") }

def extractBuildingSection (doc : Html) : PropertyBuilding :=
  let bodyLower := jsToLower doc.bodyText
  { yearBuilt := parseNumber (extractByLabel doc ["Year Built", "Built"])
    effectiveYearBuilt := parseNumber (extractByLabel doc ["Effective Year Built"])
    livingAreaSqFt :=
      parseNumber (extractByLabel doc ["Living Area", "Living or Business Area", "Living Sqft"])
    totalAreaSqFt :=
      parseNumber (extractByLabel doc ["Total Area", "Area Under Roof", "Total Sqft"])
    bedrooms := parseNumber (extractByLabel doc ["Bedrooms", "Beds"])
    bathrooms := parseNumber (extractByLabel doc ["Bathrooms", "Baths", "Total Baths"])
    fullBathrooms := parseNumber (extractByLabel doc ["Full Bathrooms", "Full Baths"])
    halfBathrooms := parseNumber (extractByLabel doc ["Half Bathrooms", "Half Baths"])
    stories := parseNumber (extractByLabel doc ["Stories", "Floors"])
    units := parseNumber (extractByLabel doc ["Living Units", "Units"])
    constructionType := extractByLabel doc ["Construction", "Construction Type"]
    foundation := extractByLabel doc ["Foundation"]
    exteriorWalls := extractByLabel doc ["Exterior Walls", "Exterior"]
    roofCover := extractByLabel doc ["Roof Cover", "Roof"]
    roofStructure := extractByLabel doc ["Roof Structure"]
    flooring := extractByLabel doc ["Flooring", "Floor"]
    heating := extractByLabel doc ["Heating", "Heat"]
    cooling := extractByLabel doc ["Cooling", "Air Conditioning", "A/C"]
    pool :=
      if jsIncludes bodyLower "pool" && ¬ jsIncludes bodyLower "no pool" then
        some { hasPool := some true }
      else none }

/-- `?.replace(/sq\s*ft/i, "")`: remove the first case-insensitive
`sq`-ws-`ft` occurrence. -/
def removeSqFt : List Char → List Char
  | [] => []
  | c :: cs =>
    if ciIsPrefix "sq".data (c :: cs) then
      let afterSq := (c :: cs).drop 2
      let wsRun := afterSq.takeWhile isJsWs
      let rest := afterSq.drop wsRun.length
      if ciIsPrefix "ft".data rest then rest.drop 2
      else c :: removeSqFt cs
    else c :: removeSqFt cs

/-- `/([\d.]+)\s*acres?/i`: digit/dot run followed by optional whitespace and
`acre` (case-insensitive); captures the run. -/
def isDigitDot (c : Char) : Bool := c.isDigit || c = '.'

def acresSearch : List Char → Option (List Char)
  | [] => none
  | c :: cs =>
    (if isDigitDot c then
       let run := (c :: cs).takeWhile isDigitDot
       let rest := ((c :: cs).drop run.length).dropWhile isJsWs
       if ciIsPrefix "acre".data rest then some run else none
     else none).orElse (fun _ => acresSearch cs)

def extractLandSection (doc : Html) : PropertyLand :=
  let lotSizeLabel := extractByLabel doc ["Lot Size", "Land Size"]
  let lotSizeSqFt :=
    parseNumber (lotSizeLabel.map (fun s => ⟨removeSqFt s.data⟩))
  let lotSizeAcres := parseNumber (extractByLabel doc ["Acres", "Lot Acres"])
  let lotSizeText := lotSizeLabel.getD ""
  let lotSizeAcres :=
    if ¬ lotSizeAcres.truthy then
      match acresSearch lotSizeText.data with
      | some run =>
        match parseFloatJS ⟨run⟩ with
        | some q => JVal.num q
        | none => JVal.nan
      | none => lotSizeAcres
    else lotSizeAcres
  { lotSizeSqFt := lotSizeSqFt
    lotSizeAcres := lotSizeAcres
    landUse := extractByLabel doc ["Land Use"]
    landUseCode := extractByLabel doc ["Land Use Code", "DOR Code"]
    roadSurfaceType := extractByLabel doc ["Road Surface", "Road Type"] }

/-! ## `extractPropertyData` -/

/-- `/,\s*([^,]+),?\s*(\w{2})?\s*(\d{5})?/`: first comma followed by a
non-empty `[^,]+` capture; the two-letter and five-digit groups are optional
and match only if immediately present (every later piece of the pattern can
match empty, so no backtracking arises). -/
def cityStateAttempt (text : List Char) : Option (String × Option String × Option String) :=
  match text with
  | ',' :: rest =>
    let afterWs := rest.dropWhile isJsWs
    let g1 := afterWs.takeWhile (· ≠ ',')
    if g1.length = 0 then none
    else
      let r1 := afterWs.drop g1.length
      let r1 := match r1 with
        | ',' :: t => t
        | t => t
      let r1 := r1.dropWhile isJsWs
      let g2 :=
        if r1.length ≥ 2 && (r1.take 2).all isWordChar then some (r1.take 2) else none
      let r2 := (match g2 with | some _ => r1.drop 2 | none => r1).dropWhile isJsWs
      let g3 :=
        if r2.length ≥ 5 && (r2.take 5).all Char.isDigit then some (r2.take 5) else none
      some (⟨g1⟩, g2.map (⟨·⟩), g3.map (⟨·⟩))
  | _ => none

def cityStateSearch : List Char → Option (String × Option String × Option String)
  | [] => none
  | c :: cs =>
    match cityStateAttempt (c :: cs) with
    | some r => some r
    | none => cityStateSearch cs

/-- `reduce((a, b) => (b.year || 0) > (a.year || 0) ? b : a)`. -/
def latestValuation (v : ValuationRecord) (vs : List ValuationRecord) : ValuationRecord :=
  vs.foldl (fun a b => if b.year.or0 > a.year.or0 then b else a) v

/-- The `(marketValue, assessedValue, taxAmount)` derivation from the parsed
valuations (`undefined` triple when the list is empty). -/
def deriveValuationSummary (valuations : List ValuationRecord) : JVal × JVal × JVal :=
  match valuations with
  | [] => (.undef, .undef, .undef)
  | v :: vs =>
    let latest := latestValuation v vs
    ((latest.just.getD {}).total,
     (latest.assessed.getD {}).total,
     .num (latest.adValoremTaxes.or0 + latest.nonAdValoremTaxes.or0))

/-- `extractPropertyData`: core identification via labels, city/state/zip via
regex on the address, then each section plus the derived summary scalars. -/
def extractPropertyData (doc : Html) (detailUrl : String) : PropertyDetails :=
  let parcelId :=
    match extractByLabel doc ["Parcel ID", "Parcel #", "Account", "Account #"] with
    | some v => some v
    | none => extractParcelIdFromUrl detailUrl
  let address := some ((extractByLabel doc ["Situs Address", "Property Address", "Site Address"]).getD "")
  let owner := extractByLabel doc ["Owner", "Owner Name", "Ownership"]
  let ownerType := extractByLabel doc ["Owner Type"]
  let propertyType := extractByLabel doc ["Property Type", "Land Use", "Use Description"]
  let addressText := address.getD ""
  let (city, state, zipCode) :=
    match cityStateSearch addressText.data with
    | some (g1, g2, g3) => (some (jsTrim g1), some (g2.getD "FL"), g3)
    | none => (none, none, none)
  let basicInfo := extractBasicInfo doc
  let valuations := parseValuationsTable doc
  let derived := deriveValuationSummary valuations
  let marketValue := derived.1
  let assessedValue := derived.2.1
  let taxAmount := derived.2.2
  let building := extractBuildingSection doc
  let land := extractLandSection doc
  let lotSize :=
    if land.lotSizeAcres.truthy then
      some (qToJsString land.lotSizeAcres.or0 ++ " acres")
    else if land.lotSizeSqFt.truthy then
      some (qToLocaleString land.lotSizeSqFt.or0 ++ " sq ft")
    else none
  let salesHistory := parseSalesTable doc
  let qualifiedSales := salesHistory.filter (fun s => s.price.truthy && s.price.gtNum 0)
  let (lastSalePrice, lastSaleDate) :=
    match qualifiedSales with
    | [] => (JVal.undef, none)
    | s :: _ => (s.price, s.date)
  { parcelId := parcelId
    address := address
    owner := owner
    ownerType := ownerType
    propertyType := propertyType
    city := city
    state := state
    zipCode := zipCode
    basicInfo := some basicInfo
    valuations := some valuations
    marketValue := marketValue
    assessedValue := assessedValue
    taxAmount := taxAmount
    building := some building
    yearBuilt := building.yearBuilt
    bedrooms := building.bedrooms
    bathrooms := building.bathrooms
    sqft := building.livingAreaSqFt
    land := some land
    lotSize := lotSize
    salesHistory := some salesHistory
    lastSalePrice := lastSalePrice
    lastSaleDate := lastSaleDate }

/-! ## Features and inspections parsers -/

/-- JS `+`/`*` on possibly-`NaN`/`undefined` numbers (any non-number operand
yields `NaN`). -/
def JVal.add : JVal → JVal → JVal
  | .num a, .num b => .num (a + b)
  | _, _ => .nan

def JVal.mulQ : JVal → ℚ → JVal
  | .num a, q => .num (a * q)
  | _, _ => .nan

/-- The per-cell regex sniffing of `parseExtraFeaturesFromHtml` (cells after
the description; each pattern fills its field only if still falsy). -/
def featureCellStep (f : ExtraFeatureRecord) (cellRaw : String) : ExtraFeatureRecord :=
  let cellText := jsTrim cellRaw
  let f :=
    match yearWordSearch false cellText.data with
    | some ys => if ¬ f.year.truthy then { f with year := jvalOfParseInt (parseIntJS ⟨ys⟩) } else f
    | none => f
  let f :=
    match areaSearch cellText.data with
    | some run => if ¬ f.areaSqFt.truthy then { f with areaSqFt := parseNumber (some ⟨run⟩) } else f
    | none => f
  match moneySearch cellText.data with
  | some m => if ¬ f.value.truthy then { f with value := parseMoney (some ⟨m⟩) } else f
  | none => f

/-- `parseExtraFeaturesFromHtml`: iterates `$("table tr, .feature-row, li")`;
skips header rows and rows without a non-empty first `td`. -/
def parseExtraFeaturesFromHtml (doc : Html) : List ExtraFeatureRecord :=
  (doc.trs ++ doc.items).filterMap (fun row =>
    let text := jsTrim row.text
    if row.hasTh || text = "" then none
    else
      match row.tds with
      | [] => none
      | c0 :: rest =>
        let description := jsTrim c0
        if description = "" then none
        else some (rest.foldl featureCellStep { description := description }))

/-- The else-if chain of `parseInspectionsFromHtml`'s cell loop. -/
def inspectionCellStep (acc : Nat × InspectionRecord) (cellRaw : String) :
    Nat × InspectionRecord :=
  let (i, insp) := acc
  let cellText := jsTrim cellRaw
  let insp :=
    if cellText = "" then insp
    else if ¬ jsStrTruthy insp.date && (findShortDateIn cellText).isSome then
      { insp with date := findShortDateIn cellText }
    else if i ≤ 1 && ¬ jsStrTruthy insp.type &&
        cellText.data.length > 2 && cellText.data.length < 50 then
      { insp with type := some cellText }
    else if ¬ jsStrTruthy insp.result && looksLikeResult cellText then
      { insp with result := some cellText }
    else if ¬ jsStrTruthy insp.inspector && looksLikeName cellText then
      { insp with inspector := some cellText }
    else if ¬ jsStrTruthy insp.notes && cellText.data.length > 20 then
      { insp with notes := some cellText }
    else insp
  (i + 1, insp)

/-- `parseInspectionsFromHtml`: iterates `$("table tr")`; keeps rows with at
least two `td` cells that produced a date or a type. -/
def parseInspectionsFromHtml (doc : Html) : List InspectionRecord :=
  doc.trs.filterMap (fun row =>
    if row.hasTh then none
    else if row.tds.length ≥ 2 then
      let insp := (row.tds.foldl inspectionCellStep (0, {})).2
      if jsStrTruthy insp.date || jsStrTruthy insp.type then some insp else none
    else none)

/-! ## `parseBuildingsFromHtml` -/

/-- `parseBuildingsFromHtml`: positional columns of the first
`table tbody tr`; rooms cell `"3/2/0"` split into bed/bath/half-bath. -/
def parseBuildingsFromHtml (doc : Html) : PropertyDetails :=
  let noRow : PropertyDetails := { building := some {} }
  match (doc.tables.map (·.bodyRows)).flatten.head? with
  | none => noRow
  | some cells =>
    let getValue := fun (i : Nat) => jsTrim (cells.getD i "")
    let b : PropertyBuilding := {}
    let yearBuilt := getValue 3
    let b :=
      if yearBuilt ≠ "" && isFourDigits yearBuilt then
        { b with yearBuilt := jvalOfParseInt (parseIntJS yearBuilt) }
      else b
    let effYear := getValue 4
    let b :=
      if effYear ≠ "" && isFourDigits effYear then
        { b with effectiveYearBuilt := jvalOfParseInt (parseIntJS effYear) }
      else b
    let stories := getValue 5
    let b :=
      if stories ≠ "" then
        match parseFloatJS stories with
        | some q => { b with stories := JVal.num q }
        | none => b
      else b
    let underRoof := getValue 6
    let b :=
      if underRoof ≠ "" then
        let sqft := parseNumber (some underRoof)
        if sqft.truthy then { b with totalAreaSqFt := sqft } else b
      else b
    let livBus := getValue 7
    let b :=
      if livBus ≠ "" then
        let sqft := parseNumber (some livBus)
        if sqft.truthy then { b with livingAreaSqFt := sqft } else b
      else b
    let rooms := getValue 8
    let b :=
      if rooms ≠ "" then
        let roomParts := jsSplitChar '/' rooms
        if roomParts.length ≥ 2 then
          let bedrooms := parseIntJS (roomParts.getD 0 "")
          let bathrooms := parseIntJS (roomParts.getD 1 "")
          let halfBaths : JVal :=
            if jsStrTruthy (roomParts.get? 2) then
              jvalOfParseInt (parseIntJS (roomParts.getD 2 ""))
            else JVal.num 0
          let b :=
            match bedrooms with
            | some n => { b with bedrooms := JVal.num n }
            | none => b
          match bathrooms with
          | some n =>
            { b with
              bathrooms := (JVal.num n).add (halfBaths.mulQ (1/2))
              fullBathrooms := JVal.num n
              halfBathrooms := halfBaths }
          | none => b
        else b
      else b
    let construction := getValue 9
    let b :=
      if construction ≠ "" then
        let parts := jsSplitChar '/' construction
        let b := { b with constructionType := (parts.get? 0).map jsTrim }
        if jsStrTruthy (parts.get? 1) then
          { b with exteriorWalls := some (jsTrim (parts.getD 1 "")) }
        else b
      else b
    let roofMaterial := getValue 10
    let b := if roofMaterial ≠ "" then { b with roofCover := some roofMaterial } else b
    let roofType := getValue 11
    let b := if roofType ≠ "" then { b with roofStructure := some roofType } else b
    { building := some b }

/-! ## `parseOwnerInfoFromMainPageHtml` -/

/-- `replace(/[:\s]/g, "")`. -/
def stripSepChars (s : String) : String :=
  ⟨s.data.filter (fun c => ¬ isSepChar c)⟩

/-- Strategy-1 row-column scan: return the first non-empty column after one
containing the label that does not itself contain the label. -/
def rowColsScanGo (lowerLabel : String) (foundLabel : Bool) : List String → Option String
  | [] => none
  | col :: rest =>
    let colText := jsTrim col
    if foundLabel && colText ≠ "" && ¬ jsIncludes (jsToLower colText) lowerLabel then
      some colText
    else
      rowColsScanGo lowerLabel (foundLabel || jsIncludes (jsToLower colText) lowerLabel) rest

/-- Strategy 1 of `extractFieldFromDom`: bold label element, value in the next
sibling, the parent's next sibling, or the next column of the enclosing row. -/
def extractFieldStrategy1 (doc : Html) (lowerLabel : String) : Option String :=
  doc.bolds.findSome? (fun el =>
    let labelText := jsTrim (jsToLower el.text)
    if jsIncludes labelText lowerLabel ||
        stripSepChars labelText = stripSepChars lowerLabel then
      let viaNext :=
        match el.nextText with
        | some t =>
          if ¬ el.nextHasBoldClass then
            let val := jsTrim t
            if val ≠ "" && val.data.length < 500 then some val else none
          else none
        | none => none
      match viaNext with
      | some v => some v
      | none =>
        let viaParentNext :=
          match el.parentNextText with
          | some t =>
            let val := jsTrim t
            if val ≠ "" && val.data.length < 500 &&
                ¬ jsIncludes (jsToLower val) lowerLabel then
              some val
            else none
          | none => none
        match viaParentNext with
        | some v => some v
        | none => rowColsScanGo lowerLabel false el.rowCols
    else none)

/-- Index of the first (ASCII case-insensitive) occurrence of `needle`. -/
def idxOfCi (hay needle : List Char) : Option Nat :=
  let rec go (i : Nat) : List Char → Option Nat
    | [] => if needle.isEmpty then some i else none
    | c :: cs =>
      if ciIsPrefix needle (c :: cs) then some i else go (i + 1) cs
  go 0 hay

/-- `/^[A-Z][a-z]+:/.test`. -/
def looksLikeLabelColon (s : String) : Bool :=
  match s.data with
  | c :: rest =>
    if c.isUpper then
      let run := rest.takeWhile Char.isLower
      run.length ≥ 1 &&
        (match rest.drop run.length with
         | ':' :: _ => true
         | _ => false)
    else false
  | [] => false

/-- Strategy 4 of `extractFieldFromDom`: any text block containing the label;
take the text after the label, strip leading `[:\s]`, first line, trimmed. -/
def extractFieldStrategy4 (doc : Html) (label : String) : Option String :=
  let lowerLabel := jsToLower label
  doc.blocks.findSome? (fun text =>
    match idxOfCi text.data lowerLabel.data with
    | some labelIndex =>
      let afterLabel := text.data.drop (labelIndex + label.data.length)
      let cleaned :=
        jsTrim ⟨(afterLabel.dropWhile isSepChar).takeWhile (· ≠ '\n')⟩
      if cleaned ≠ "" && cleaned.data.length < 200 && ¬ looksLikeLabelColon cleaned then
        some cleaned
      else none
    | none => none)

/-- `extractFieldFromDom` for one label: the four strategies in order. -/
def extractFieldOne (doc : Html) (label : String) : Option String :=
  let lowerLabel := jsToLower label
  match extractFieldStrategy1 doc lowerLabel with
  | some v => some v
  | none =>
    let ddValue :=
      jsTrim (joinSep "" ((doc.dts.filter (fun p => jsIncludes p.dt label)).map (·.dd)))
    if ddValue ≠ "" then some ddValue
    else
      match doc.trs.findSome? (fun row => scanCellsForLabel lowerLabel row.tdths) with
      | some v => some v
      | none => extractFieldStrategy4 doc label

def extractFieldFromDom (doc : Html) (labels : List String) : Option String :=
  labels.findSome? (extractFieldOne doc)

/-- `replace(/Go to.*$/i, "")`: the match must run to the end of the input
(`.` does not cross newlines and there is no `/m` flag), so cut at the first
case-insensitive `Go to` that has no later newline. -/
def goToCut : List Char → List Char
  | [] => []
  | c :: cs =>
    if ciIsPrefix "go to".data (c :: cs) && ¬ (c :: cs).contains '\n' then []
    else c :: goToCut cs

/-- `replace(/\[.*?\]/g, "")`: remove every bracketed span closed before a
newline. -/
def bracketRemove : List Char → List Char
  | [] => []
  | '[' :: cs =>
    let inner := cs.takeWhile (fun c => c ≠ ']' && c ≠ '\n')
    if cs.get? inner.length = some ']' then
      bracketRemove (cs.drop (inner.length + 1))
    else '[' :: bracketRemove cs
  | c :: cs => c :: bracketRemove cs
termination_by cs => cs.length
decreasing_by
  · simp [List.length_drop]; omega
  · simp
  · simp

/-- `cleanValue`: drop trailing `Go to …`, bracketed spans, collapse
whitespace, trim (`undefined` stays `undefined`; a falsy value yields
`undefined`). -/
def cleanValue (value : Option String) : Option String :=
  if ¬ jsStrTruthy value then none
  else
    some (jsTrim (collapseWs ⟨bracketRemove (goToCut (value.getD "").data)⟩))

/-- `.replace(/\s+\d{1,2}\/\d{1,2}\/\d{4}.*$/, "")`: cut at the first
whitespace-run-plus-date with no later newline. -/
def ownerDateCut : List Char → List Char
  | [] => []
  | c :: cs =>
    (if isJsWs c then
      let run := (c :: cs).takeWhile isJsWs
      let rest := (c :: cs).drop run.length
      match dateAttempt rest with
      | some d => if ¬ (rest.drop d.length).contains '\n' then some [] else none
      | none => none
    else none).getD (c :: ownerDateCut cs)

/-- `\d{5}(?:-\d{4})?` at the head; returns the matched characters. -/
def zip5opt (cs : List Char) : Option (List Char) :=
  if (cs.take 5).length = 5 && (cs.take 5).all Char.isDigit then
    match cs.drop 5 with
    | '-' :: rest =>
      if (rest.take 4).length = 4 && (rest.take 4).all Char.isDigit then
        some (cs.take 5 ++ ['-'] ++ rest.take 4)
      else some (cs.take 5)
    | _ => some (cs.take 5)
  else none

/-- `/^(.+?),\s*([A-Z]+)\s+(\d{5}(?:-\d{4})?)/i`: non-greedy prefix up to a
comma followed by an alpha run, whitespace and a zip. -/
def situsAGo (acc : List Char) : List Char → Option (String × String × String)
  | [] => none
  | c :: rest =>
    if c = '\n' then none
    else if c = ',' && ¬ acc.isEmpty then
      let r := rest.dropWhile isJsWs
      let alpha := r.takeWhile Char.isAlpha
      let attempt :=
        if alpha.length ≥ 1 then
          let r2 := r.drop alpha.length
          let ws := r2.takeWhile isJsWs
          if ws.length ≥ 1 then
            match zip5opt (r2.drop ws.length) with
            | some z => some (⟨acc.reverse⟩, ⟨alpha⟩, (⟨z⟩ : String))
            | none => none
          else none
        else none
      match attempt with
      | some m => some m
      | none => situsAGo (c :: acc) rest
    else situsAGo (c :: acc) rest

def situsMatchA (s : String) : Option (String × String × String) :=
  situsAGo [] s.data

/-- The state-zip tail of the situs pattern B after the city capture:
`,?\s*([A-Z]{2})\s+(\d{5}(?:-\d{4})?)`. -/
def situsBTail (r : List Char) : Option (String × String) :=
  let r := match r with
    | ',' :: t => t
    | t => t
  let r := r.dropWhile isJsWs
  if (r.take 2).length = 2 && (r.take 2).all Char.isAlpha then
    let r2 := r.drop 2
    let ws := r2.takeWhile isJsWs
    if ws.length ≥ 1 then
      match zip5opt (r2.drop ws.length) with
      | some z => some ((⟨r.take 2⟩ : String), (⟨z⟩ : String))
      | none => none
    else none
  else none

/-- Greedy-with-backtracking `([^,]+)` capture of pattern B: longest city
candidate whose tail matches. -/
def situsBCity (r : List Char) : Nat → Option (String × String × String)
  | 0 => none
  | len + 1 =>
    match situsBTail (r.drop (len + 1)) with
    | some (st, z) => some ((⟨r.take (len + 1)⟩ : String), st, z)
    | none => situsBCity r len

/-- `/^(.+?),\s*([^,]+),?\s*([A-Z]{2})\s+(\d{5}(?:-\d{4})?)/i`. -/
def situsBGo (acc : List Char) : List Char → Option (String × String × String × String)
  | [] => none
  | c :: rest =>
    if c = '\n' then none
    else if c = ',' && ¬ acc.isEmpty then
      let r := rest.dropWhile isJsWs
      let cityFull := r.takeWhile (· ≠ ',')
      match situsBCity r cityFull.length with
      | some (city, st, z) => some ((⟨acc.reverse⟩ : String), city, st, z)
      | none => situsBGo (c :: acc) rest
    else situsBGo (c :: acc) rest

def situsMatchB (s : String) : Option (String × String × String × String) :=
  situsBGo [] s.data

/-- `str.lastIndexOf(",")` plus `substring(lastComma + 1)`. -/
def afterLastComma (s : String) : Option String :=
  let pieces := splitCharAux ',' s.data []
  if pieces.length ≥ 2 then some ⟨pieces.getLastD []⟩ else none

/-- `/([\d,]+)\s*(?:Square\s*Feet|Sq\s*Ft|SF)/i`. -/
def squareFeetUnitAt (text : List Char) : Bool :=
  (ciIsPrefix "square".data text &&
    ciIsPrefix "feet".data ((text.drop 6).dropWhile isJsWs)) ||
  sqFtUnitAt text

def sqftLongSearch : List Char → Option (List Char)
  | [] => none
  | c :: cs =>
    (if isDigitComma c then
       let run := (c :: cs).takeWhile isDigitComma
       let rest := ((c :: cs).drop run.length).dropWhile isJsWs
       if squareFeetUnitAt rest then some run else none
     else none).orElse (fun _ => sqftLongSearch cs)

/-- Consume the optional `(?:SqFt|Sq\s*Ft|SF)?` unit. -/
def consumeSqftUnit (text : List Char) : Option (List Char) :=
  if ciIsPrefix "sqft".data text then some (text.drop 4)
  else if ciIsPrefix "sq".data text then
    let r := (text.drop 2).dropWhile isJsWs
    if ciIsPrefix "ft".data r then some (r.drop 2) else none
  else if ciIsPrefix "sf".data text then some (text.drop 2)
  else none

/-- `([\d,]+)\s*(?:SqFt|Sq\s*Ft|SF)?\s*<word1>\s*<word2>` (the building-area
patterns `Under\s*Roof` and `Living`). -/
def areaTailMatches (w1 : String) (w2 : Option String) (r : List Char) : Bool :=
  let r := r.dropWhile isJsWs
  ciIsPrefix w1.data r &&
    (match w2 with
     | none => true
     | some w => ciIsPrefix w.data ((r.drop w1.data.length).dropWhile isJsWs))

def buildingAreaSearch (w1 : String) (w2 : Option String) : List Char → Option (List Char)
  | [] => none
  | c :: cs =>
    (if isDigitComma c then
       let run := (c :: cs).takeWhile isDigitComma
       let rest := ((c :: cs).drop run.length).dropWhile isJsWs
       let hit :=
         (match consumeSqftUnit rest with
          | some r2 => areaTailMatches w1 w2 r2
          | none => false) || areaTailMatches w1 w2 rest
       if hit then some run else none
     else none).orElse (fun _ => buildingAreaSearch w1 w2 cs)

/-- `parseOwnerInfoFromMainPageHtml`: multi-strategy label extraction of the
owner block, then field-specific cleanups. -/
def parseOwnerInfoFromMainPageHtml (doc : Html) : PropertyDetails :=
  let details : PropertyDetails :=
    { basicInfo := some {}, building := some {}, land := some {} }
  let ownership := extractFieldFromDom doc ["Ownership", "Owner"]
  let details :=
    if jsStrTruthy ownership then
      let ownerName := jsTrim ⟨(ownership.getD "").data.takeWhile (fun c => ¬ (c = ';' || c = '\n'))⟩
      { details with owner := some (jsTrim ⟨ownerDateCut ownerName.data⟩) }
    else details
  let ownerType := cleanValue (extractFieldFromDom doc ["Owner Type"])
  let details :=
    if jsStrTruthy ownerType then
      { details with basicInfo := some { details.basicInfo.getD {} with ownerType := ownerType } }
    else details
  let situsAddress :=
    cleanValue (extractFieldFromDom doc ["Situs Address", "Property Address", "Site Address"])
  let details :=
    if jsStrTruthy situsAddress then
      let sa := situsAddress.getD ""
      let details := { details with address := some sa }
      match situsMatchA sa with
      | some (g1, g2, g3) =>
        let details :=
          match afterLastComma g1 with
          | some c => { details with city := some (jsTrim c) }
          | none => details
        { details with state := some g2, zipCode := some g3 }
      | none =>
        match situsMatchB sa with
        | some (_, city, st, z) =>
          { details with city := some (jsTrim city), state := some st, zipCode := some z }
        | none => details
    else details
  let jurisdiction := cleanValue (extractFieldFromDom doc ["Jurisdiction"])
  let details :=
    if jsStrTruthy jurisdiction then
      { details with basicInfo := some { details.basicInfo.getD {} with jurisdiction := jurisdiction } }
    else details
  let taxDistrict := cleanValue (extractFieldFromDom doc ["Tax District"])
  let details :=
    if jsStrTruthy taxDistrict then
      { details with basicInfo := some { details.basicInfo.getD {} with taxDistrict := taxDistrict } }
    else details
  let neighborhood := cleanValue (extractFieldFromDom doc ["Neighborhood"])
  let details :=
    if jsStrTruthy neighborhood then
      { details with basicInfo := some { details.basicInfo.getD {} with neighborhood := neighborhood } }
    else details
  let subdivision := cleanValue (extractFieldFromDom doc ["Subdivision"])
  let details :=
    if jsStrTruthy subdivision then
      { details with basicInfo := some { details.basicInfo.getD {} with subdivision := subdivision } }
    else details
  let landUse := cleanValue (extractFieldFromDom doc ["Land Use"])
  let details :=
    if jsStrTruthy landUse then
      { details with land := some { details.land.getD {} with landUse := landUse } }
    else details
  let landSize := extractFieldFromDom doc ["Land Size"]
  let details :=
    if jsStrTruthy landSize then
      let ls := landSize.getD ""
      let details :=
        match acresSearch ls.data with
        | some run =>
          let acresVal :=
            match parseFloatJS ⟨run⟩ with
            | some q => JVal.num q
            | none => JVal.nan
          { details with land := some { details.land.getD {} with lotSizeAcres := acresVal } }
        | none => details
      match sqftLongSearch ls.data with
      | some run =>
        let newLand := { details.land.getD {} with lotSizeSqFt := parseNumber (some ⟨run⟩) }
        { details with land := some newLand }
      | none => details
    else details
  let buildingArea := extractFieldFromDom doc ["Building Area"]
  let details :=
    if jsStrTruthy buildingArea then
      let ba := buildingArea.getD ""
      let details :=
        match buildingAreaSearch "under" (some "roof") ba.data with
        | some run =>
          let nb := { details.building.getD {} with totalAreaSqFt := parseNumber (some ⟨run⟩) }
          { details with building := some nb }
        | none => details
      match buildingAreaSearch "living" none ba.data with
      | some run =>
        let nb := { details.building.getD {} with livingAreaSqFt := parseNumber (some ⟨run⟩) }
        { details with building := some nb }
      | none => details
    else details
  let livingUnits := extractFieldFromDom doc ["Living Units"]
  let details :=
    if jsStrTruthy livingUnits then
      match parseIntJS (livingUnits.getD "") with
      | some n =>
        { details with basicInfo := some { details.basicInfo.getD {} with livingUnits := JVal.num n } }
      | none => details
    else details
  let shortDesc := cleanValue (extractFieldFromDom doc ["Short Description"])
  if jsStrTruthy shortDesc then
    { details with basicInfo := some { details.basicInfo.getD {} with shortDescription := shortDesc } }
  else details

/-! ## `extractSupplementalFromMainPage` -/

/-- The per-tab section HTML returned by the page interaction
(`extractMainPageSections`); `none` embeds an absent section. -/
structure Sections where
  ownerHtml : Option Html := none
  valuesHtml : Option Html := none
  salesHtml : Option Html := none
  buildingsHtml : Option Html := none
  featuresHtml : Option Html := none
  inspectionsHtml : Option Html := none
deriving Repr, DecidableEq

/-- `{ ...supplemental.building, ...buildingInfo.building }`: spread merge
(fields of the second operand override when set). -/
def spreadBuilding (a b : PropertyBuilding) : PropertyBuilding :=
  { yearBuilt := fillJVal b.yearBuilt a.yearBuilt
    effectiveYearBuilt := fillJVal b.effectiveYearBuilt a.effectiveYearBuilt
    livingAreaSqFt := fillJVal b.livingAreaSqFt a.livingAreaSqFt
    totalAreaSqFt := fillJVal b.totalAreaSqFt a.totalAreaSqFt
    bedrooms := fillJVal b.bedrooms a.bedrooms
    bathrooms := fillJVal b.bathrooms a.bathrooms
    fullBathrooms := fillJVal b.fullBathrooms a.fullBathrooms
    halfBathrooms := fillJVal b.halfBathrooms a.halfBathrooms
    stories := fillJVal b.stories a.stories
    units := fillJVal b.units a.units
    constructionType := fillOpt b.constructionType a.constructionType
    foundation := fillOpt b.foundation a.foundation
    exteriorWalls := fillOpt b.exteriorWalls a.exteriorWalls
    roofCover := fillOpt b.roofCover a.roofCover
    roofStructure := fillOpt b.roofStructure a.roofStructure
    interiorFinish := fillOpt b.interiorFinish a.interiorFinish
    flooring := fillOpt b.flooring a.flooring
    heating := fillOpt b.heating a.heating
    cooling := fillOpt b.cooling a.cooling
    electricUtility := fillOpt b.electricUtility a.electricUtility
    waterSource := fillOpt b.waterSource a.waterSource
    sewerType := fillOpt b.sewerType a.sewerType
    garage := fillOpt b.garage a.garage
    pool := fillOpt b.pool a.pool
    primaryBedroom := fillOpt b.primaryBedroom a.primaryBedroom
    kitchen := fillOpt b.kitchen a.kitchen
    livingRoom := fillOpt b.livingRoom a.livingRoom
    appliances := fillOpt b.appliances a.appliances
    laundryLocation := fillOpt b.laundryLocation a.laundryLocation
    interiorFeatures := fillOpt b.interiorFeatures a.interiorFeatures
    hasFireplace := fillOpt b.hasFireplace a.hasFireplace }

/-- `extractSupplementalFromMainPage`: parse each present section with its
dedicated parser. -/
def extractSupplementalFromMainPage (sections : Sections) : PropertyDetails :=
  let supplemental : PropertyDetails :=
    match sections.ownerHtml with
    | some h => parseOwnerInfoFromMainPageHtml h
    | none => {}
  let supplemental :=
    match sections.valuesHtml with
    | some h => { supplemental with valuations := some (parseValuationsTable h) }
    | none => supplemental
  let supplemental :=
    match sections.salesHtml with
    | some h => { supplemental with salesHistory := some (parseSalesTable h) }
    | none => supplemental
  let supplemental :=
    match sections.buildingsHtml with
    | some h =>
      let buildingInfo := parseBuildingsFromHtml h
      match buildingInfo.building with
      | some bb =>
        { supplemental with
          building := some (spreadBuilding (supplemental.building.getD {}) bb) }
      | none => supplemental
    | none => supplemental
  let supplemental :=
    match sections.featuresHtml with
    | some h =>
      let paoExtraFeatures := parseExtraFeaturesFromHtml h
      if paoExtraFeatures.length > 0 then
        let ne := { supplemental.extras.getD {} with paoExtraFeatures := some paoExtraFeatures }
        { supplemental with extras := some ne }
      else supplemental
    | none => supplemental
  match sections.inspectionsHtml with
  | some h =>
    let inspections := parseInspectionsFromHtml h
    if inspections.length > 0 then
      let ne := { supplemental.extras.getD {} with inspections := some inspections }
      { supplemental with extras := some ne }
    else supplemental
  | none => supplemental

/-! ## Search-result parsing and matching (manatee-pao.playwright.ts) -/

/-- `parseAddress` (the scraper's own comma-splitter; unlike the normalizer's
`parseAddressComponents` it applies no state/zip shape checks). -/
def parseAddress (address : String) : AddressComponents :=
  let parts := (jsSplitChar ',' address).map jsTrim
  let street := parts.get? 0
  let city := if parts.length ≥ 2 then parts.get? 1 else none
  let (state, zip1) :=
    if parts.length ≥ 3 then
      let stateZip := jsSplitChar ' ' (parts.getD 2 "")
      (stateZip.get? 0, if stateZip.length > 1 then stateZip.get? 1 else none)
    else (none, none)
  let zip := if parts.length ≥ 4 then parts.get? 3 else zip1
  { street := street, city := city, state := state, zipCode := zip }

/-- A parsed search-result row. -/
structure SearchRow where
  href : Option String := none
  text : String := ""
  parcelId : Option String := none
deriving Repr, DecidableEq

/-- `parseSearchResults`, on the parsed results document.  (The source tries
four `tr` selectors in turn and stops at the first that yields rows; over this
document model they all select `trs`, so a single pass is equivalent.) -/
def parseSearchResults (doc : Html) : List SearchRow :=
  doc.trs.filterMap (fun row =>
    let text := jsTrim row.text
    if row.hasTh then none
    else
      let (href, parcelId) :=
        row.links.foldl
          (fun (acc : Option String × Option String) linkHref =>
            if jsIncludes linkHref "parcel" || jsIncludes linkHref "parid" ||
                jsIncludes linkHref "detail" then
              (some linkHref,
               match parcelIdSearch linkHref.data with
               | some ds => some (⟨ds⟩ : String)
               | none => acc.2)
            else acc)
          (none, none)
      let parcelId :=
        if jsStrTruthy parcelId then parcelId
        else (tenDigitWordSearch false text.data).map (fun ds => (⟨ds⟩ : String))
      if text ≠ "" && (jsStrTruthy href || jsStrTruthy parcelId) then
        some { href := href, text := text, parcelId := parcelId }
      else none)

/-- `selectBestResult`'s result. -/
structure BestResult where
  href : Option String
  addressFound : Bool
  matchedText : Option String
deriving Repr, DecidableEq

/-- The street-number / street-name-word data `selectBestResult` derives from
the search address. -/
def streetMatchParts (searchAddress : String) : String × List String :=
  let parsed := parseAddress searchAddress
  let streetParts := jsSplitWs (jsToLower (parsed.street.getD ""))
  let streetNumber := streetParts.getD 0 ""
  let streetName := joinSep " " (streetParts.drop 1)
  let streetNameWords := (jsSplitChar ' ' streetName).filter (fun w => w.data.length > 2)
  (streetNumber, streetNameWords)

/-- Does a row's text contain the street number and at least one significant
street-name word? -/
def rowMatchesAddress (searchAddress : String) (row : SearchRow) : Bool :=
  let (streetNumber, streetNameWords) := streetMatchParts searchAddress
  let rowTextLower := jsToLower row.text
  jsIncludes rowTextLower streetNumber &&
    streetNameWords.any (fun word => jsIncludes rowTextLower word)

/-- `selectBestResult`: first row matching street number and a street-name
word (confirmed); otherwise the first row's link (or a link built from its
parcel id), unconfirmed. -/
def selectBestResult (rows : List SearchRow) (searchAddress : String) : BestResult :=
  match rows.find? (rowMatchesAddress searchAddress) with
  | some row =>
    let href :=
      if ¬ jsStrTruthy row.href && jsStrTruthy row.parcelId then
        some ("/parcel/?parid=" ++ row.parcelId.getD "")
      else row.href
    { href := href, addressFound := true, matchedText := some ⟨row.text.data.take 100⟩ }
  | none =>
    let firstRow := rows.head?
    let href :=
      match firstRow with
      | some r =>
        if jsStrTruthy r.href then r.href
        else if jsStrTruthy r.parcelId then some ("/parcel/?parid=" ++ r.parcelId.getD "")
        else none
      | none => none
    { href := href
      addressFound := false
      matchedText := firstRow.map (fun r => (⟨r.text.data.take 100⟩ : String)) }

/-! ## Blocking detection and error types (`lib/playwright/browser.ts`) -/

inductive PwCode where
  | BROWSER_LAUNCH_FAILED
  | NAVIGATION_FAILED
  | TIMEOUT
  | BLOCKED
  | PARSE_ERROR
deriving Repr, DecidableEq

/-- A thrown error: a typed `PlaywrightError` or a raw JS/playwright error. -/
inductive ScrapeError where
  | pw (code : PwCode) (message : String)
  | js (message : String)
deriving Repr, DecidableEq

def ScrapeError.isBlocked : ScrapeError → Bool
  | .pw .BLOCKED _ => true
  | _ => false

/-- The ordered blocking-pattern table of `detectBlocking`. -/
def blockPatterns : List (String × String) :=
  [("recaptcha", "reCAPTCHA detected"),
   ("hcaptcha", "hCaptcha detected"),
   ("solve this captcha", "CAPTCHA detected"),
   ("complete the captcha", "CAPTCHA detected"),
   ("verify you are human", "Human verification required"),
   ("prove you\x27re not a robot", "Human verification required"),
   ("i\x27m not a robot", "Human verification required"),
   ("checking your browser", "Cloudflare protection detected"),
   ("ray id:", "Cloudflare protection detected"),
   ("enable javascript and cookies", "Cloudflare protection detected"),
   ("access to this page has been denied", "Access denied"),
   ("you have been blocked", "IP blocked"),
   ("your ip has been blocked", "IP blocked"),
   ("your access has been blocked", "Access blocked"),
   ("rate limit exceeded", "Rate limited"),
   ("too many requests", "Too many requests"),
   ("please slow down", "Rate limited"),
   ("automated access", "Bot detected"),
   ("unusual traffic", "Bot detected"),
   ("suspicious activity", "Bot detected")]

structure BlockCheck where
  blocked : Bool
  reason : Option String := none
deriving Repr, DecidableEq

/-- `detectBlocking`: first pattern contained in the lower-cased content. -/
def detectBlocking (pageContent : String) : BlockCheck :=
  let lowerContent := jsToLower pageContent
  match blockPatterns.find? (fun p => jsIncludes lowerContent p.1) with
  | some p => { blocked := true, reason := some p.2 }
  | none => { blocked := false }

/-! ## The search-and-extract orchestrator

The browser interaction is embedded as an environment describing what the
target site serves at each step of the driver's protocol; page contents are
carried both as raw strings (for the blocking checks) and as parsed `Html`
documents (for the parsers). -/

def PAO_BASE_URL : String := "https://www.manateepao.gov"

def jsStartsWith (s p : String) : Bool :=
  p.data.isPrefixOf s.data

structure ScrapeEnv where
  /-- Navigation to the search form or the wait for the address input fails
  (a raw playwright error). -/
  formNavFails : Bool := false
  /-- Page content at the search form. -/
  formContent : String := ""
  /-- The submit button is present. -/
  submitPresent : Bool := true
  /-- The post-submit navigation times out (a raw playwright timeout). -/
  submitNavFails : Bool := false
  /-- `page.url()` after submitting the search. -/
  resultsUrl : String := ""
  /-- Raw content of the post-submit page. -/
  resultsContent : String := ""
  /-- The parsed document of the post-submit page. -/
  resultsDoc : Html := {}
  /-- Navigating to the detail page fails. -/
  detailNavFails : Bool := false
  /-- Raw outer content of the detail page. -/
  detailContent : String := ""
  /-- Per-tab section documents revealed on the detail page. -/
  sections : Sections := {}
deriving Repr, DecidableEq

structure FindResult where
  detailUrl : Option String
  addressFound : Bool
  alreadyOnDetailPage : Bool
deriving Repr, DecidableEq

/-- `findManateePaoDetailUrlOnPage`: navigate, blocking check, fill and
submit, then classify direct redirect / results list / no rows. -/
def findManateePaoDetailUrlOnPage (env : ScrapeEnv) (address : String) :
    Except ScrapeError FindResult :=
  if env.formNavFails then .error (.js "page.goto: navigation failed")
  else
    let blockCheck := detectBlocking env.formContent
    if blockCheck.blocked then
      .error (.pw .BLOCKED ("PAO site blocking detected: " ++ blockCheck.reason.getD ""))
    else if ¬ env.submitPresent then
      .error (.pw .PARSE_ERROR "Submit button not found")
    else if env.submitNavFails then
      .error (.js "page.waitForNavigation: Timeout exceeded")
    else
      let currentUrl := env.resultsUrl
      match directParcelMatch currentUrl with
      | some _ =>
        .ok { detailUrl := some currentUrl, addressFound := true, alreadyOnDetailPage := true }
      | none =>
        let resultsBlockCheck := detectBlocking env.resultsContent
        if resultsBlockCheck.blocked then
          .error (.pw .BLOCKED ("PAO site blocking on results: " ++ resultsBlockCheck.reason.getD ""))
        else
          let rows := parseSearchResults env.resultsDoc
          if rows.length = 0 then
            .ok { detailUrl := none, addressFound := false, alreadyOnDetailPage := false }
          else
            let m := selectBestResult rows address
            if ¬ jsStrTruthy m.href then
              .ok { detailUrl := none, addressFound := m.addressFound,
                    alreadyOnDetailPage := false }
            else
              let href := m.href.getD ""
              let detailUrl :=
                if jsStartsWith href "http" then href
                else PAO_BASE_URL ++ (if jsStartsWith href "/" then "" else "/") ++ href
              .ok { detailUrl := some detailUrl, addressFound := m.addressFound,
                    alreadyOnDetailPage := false }

/-- `extractManateePaoPropertyFromDetailPage`: blocking check on the outer
content, then per-tab extraction of the main-page sections. -/
def extractManateePaoPropertyFromDetailPage (env : ScrapeEnv) :
    Except ScrapeError PropertyDetails :=
  let blockCheck := detectBlocking env.detailContent
  if blockCheck.blocked then
    .error (.pw .BLOCKED ("PAO detail page blocking: " ++ blockCheck.reason.getD ""))
  else .ok (extractSupplementalFromMainPage env.sections)

structure ScrapeResult where
  detailUrl : Option String
  scraped : PropertyDetails
deriving Repr, DecidableEq

/-- The body passed to `withPage` by the orchestrator: find the detail page,
reject an unconfirmed address, navigate if needed, extract. -/
def scrapeInner (env : ScrapeEnv) (address : String) :
    Except ScrapeError ScrapeResult :=
  match findManateePaoDetailUrlOnPage env address with
  | .error e => .error e
  | .ok findResult =>
    match findResult.detailUrl with
    | none => .ok { detailUrl := none, scraped := {} }
    | some detailUrl =>
      if ¬ findResult.addressFound then
        .ok { detailUrl := none, scraped := {} }
      else if ¬ findResult.alreadyOnDetailPage && env.detailNavFails then
        .error (.js "page.goto: navigation failed")
      else
        match extractManateePaoPropertyFromDetailPage env with
        | .error e => .error e
        | .ok scraped => .ok { detailUrl := some detailUrl, scraped := scraped }

/-- `scrapeManateePaoPropertyByAddressPlaywright`: the single-session
orchestrator.  Its `catch` block re-throws only `BLOCKED` errors and converts
every other failure into `{ detailUrl: null, scraped: {} }` (the failure is
recorded only in the debug trace, which the embedding omits). -/
def scrapeManateePaoPropertyByAddressPlaywright (env : ScrapeEnv) (address : String) :
    Except ScrapeError ScrapeResult :=
  match scrapeInner env address with
  | .ok r => .ok r
  | .error e =>
    if e.isBlocked then .error e
    else .ok { detailUrl := none, scraped := {} }

/-! ## Concrete documents used in the claim theorems -/

/-- A valuations table with one valid 2024 row (no tax columns) and one
non-numeric footer row with enough cells to pass the cell-count guard. -/
def valuesDocWithFooter : Html :=
  { tables :=
      [{ headerText := "January 1 Tax Year Homestead Land Improvements Just Value"
         bodyRows := [["2024", "No", "100", "200", "300"],
                      ["Total", "a", "b", "c", "d"]] }] }

/-- A valuations table with a single valid 2024 row and no tax columns. -/
def valuesDoc2024 : Html :=
  { tables :=
      [{ headerText := "January 1 Tax Year Homestead Land Improvements Just Value"
         bodyRows := [["2024", "No", "100", "200", "300"]] }] }

/-- An unrelated HTML document: a fruit-price table (no section keywords in
play except the accidental `price`), one data row. -/
def unrelatedFruitDoc : Html :=
  { tables := [{ headerText := "Fruit Prices", bodyRows := [["apple", "1"]] }]
    trs := [{ hasTh := false, tds := ["apple", "1"], tdths := ["apple", "1"],
              text := "apple 1" }]
    bodyText := "apple 1" }

/-! ## C6 -/

/-- **C6** (code bug).  The valuation-table parser's year guard
`if (year < 2000 || year > 2100) return` does not drop a row whose first cell
fails to parse: `parseInt` yields `NaN`, both comparisons are false, and the
row is emitted with `year = NaN` — the parser does not fail closed on a
non-numeric footer cell.  This theorem evaluates the parser on a table whose
second row has first cell `"Total"`: the row is emitted (with a `NaN` year)
instead of being dropped. -/
theorem parseValuationsTable_emits_nan_year_row :
    (parseValuationsTable valuesDocWithFooter).map (·.year) =
      [JVal.num 2024, JVal.nan] := by
  decide

/-! ## C7 -/

/-- **C7** (corrected).  Every section parser is a total function and returns
an empty result on empty-string HTML input, and the valuation/sales parsers
return empty on any document without their header keywords; but on *unrelated*
HTML the features parser emits a record for any non-header row with a
non-empty first cell, so the original claim's "empty result on unrelated HTML
input" fails (see the counterexample).  The empty-string part of the claim
holds for every parser: empty lists, and label extraction finds nothing (the
owner/basic-info records carry no extracted data; `extractBasicInfo` reports
`homesteadExemption := some false` from the body-text scan of the empty
body). -/
theorem sectionParsers_empty_input (doc : Html)
    (hv : ∀ t ∈ doc.tables, isValuesHeader t = false)
    (hs : ∀ t ∈ doc.tables, isSalesHeader t = false) :
    parseValuationsTable doc = [] ∧
    parseSalesTable doc = [] ∧
    parseValuationsTable emptyHtml = [] ∧
    parseSalesTable emptyHtml = [] ∧
    parseExtraFeaturesFromHtml emptyHtml = [] ∧
    parseInspectionsFromHtml emptyHtml = [] ∧
    parseSearchResults emptyHtml = [] ∧
    (∀ labels, extractByLabel emptyHtml labels = none) ∧
    extractBasicInfo emptyHtml = { homesteadExemption := some false } ∧
    parseOwnerInfoFromMainPageHtml emptyHtml =
      { basicInfo := some {}, building := some {}, land := some {} } := by
  refine ⟨?_, ?_, by decide, by decide, by decide, by decide, by decide, ?_, by decide, by decide⟩
  · unfold parseValuationsTable
    have : doc.tables.map (fun t =>
        if isValuesHeader t then t.bodyRows.filterMap valuationOfRow else []) =
        doc.tables.map (fun _ => []) := by
      apply List.map_congr_left
      intro t ht
      simp [hv t ht]
    simp [this, jsSortStable]
  · unfold parseSalesTable
    have : doc.tables.map (fun t =>
        if isSalesHeader t then t.bodyRows.filterMap saleOfRow else []) =
        doc.tables.map (fun _ => []) := by
      apply List.map_congr_left
      intro t ht
      simp [hs t ht]
    simp [this, jsSortStable]
  · intro labels
    induction labels with
    | nil => rfl
    | cons l ls ih =>
      have h1 : extractByLabelOne emptyHtml l = none := rfl
      simp [extractByLabel] at ih ⊢
      exact ⟨h1, ih⟩

/-- **C7** counterexample: on an unrelated fruit-price table the features
parser emits a spurious record (`description := "apple"`) rather than an empty
result, falsifying "every section parser returns an empty result set on
unrelated HTML input" as stated. -/
theorem parseExtraFeatures_unrelated_not_empty :
    parseExtraFeaturesFromHtml unrelatedFruitDoc =
      [{ description := "apple" }] ∧
    parseInspectionsFromHtml unrelatedFruitDoc = [{ type := some "apple" }] := by
  decide

/-! ## C10 -/

/-- **C10** counterexample.  On a document whose valuations table has one 2024
row with no tax columns, the extracted record has a parsed valuation with no
observed ad-valorem / non-ad-valorem taxes, yet `taxAmount` is set to `0`
(`(latest.adValoremTaxes || 0) + (latest.nonAdValoremTaxes || 0)`), not left
absent. -/
theorem extractPropertyData_taxAmount_zero_when_unobserved :
    ((extractPropertyData valuesDoc2024 "u").valuations.getD []).map
        (fun v => (v.adValoremTaxes, v.nonAdValoremTaxes)) =
      [(JVal.undef, JVal.undef)] ∧
    ((extractPropertyData valuesDoc2024 "u").valuations.getD []).length = 1 ∧
    (extractPropertyData valuesDoc2024 "u").taxAmount = JVal.num 0 := by
  refine ⟨rfl, rfl, ?_⟩
  show JVal.num _ = JVal.num 0
  norm_num [latestValuation, JVal.or0]

/-- **C10** (corrected).  Whenever at least one valuation record was parsed,
`extractPropertyData` always sets `taxAmount` to the sum of the most recent
(by `year || 0`) valuation's tax columns with missing columns treated as `0` —
in particular `taxAmount` is `0` (present), not absent, when no tax column was
observed.  `marketValue`/`assessedValue`, by contrast, stay absent when
unobserved. -/
theorem extractPropertyData_taxAmount_formula (doc : Html) (url : String)
    (v : ValuationRecord) (vs : List ValuationRecord)
    (h : (extractPropertyData doc url).valuations = some (v :: vs)) :
    (extractPropertyData doc url).taxAmount =
      JVal.num ((latestValuation v vs).adValoremTaxes.or0 +
        (latestValuation v vs).nonAdValoremTaxes.or0) ∧
    (extractPropertyData doc url).marketValue =
      ((latestValuation v vs).just.getD {}).total ∧
    (extractPropertyData doc url).assessedValue =
      ((latestValuation v vs).assessed.getD {}).total := by
  have hval : (extractPropertyData doc url).valuations = some (parseValuationsTable doc) := rfl
  rw [hval] at h
  have hl : parseValuationsTable doc = v :: vs := by
    exact Option.some.inj h
  refine ⟨?_, ?_, ?_⟩
  · show (deriveValuationSummary (parseValuationsTable doc)).2.2 = _
    rw [hl]; simp [deriveValuationSummary]
  · show (deriveValuationSummary (parseValuationsTable doc)).1 = _
    rw [hl]; simp [deriveValuationSummary]
  · show (deriveValuationSummary (parseValuationsTable doc)).2.1 = _
    rw [hl]; simp [deriveValuationSummary]

/-! ## C3 -/

/-- Appending the key-filtered supplemental entries to a duplicate-free base
list keeps the mapped keys duplicate-free (the dedup in
`mergePropertyDetails`). -/
theorem appendFilterNodupKeys {α β : Type} [DecidableEq β] (key : α → β)
    (bl sl : List α) (hb : (bl.map key).Nodup) (hs : (sl.map key).Nodup) :
    ((bl ++ sl.filter (fun v => ¬ decide (key v ∈ bl.map key))).map key).Nodup := by
  rw [List.map_append]
  refine List.Nodup.append hb ?_ ?_
  · exact ((List.filter_sublist sl).map key).nodup hs
  · intro y hyb hyf
    rcases List.mem_map.mp hyf with ⟨v, hvf, hkey⟩
    have hnot := List.of_mem_filter hvf
    simp at hnot
    rcases List.mem_map.mp hyb with ⟨x, hxb, hxk⟩
    exact hnot x hxb (by rw [hxk, hkey])

/-- `PropertyDetails` inputs for the C3 counterexample: the supplemental pass
itself contains two 2019 entries; the passes overlap on 2020. -/
def c3Base : PropertyDetails :=
  { valuations := some [{ year := .num 2020 }] }

def c3Supp : PropertyDetails :=
  { valuations := some
      [{ year := .num 2020, adValoremTaxes := .num 1 },
       { year := .num 2019 },
       { year := .num 2019, nonAdValoremTaxes := .num 2 }] }

/-- **C3** counterexample.  The two passes overlap on year 2020, yet the
merged valuation list contains two entries with year 2019: the merge dedups
the supplemental entries only against the base list, never against each
other, so the claim fails as stated. -/
theorem mergePropertyDetails_duplicate_years :
    (JVal.num 2020 ∈ (c3Base.valuations.getD []).map (·.year) ∧
     JVal.num 2020 ∈ (c3Supp.valuations.getD []).map (·.year)) ∧
    ¬ (((mergePropertyDetails c3Base c3Supp).valuations.getD []).map (·.year)).Nodup := by
  decide

/-- **C3** (corrected).  When each pass's own valuation years (resp. sale
dates) are duplicate-free, the merged lists have duplicate-free keys — also
(in particular) when the passes overlap: a supplemental entry whose key is
already present in the base is never appended.  Duplicates can arise only
when one input already carries a duplicated key (see the counterexample). -/
theorem mergePropertyDetails_nodup_keys (base supp : PropertyDetails)
    (hbv : ((base.valuations.getD []).map (·.year)).Nodup)
    (hsv : ((supp.valuations.getD []).map (·.year)).Nodup)
    (hbs : ((base.salesHistory.getD []).map (·.date)).Nodup)
    (hss : ((supp.salesHistory.getD []).map (·.date)).Nodup) :
    (((mergePropertyDetails base supp).valuations.getD []).map (·.year)).Nodup ∧
    (((mergePropertyDetails base supp).salesHistory.getD []).map (·.date)).Nodup := by
  have hveq : (mergePropertyDetails base supp).valuations =
      (match supp.valuations with
       | some l =>
         if l.length > 0 then
           some ((base.valuations.getD []) ++
             l.filter (fun v => ¬ decide (v.year ∈ (base.valuations.getD []).map (fun w => w.year))))
         else base.valuations
       | none => base.valuations) := rfl
  have hseq : (mergePropertyDetails base supp).salesHistory =
      (match supp.salesHistory with
       | some l =>
         if l.length > 0 then
           some ((base.salesHistory.getD []) ++
             l.filter (fun s => ¬ decide (s.date ∈ (base.salesHistory.getD []).map (fun w => w.date))))
         else base.salesHistory
       | none => base.salesHistory) := rfl
  rw [hveq, hseq]
  constructor
  · cases hv : supp.valuations with
    | none => exact hbv
    | some l =>
      simp only
      split
      · simpa using appendFilterNodupKeys (fun w : ValuationRecord => w.year)
          (base.valuations.getD []) l hbv (by simpa [hv] using hsv)
      · exact hbv
  · cases hv : supp.salesHistory with
    | none => exact hbs
    | some l =>
      simp only
      split
      · simpa using appendFilterNodupKeys (fun w : SaleRecord => w.date)
          (base.salesHistory.getD []) l hbs (by simpa [hv] using hss)
      · exact hbs

/-- **C3** witness: the deduplication theorem applied to concrete overlapping
passes with internally duplicate-free keys. -/
theorem mergePropertyDetails_nodup_keys_witness :
    (((mergePropertyDetails c3Base
        { valuations := some [{ year := .num 2020, adValoremTaxes := .num 1 },
                              { year := .num 2019 }] }).valuations.getD []).map
        (·.year)).Nodup ∧
    (((mergePropertyDetails c3Base
        { valuations := some [{ year := .num 2020, adValoremTaxes := .num 1 },
                              { year := .num 2019 }] }).salesHistory.getD []).map
        (·.date)).Nodup :=
  mergePropertyDetails_nodup_keys c3Base
    { valuations := some [{ year := .num 2020, adValoremTaxes := .num 1 },
                          { year := .num 2019 }] }
    (by decide) (by decide) (by decide) (by decide)

/-! ## C4 -/

theorem fillOpt_cases {α : Type} (b s : Option α) : fillOpt b s = b ∨ b = none := by
  cases b <;> simp [fillOpt]

theorem fillJVal_cases (b s : JVal) : fillJVal b s = b ∨ b = .undef := by
  cases b <;> simp [fillJVal, JVal.defined]

theorem fillScalar_cases (b s : Option String) :
    fillScalar b s = b ∨ (jsStrTruthy b = false ∧ fillScalar b s = s) := by
  unfold fillScalar
  by_cases h1 : jsStrTruthy b
  · simp [h1]
  · by_cases h2 : jsStrTruthy s <;> simp [h1, h2]

/-- Every field of the merged basic-info group is the base's value, or the
base's value was undefined. -/
def basicPreserves (bi mi : PropertyBasicInfo) : Prop :=
  (mi.accountNumber = bi.accountNumber ∨ bi.accountNumber = none) ∧
  (mi.useCode = bi.useCode ∨ bi.useCode = none) ∧
  (mi.useDescription = bi.useDescription ∨ bi.useDescription = none) ∧
  (mi.situsAddress = bi.situsAddress ∨ bi.situsAddress = none) ∧
  (mi.mailingAddress = bi.mailingAddress ∨ bi.mailingAddress = none) ∧
  (mi.subdivision = bi.subdivision ∨ bi.subdivision = none) ∧
  (mi.neighborhood = bi.neighborhood ∨ bi.neighborhood = none) ∧
  (mi.municipality = bi.municipality ∨ bi.municipality = none) ∧
  (mi.jurisdiction = bi.jurisdiction ∨ bi.jurisdiction = none) ∧
  (mi.taxDistrict = bi.taxDistrict ∨ bi.taxDistrict = none) ∧
  (mi.sectionTownshipRange = bi.sectionTownshipRange ∨ bi.sectionTownshipRange = none) ∧
  (mi.legalDescription = bi.legalDescription ∨ bi.legalDescription = none) ∧
  (mi.shortDescription = bi.shortDescription ∨ bi.shortDescription = none) ∧
  (mi.homesteadExemption = bi.homesteadExemption ∨ bi.homesteadExemption = none) ∧
  (mi.femaValue = bi.femaValue ∨ bi.femaValue = .undef) ∧
  (mi.ownerType = bi.ownerType ∨ bi.ownerType = none) ∧
  (mi.livingUnits = bi.livingUnits ∨ bi.livingUnits = .undef)

/-- Every field of the merged building group is the base's value, or the
base's value was undefined. -/
def buildingPreserves (bb mb : PropertyBuilding) : Prop :=
  (mb.yearBuilt = bb.yearBuilt ∨ bb.yearBuilt = .undef) ∧
  (mb.effectiveYearBuilt = bb.effectiveYearBuilt ∨ bb.effectiveYearBuilt = .undef) ∧
  (mb.livingAreaSqFt = bb.livingAreaSqFt ∨ bb.livingAreaSqFt = .undef) ∧
  (mb.totalAreaSqFt = bb.totalAreaSqFt ∨ bb.totalAreaSqFt = .undef) ∧
  (mb.bedrooms = bb.bedrooms ∨ bb.bedrooms = .undef) ∧
  (mb.bathrooms = bb.bathrooms ∨ bb.bathrooms = .undef) ∧
  (mb.fullBathrooms = bb.fullBathrooms ∨ bb.fullBathrooms = .undef) ∧
  (mb.halfBathrooms = bb.halfBathrooms ∨ bb.halfBathrooms = .undef) ∧
  (mb.stories = bb.stories ∨ bb.stories = .undef) ∧
  (mb.units = bb.units ∨ bb.units = .undef) ∧
  (mb.constructionType = bb.constructionType ∨ bb.constructionType = none) ∧
  (mb.foundation = bb.foundation ∨ bb.foundation = none) ∧
  (mb.exteriorWalls = bb.exteriorWalls ∨ bb.exteriorWalls = none) ∧
  (mb.roofCover = bb.roofCover ∨ bb.roofCover = none) ∧
  (mb.roofStructure = bb.roofStructure ∨ bb.roofStructure = none) ∧
  (mb.interiorFinish = bb.interiorFinish ∨ bb.interiorFinish = none) ∧
  (mb.flooring = bb.flooring ∨ bb.flooring = none) ∧
  (mb.heating = bb.heating ∨ bb.heating = none) ∧
  (mb.cooling = bb.cooling ∨ bb.cooling = none) ∧
  (mb.electricUtility = bb.electricUtility ∨ bb.electricUtility = none) ∧
  (mb.waterSource = bb.waterSource ∨ bb.waterSource = none) ∧
  (mb.sewerType = bb.sewerType ∨ bb.sewerType = none) ∧
  (mb.garage = bb.garage ∨ bb.garage = none) ∧
  (mb.pool = bb.pool ∨ bb.pool = none) ∧
  (mb.primaryBedroom = bb.primaryBedroom ∨ bb.primaryBedroom = none) ∧
  (mb.kitchen = bb.kitchen ∨ bb.kitchen = none) ∧
  (mb.livingRoom = bb.livingRoom ∨ bb.livingRoom = none) ∧
  (mb.appliances = bb.appliances ∨ bb.appliances = none) ∧
  (mb.laundryLocation = bb.laundryLocation ∨ bb.laundryLocation = none) ∧
  (mb.interiorFeatures = bb.interiorFeatures ∨ bb.interiorFeatures = none) ∧
  (mb.hasFireplace = bb.hasFireplace ∨ bb.hasFireplace = none)

/-- Every field of the merged land group is the base's value, or the base's
value was undefined. -/
def landPreserves (bl ml : PropertyLand) : Prop :=
  (ml.lotSizeSqFt = bl.lotSizeSqFt ∨ bl.lotSizeSqFt = .undef) ∧
  (ml.lotSizeAcres = bl.lotSizeAcres ∨ bl.lotSizeAcres = .undef) ∧
  (ml.landUse = bl.landUse ∨ bl.landUse = none) ∧
  (ml.landUseCode = bl.landUseCode ∨ bl.landUseCode = none) ∧
  (ml.frontageFt = bl.frontageFt ∨ bl.frontageFt = .undef) ∧
  (ml.depthFt = bl.depthFt ∨ bl.depthFt = .undef) ∧
  (ml.dimensions = bl.dimensions ∨ bl.dimensions = none) ∧
  (ml.roadSurfaceType = bl.roadSurfaceType ∨ bl.roadSurfaceType = none)

theorem basicPreserves_refl (bi : PropertyBasicInfo) : basicPreserves bi bi := by
  unfold basicPreserves; simp

theorem buildingPreserves_refl (bb : PropertyBuilding) : buildingPreserves bb bb := by
  unfold buildingPreserves; simp

theorem landPreserves_refl (bl : PropertyLand) : landPreserves bl bl := by
  unfold landPreserves; simp

theorem mergeBasicInfo_preserves (bi : PropertyBasicInfo) (s : PropertyBasicInfo) :
    basicPreserves bi (mergeBasicInfo (some bi) s) := by
  unfold basicPreserves mergeBasicInfo
  simp only [Option.getD]
  exact ⟨fillOpt_cases _ _, fillOpt_cases _ _, fillOpt_cases _ _, fillOpt_cases _ _,
    fillOpt_cases _ _, fillOpt_cases _ _, fillOpt_cases _ _, fillOpt_cases _ _,
    fillOpt_cases _ _, fillOpt_cases _ _, fillOpt_cases _ _, fillOpt_cases _ _,
    fillOpt_cases _ _, fillOpt_cases _ _, fillJVal_cases _ _, fillOpt_cases _ _,
    fillJVal_cases _ _⟩

theorem mergeBuilding_preserves (bb : PropertyBuilding) (s : PropertyBuilding) :
    buildingPreserves bb (mergeBuilding (some bb) s) := by
  unfold buildingPreserves mergeBuilding
  simp only [Option.getD]
  exact ⟨fillJVal_cases _ _, fillJVal_cases _ _, fillJVal_cases _ _, fillJVal_cases _ _,
    fillJVal_cases _ _, fillJVal_cases _ _, fillJVal_cases _ _, fillJVal_cases _ _,
    fillJVal_cases _ _, fillJVal_cases _ _, fillOpt_cases _ _, fillOpt_cases _ _,
    fillOpt_cases _ _, fillOpt_cases _ _, fillOpt_cases _ _, fillOpt_cases _ _,
    fillOpt_cases _ _, fillOpt_cases _ _, fillOpt_cases _ _, fillOpt_cases _ _,
    fillOpt_cases _ _, fillOpt_cases _ _, fillOpt_cases _ _, fillOpt_cases _ _,
    fillOpt_cases _ _, fillOpt_cases _ _, fillOpt_cases _ _, fillOpt_cases _ _,
    fillOpt_cases _ _, fillOpt_cases _ _, fillOpt_cases _ _⟩

theorem mergeLand_preserves (bl : PropertyLand) (s : PropertyLand) :
    landPreserves bl (mergeLand (some bl) s) := by
  unfold landPreserves mergeLand
  simp only [Option.getD]
  exact ⟨fillJVal_cases _ _, fillJVal_cases _ _, fillOpt_cases _ _, fillOpt_cases _ _,
    fillJVal_cases _ _, fillJVal_cases _ _, fillOpt_cases _ _, fillOpt_cases _ _⟩

/-- Inputs for the C4 counterexample: the base owner is set to the empty
string, which JS truthiness treats as unset. -/
def c4Base : PropertyDetails := { owner := some "" }

def c4Supp : PropertyDetails := { owner := some "SMITH JOHN" }

/-- **C4** counterexample.  A base record whose `owner` field is set (to the
empty string) is overwritten by the supplemental value: the scalar fill tests
JS truthiness (`!merged.owner`), not presence, so the claim fails as stated
for set-but-empty scalar fields. -/
theorem mergePropertyDetails_overwrites_empty_scalar :
    c4Base.owner.isSome ∧
    (mergePropertyDetails c4Base c4Supp).owner ≠ c4Base.owner ∧
    (mergePropertyDetails c4Base c4Supp).owner = some "SMITH JOHN" := by
  decide

/-- **C4** (corrected).  Merging never removes or overwrites a base scalar
that is set to a *truthy* (non-empty) value: each of the six top-level string
scalars is either kept unchanged or — only when the base value was falsy
(absent or the empty string) — set to the supplemental value; and every
defined field of `basicInfo`, `building` and `land` in the base is preserved
unchanged (supplemental group fields are copied only into undefined base
fields). -/
theorem mergePropertyDetails_non_destructive (base supp : PropertyDetails) :
    ((mergePropertyDetails base supp).owner = base.owner ∨
      (jsStrTruthy base.owner = false ∧
        (mergePropertyDetails base supp).owner = supp.owner)) ∧
    ((mergePropertyDetails base supp).address = base.address ∨
      (jsStrTruthy base.address = false ∧
        (mergePropertyDetails base supp).address = supp.address)) ∧
    ((mergePropertyDetails base supp).city = base.city ∨
      (jsStrTruthy base.city = false ∧
        (mergePropertyDetails base supp).city = supp.city)) ∧
    ((mergePropertyDetails base supp).state = base.state ∨
      (jsStrTruthy base.state = false ∧
        (mergePropertyDetails base supp).state = supp.state)) ∧
    ((mergePropertyDetails base supp).zipCode = base.zipCode ∨
      (jsStrTruthy base.zipCode = false ∧
        (mergePropertyDetails base supp).zipCode = supp.zipCode)) ∧
    ((mergePropertyDetails base supp).ownerType = base.ownerType ∨
      (jsStrTruthy base.ownerType = false ∧
        (mergePropertyDetails base supp).ownerType = supp.ownerType)) ∧
    (∀ bi, base.basicInfo = some bi →
      ∃ mi, (mergePropertyDetails base supp).basicInfo = some mi ∧ basicPreserves bi mi) ∧
    (∀ bb, base.building = some bb →
      ∃ mb, (mergePropertyDetails base supp).building = some mb ∧ buildingPreserves bb mb) ∧
    (∀ bl, base.land = some bl →
      ∃ ml, (mergePropertyDetails base supp).land = some ml ∧ landPreserves bl ml) := by
  refine ⟨fillScalar_cases _ _, fillScalar_cases _ _, fillScalar_cases _ _,
    fillScalar_cases _ _, fillScalar_cases _ _, fillScalar_cases _ _, ?_, ?_, ?_⟩
  · intro bi hbi
    show ∃ mi, (match supp.basicInfo with
      | some s => some (mergeBasicInfo base.basicInfo s)
      | none => base.basicInfo) = some mi ∧ basicPreserves bi mi
    cases hs : supp.basicInfo with
    | none => exact ⟨bi, hbi, basicPreserves_refl bi⟩
    | some s => exact ⟨mergeBasicInfo base.basicInfo s, rfl,
        by rw [hbi]; exact mergeBasicInfo_preserves bi s⟩
  · intro bb hbb
    show ∃ mb, (match supp.building with
      | some s => some (mergeBuilding base.building s)
      | none => base.building) = some mb ∧ buildingPreserves bb mb
    cases hs : supp.building with
    | none => exact ⟨bb, hbb, buildingPreserves_refl bb⟩
    | some s => exact ⟨mergeBuilding base.building s, rfl,
        by rw [hbb]; exact mergeBuilding_preserves bb s⟩
  · intro bl hbl
    show ∃ ml, (match supp.land with
      | some s => some (mergeLand base.land s)
      | none => base.land) = some ml ∧ landPreserves bl ml
    cases hs : supp.land with
    | none => exact ⟨bl, hbl, landPreserves_refl bl⟩
    | some s => exact ⟨mergeLand base.land s, rfl,
        by rw [hbl]; exact mergeLand_preserves bl s⟩

/-- Concrete records for the C4 witness. -/
def c4WBase : PropertyDetails :=
  { owner := some "OWNER A"
    basicInfo := some { jurisdiction := some "CITY OF BRADENTON" } }

def c4WSupp : PropertyDetails :=
  { owner := some "B"
    basicInfo := some { jurisdiction := some "OTHER", taxDistrict := some "D1" } }

/-- **C4** witness: the non-destructiveness theorem applied to concrete
records with a truthy base owner and a set base jurisdiction. -/
theorem mergePropertyDetails_non_destructive_witness :
    ∃ mi, (mergePropertyDetails c4WBase c4WSupp).basicInfo = some mi ∧
      basicPreserves { jurisdiction := some "CITY OF BRADENTON" } mi :=
  (mergePropertyDetails_non_destructive c4WBase c4WSupp).2.2.2.2.2.2.1
    { jurisdiction := some "CITY OF BRADENTON" } rfl

/-! ## C2 -/

/-- Result rows for the C2 concrete instance: a non-matching row first, then
the row carrying street number `4659` and street name `56th Terrace`. -/
def c2Rows : List SearchRow :=
  [{ href := some "/parcel/?parid=9999999999", text := "100 Oak St Palmetto",
     parcelId := some "9999999999" },
   { href := some "/parcel/?parid=1234567890", text := "4659 56th Terrace E Bradenton",
     parcelId := some "1234567890" }]

/-- **C2** (confirmed).  For a non-empty results list: the matcher confirms
(`addressFound = true`) exactly when some row's lower-cased text contains the
street number and at least one significant (length > 2) street-name word
(`rowMatchesAddress`); the first such row's link (or a link built from its
parcel id when the href is falsy) is returned; when no row matches, the first
row's link (or parcel-id link, or null) is returned with
`addressFound = false`.  In particular, searching "4659 56th Terrace East"
against a list containing a row with `4659` and `56th Terrace` selects that
row, confirmed. -/
theorem selectBestResult_spec :
    (∀ (rows : List SearchRow) (addr : String), rows ≠ [] →
      ((selectBestResult rows addr).addressFound = true ↔
        ∃ row ∈ rows, rowMatchesAddress addr row = true) ∧
      (∀ row₀, rows.find? (rowMatchesAddress addr) = some row₀ →
        selectBestResult rows addr =
          { href :=
              if ¬ jsStrTruthy row₀.href && jsStrTruthy row₀.parcelId then
                some ("/parcel/?parid=" ++ row₀.parcelId.getD "")
              else row₀.href
            addressFound := true
            matchedText := some ⟨row₀.text.data.take 100⟩ }) ∧
      ((∀ row ∈ rows, rowMatchesAddress addr row = false) →
        selectBestResult rows addr =
          { href :=
              match rows.head? with
              | some fr =>
                if jsStrTruthy fr.href then fr.href
                else if jsStrTruthy fr.parcelId then
                  some ("/parcel/?parid=" ++ fr.parcelId.getD "")
                else none
              | none => none
            addressFound := false
            matchedText := rows.head?.map (fun r => (⟨r.text.data.take 100⟩ : String)) })) ∧
    selectBestResult c2Rows "4659 56th Terrace East" =
      { href := some "/parcel/?parid=1234567890", addressFound := true,
        matchedText := some "4659 56th Terrace E Bradenton" } := by
  refine ⟨?_, by decide⟩
  intro rows addr _
  refine ⟨?_, ?_, ?_⟩
  · cases hf : rows.find? (rowMatchesAddress addr) with
    | some row =>
      simp only [selectBestResult, hf]
      simp only [true_iff]
      exact ⟨row, List.mem_of_find?_eq_some hf, List.find?_some hf⟩
    | none =>
      simp only [selectBestResult, hf]
      constructor
      · intro hfalse; exact absurd hfalse (by simp)
      · rintro ⟨row, hrow, hmatch⟩
        have := List.find?_eq_none.mp hf row hrow
        simp [hmatch] at this
  · intro row₀ hf
    simp only [selectBestResult, hf]
  · intro hnone
    have hf : rows.find? (rowMatchesAddress addr) = none :=
      List.find?_eq_none.mpr (fun x hx => by simp [hnone x hx])
    simp only [selectBestResult, hf]

/-- **C2** witness: the matcher specification applied to the concrete
two-row list. -/
theorem selectBestResult_spec_witness :
    (selectBestResult c2Rows "4659 56th Terrace East").addressFound = true ↔
      ∃ row ∈ c2Rows, rowMatchesAddress "4659 56th Terrace East" row = true :=
  (selectBestResult_spec.1 c2Rows "4659 56th Terrace East" (by decide)).1

/-! ## C1 -/

/-- Environment for the C1 counterexample: the site redirects straight to a
detail page (single-match redirect); the results document parses to zero
rows. -/
def c1Env : ScrapeEnv :=
  { resultsUrl := "https://www.manateepao.gov/parcel/?parid=1234567890" }

/-- **C1** counterexample.  On a direct single-match redirect the orchestrator
treats the address as confirmed without any row check: no parsed result row
matches the searched street number and name (there are no rows at all), yet
the operation returns a non-null `detailUrl` and proceeds to extract — the
claim fails as stated for the direct-redirect path. -/
theorem scrape_direct_redirect_skips_confirmation :
    (∀ row ∈ parseSearchResults c1Env.resultsDoc, rowMatchesAddress "1 Main St" row = false) ∧
    scrapeManateePaoPropertyByAddressPlaywright c1Env "1 Main St" =
      .ok { detailUrl := some "https://www.manateepao.gov/parcel/?parid=1234567890",
            scraped := {} } := by
  constructor
  · intro row hrow
    simp [parseSearchResults, c1Env] at hrow
  · rfl

/-- When no parsed row matches, the find step cannot return a confirmed
non-direct result: it either throws, or returns no URL, or returns
unconfirmed. -/
theorem find_no_match_cases (env : ScrapeEnv) (addr : String)
    (hdirect : directParcelMatch env.resultsUrl = none)
    (hnomatch : ∀ row ∈ parseSearchResults env.resultsDoc,
      rowMatchesAddress addr row = false) :
    (∃ e, findManateePaoDetailUrlOnPage env addr = .error e) ∨
    (∃ fr, findManateePaoDetailUrlOnPage env addr = .ok fr ∧
      (fr.detailUrl = none ∨ fr.addressFound = false)) := by
  have hf : (parseSearchResults env.resultsDoc).find? (rowMatchesAddress addr) = none :=
    List.find?_eq_none.mpr (fun x hx => by simp [hnomatch x hx])
  have hsel : (selectBestResult (parseSearchResults env.resultsDoc) addr).addressFound
      = false := by
    simp only [selectBestResult, hf]
  simp only [findManateePaoDetailUrlOnPage]
  by_cases h1 : env.formNavFails
  · exact Or.inl ⟨.js "page.goto: navigation failed", by rw [if_pos h1]⟩
  · rw [if_neg h1]
    by_cases h2 : (detectBlocking env.formContent).blocked
    · exact Or.inl ⟨.pw .BLOCKED ("PAO site blocking detected: " ++
        (detectBlocking env.formContent).reason.getD ""), by rw [if_pos h2]⟩
    · rw [if_neg h2]
      by_cases h3 : env.submitPresent
      · rw [if_neg (not_not_intro h3)]
        by_cases h4 : env.submitNavFails
        · exact Or.inl ⟨.js "page.waitForNavigation: Timeout exceeded", by rw [if_pos h4]⟩
        · rw [if_neg h4, hdirect]
          by_cases h5 : (detectBlocking env.resultsContent).blocked
          · exact Or.inl ⟨.pw .BLOCKED ("PAO site blocking on results: " ++
              (detectBlocking env.resultsContent).reason.getD ""), by rw [if_pos h5]⟩
          · rw [if_neg h5]
            by_cases h6 : (parseSearchResults env.resultsDoc).length = 0
            · rw [if_pos h6]
              exact Or.inr ⟨_, rfl, Or.inl rfl⟩
            · rw [if_neg h6]
              by_cases h7 : jsStrTruthy
                  (selectBestResult (parseSearchResults env.resultsDoc) addr).href
              · rw [if_neg (not_not_intro h7)]
                exact Or.inr ⟨_, rfl, Or.inr hsel⟩
              · rw [if_pos h7]
                exact Or.inr ⟨_, rfl, Or.inl rfl⟩
      · rw [if_pos h3]
        exact Or.inl ⟨.pw .PARSE_ERROR "Submit button not found", rfl⟩

/-- **C1** (corrected).  Provided the search produced a results page rather
than a direct single-match redirect, then whenever no parsed result row's
text contains both the searched street number and a significant street-name
word, any successful return of the combined search-and-extract operation has
`detailUrl = null` and an empty scraped record — an unconfirmed row is never
extracted.  (On a direct redirect the code confirms the address without any
row check; see the counterexample.) -/
theorem scrape_no_match_returns_empty (env : ScrapeEnv) (addr : String)
    (hdirect : directParcelMatch env.resultsUrl = none)
    (hnomatch : ∀ row ∈ parseSearchResults env.resultsDoc,
      rowMatchesAddress addr row = false) :
    ∀ r, scrapeManateePaoPropertyByAddressPlaywright env addr = .ok r →
      r.detailUrl = none ∧ r.scraped = emptyPropertyDetails := by
  intro r hok
  rcases find_no_match_cases env addr hdirect hnomatch with ⟨e, he⟩ | ⟨fr, hfr, hcase⟩
  · have hinner : scrapeInner env addr = .error e := by
      unfold scrapeInner
      rw [he]
    unfold scrapeManateePaoPropertyByAddressPlaywright at hok
    rw [hinner] at hok
    by_cases hb : e.isBlocked
    · simp [hb] at hok
    · simp only [hb, Bool.false_eq_true, if_false] at hok
      cases Except.ok.inj hok
      exact ⟨rfl, rfl⟩
  · have hinner : scrapeInner env addr = .ok { detailUrl := none, scraped := {} } := by
      unfold scrapeInner
      rw [hfr]
      show ((match fr.detailUrl with
        | none => Except.ok { detailUrl := none, scraped := {} }
        | some detailUrl =>
          if ¬ fr.addressFound then Except.ok { detailUrl := none, scraped := {} }
          else if ¬ fr.alreadyOnDetailPage && env.detailNavFails then
            Except.error (.js "page.goto: navigation failed")
          else
            match extractManateePaoPropertyFromDetailPage env with
            | .error e => Except.error e
            | .ok scraped => Except.ok { detailUrl := some detailUrl, scraped := scraped }
        : Except ScrapeError ScrapeResult)) =
        Except.ok { detailUrl := none, scraped := {} }
      rcases hcase with hnone | hfound
      · rw [hnone]
      · cases hurl : fr.detailUrl with
        | none => rfl
        | some d => simp [hfound]
    unfold scrapeManateePaoPropertyByAddressPlaywright at hok
    rw [hinner] at hok
    cases Except.ok.inj hok
    exact ⟨rfl, rfl⟩

instance {ε α : Type} [DecidableEq ε] [DecidableEq α] : DecidableEq (Except ε α) :=
  fun a b =>
    match a, b with
    | .error e1, .error e2 =>
      if h : e1 = e2 then isTrue (by rw [h]) else isFalse (by intro hc; cases hc; exact h rfl)
    | .ok a1, .ok a2 =>
      if h : a1 = a2 then isTrue (by rw [h]) else isFalse (by intro hc; cases hc; exact h rfl)
    | .error _, .ok _ => isFalse (by intro hc; cases hc)
    | .ok _, .error _ => isFalse (by intro hc; cases hc)

/-- **C1** witness: a results page with a single non-matching row yields
`detailUrl = null` and the empty record. -/
theorem scrape_no_match_returns_empty_witness :
    ({ detailUrl := none, scraped := emptyPropertyDetails } : ScrapeResult).detailUrl = none ∧
    ({ detailUrl := none, scraped := emptyPropertyDetails } : ScrapeResult).scraped =
      emptyPropertyDetails :=
  scrape_no_match_returns_empty
    { resultsDoc :=
        { trs := [{ tds := ["100 Oak St Palmetto", "9999999999"],
                    tdths := ["100 Oak St Palmetto", "9999999999"],
                    text := "100 Oak St Palmetto 9999999999",
                    links := ["/parcel/?parid=9999999999"] }] } }
    "4659 56th Terrace East" (by decide) (by decide)
    { detailUrl := none, scraped := emptyPropertyDetails } (by decide)

/-! ## C8 -/

/-- Environment for the C8 counterexample/witness: the submit button is
absent. -/
def c8Env : ScrapeEnv := { submitPresent := false }

/-- **C8** counterexample.  With the submit button absent, the search step
does raise the typed `PARSE_ERROR` — but the top-level operation catches it
and returns the success-shaped `{ detailUrl: null, scraped: {} }` instead of
raising it to the caller, falsifying the claim as stated. -/
theorem scrape_swallows_parse_error :
    findManateePaoDetailUrlOnPage c8Env "1 Main St" =
      .error (.pw .PARSE_ERROR "Submit button not found") ∧
    scrapeManateePaoPropertyByAddressPlaywright c8Env "1 Main St" =
      .ok { detailUrl := none, scraped := {} } := ⟨rfl, rfl⟩

/-- **C8** (corrected).  Within the search step, an absent submit button
raises the typed `PARSE_ERROR` (after a successful navigation with no
blocking); but the top-level operation re-raises only `BLOCKED`: every other
failure of the inner pipeline — typed or raw — is converted into a
success-shaped result with `detailUrl = null` and an empty record (the
failure is recorded only in the debug trace, which the embedding omits). -/
theorem scrape_error_handling (env : ScrapeEnv) (addr : String) :
    (env.formNavFails = false → (detectBlocking env.formContent).blocked = false →
      env.submitPresent = false →
      findManateePaoDetailUrlOnPage env addr =
        .error (.pw .PARSE_ERROR "Submit button not found")) ∧
    (∀ e, scrapeInner env addr = .error e →
      scrapeManateePaoPropertyByAddressPlaywright env addr =
        (if e.isBlocked then .error e
         else .ok { detailUrl := none, scraped := {} })) := by
  constructor
  · intro h1 h2 h3
    simp only [findManateePaoDetailUrlOnPage]
    rw [if_neg (by simp [h1]), if_neg (by simp [h2]), if_pos (by simp [h3])]
  · intro e he
    unfold scrapeManateePaoPropertyByAddressPlaywright
    rw [he]

/-- **C8** witness: the conversion applied to the concrete submit-button
failure. -/
theorem scrape_error_handling_witness :
    scrapeManateePaoPropertyByAddressPlaywright c8Env "1 Main St" =
      (if (ScrapeError.pw .PARSE_ERROR "Submit button not found").isBlocked then
        .error (.pw .PARSE_ERROR "Submit button not found")
       else .ok { detailUrl := none, scraped := {} }) :=
  (scrape_error_handling c8Env "1 Main St").2
    (.pw .PARSE_ERROR "Submit button not found") rfl

/-! ## C9 -/

/-- **C9** (confirmed).  Any page content containing a CAPTCHA marker
(`recaptcha`, `hcaptcha`, `verify you are human`, case-insensitively) is
classified as blocked, and a search operation whose form page serves that
content raises a typed `BLOCKED` error to the caller before any property data
is returned. -/
theorem detectBlocking_captcha_blocks (content : String) (env : ScrapeEnv) (addr : String)
    (hmark : jsIncludes (jsToLower content) "recaptcha" = true ∨
      jsIncludes (jsToLower content) "hcaptcha" = true ∨
      jsIncludes (jsToLower content) "verify you are human" = true) :
    (detectBlocking content).blocked = true ∧
    (env.formNavFails = false → env.formContent = content →
      ∃ msg, scrapeManateePaoPropertyByAddressPlaywright env addr =
        .error (.pw .BLOCKED msg)) := by
  have hpat : ∃ p ∈ blockPatterns, jsIncludes (jsToLower content) p.1 = true := by
    rcases hmark with h | h | h
    · exact ⟨("recaptcha", "reCAPTCHA detected"), by decide, h⟩
    · exact ⟨("hcaptcha", "hCaptcha detected"), by decide, h⟩
    · exact ⟨("verify you are human", "Human verification required"), by decide, h⟩
  have hblocked : (detectBlocking content).blocked = true := by
    unfold detectBlocking
    cases hfind : blockPatterns.find? (fun p => jsIncludes (jsToLower content) p.1) with
    | none =>
      rcases hpat with ⟨p, hpmem, hpinc⟩
      have := List.find?_eq_none.mp hfind p hpmem
      simp [hpinc] at this
    | some p => simp only [hfind]
  refine ⟨hblocked, ?_⟩
  intro h1 h2
  have hfindErr : findManateePaoDetailUrlOnPage env addr =
      .error (.pw .BLOCKED ("PAO site blocking detected: " ++
        (detectBlocking env.formContent).reason.getD "")) := by
    simp only [findManateePaoDetailUrlOnPage]
    rw [if_neg (by simp [h1]), if_pos (by rw [h2]; exact hblocked)]
  have hinner : scrapeInner env addr =
      .error (.pw .BLOCKED ("PAO site blocking detected: " ++
        (detectBlocking env.formContent).reason.getD "")) := by
    unfold scrapeInner
    rw [hfindErr]
  refine ⟨"PAO site blocking detected: " ++ (detectBlocking env.formContent).reason.getD "", ?_⟩
  unfold scrapeManateePaoPropertyByAddressPlaywright
  rw [hinner]
  rfl

/-- **C9** witness: concrete CAPTCHA content raises `BLOCKED`. -/
theorem detectBlocking_captcha_blocks_witness :
    (detectBlocking "Please solve the reCAPTCHA to continue").blocked = true ∧
    ∃ msg, scrapeManateePaoPropertyByAddressPlaywright
        { formContent := "Please solve the reCAPTCHA to continue" } "1 Main St" =
      .error (.pw .BLOCKED msg) :=
  ⟨(detectBlocking_captcha_blocks "Please solve the reCAPTCHA to continue"
      { formContent := "Please solve the reCAPTCHA to continue" } "1 Main St"
      (Or.inl (by decide))).1,
   (detectBlocking_captcha_blocks "Please solve the reCAPTCHA to continue"
      { formContent := "Please solve the reCAPTCHA to continue" } "1 Main St"
      (Or.inl (by decide))).2 rfl rfl⟩

/-! ## Witnesses for C7 and C10 -/

/-- A document whose table headers carry no valuation/sales keywords. -/
def colorsDoc : Html :=
  { tables := [{ headerText := "Colors", bodyRows := [["red", "blue"]] }] }

/-- **C7** witness: the empty-input theorem applied to a keyword-free
document. -/
theorem sectionParsers_empty_input_witness :
    parseValuationsTable colorsDoc = [] ∧ parseSalesTable colorsDoc = [] :=
  ⟨(sectionParsers_empty_input colorsDoc (by decide) (by decide)).1,
   (sectionParsers_empty_input colorsDoc (by decide) (by decide)).2.1⟩

/-- The valuation record parsed from `valuesDoc2024` (field values kept in
their unevaluated parser form so the equation is definitional). -/
def c10WVal : ValuationRecord :=
  { year := jvalOfParseInt (parseIntJS (jsTrim "2024"))
    just := some { land := parseMoney (some "100"), building := parseMoney (some "200"),
                   total := parseMoney (some "300") } }

/-- **C10** witness: the taxAmount formula applied to the concrete document
with one 2024 valuation. -/
theorem extractPropertyData_taxAmount_formula_witness :
    (extractPropertyData valuesDoc2024 "u").taxAmount =
      JVal.num ((latestValuation c10WVal []).adValoremTaxes.or0 +
        (latestValuation c10WVal []).nonAdValoremTaxes.or0) :=
  (extractPropertyData_taxAmount_formula valuesDoc2024 "u" c10WVal [] rfl).1

/-! ## C5 -/

/-- **C5** counterexample.  Normalization is not idempotent on every address
string: for `", North, FL"` the first pass drops the empty street component,
promoting the city `"North"` into street position, and the second pass then
abbreviates it to `"N"` — so `normalize(normalize(x)) ≠ normalize(x)`. -/
theorem normalizeAddressForPao_not_idempotent :
    (normalizeAddressForPao (normalizeAddressForPao ", North, FL").normalizedFull).normalizedFull
      ≠ (normalizeAddressForPao ", North, FL").normalizedFull ∧
    (normalizeAddressForPao ", North, FL").normalizedFull = "North, FL" ∧
    (normalizeAddressForPao
        (normalizeAddressForPao ", North, FL").normalizedFull).normalizedFull = "N, FL" := by
  decide

/-! ### Character-list lemmas for the idempotence proof -/

/-- A character list without whitespace. -/
def wsFreeL (p : List Char) : Prop := ∀ c ∈ p, isJsWs c = false

/-- Non-empty whitespace-free pieces. -/
def goodPieces (ps : List (List Char)) : Prop := ∀ p ∈ ps, p ≠ [] ∧ wsFreeL p

theorem trimLeftChars_length_le (cs : List Char) : (trimLeftChars cs).length ≤ cs.length := by
  induction cs with
  | nil => simp [trimLeftChars]
  | cons c cs ih =>
    unfold trimLeftChars
    split
    · exact Nat.le_trans ih (by simp)
    · simp

theorem trimLeftChars_of_head (c : Char) (cs : List Char) (h : isJsWs c = false) :
    trimLeftChars (c :: cs) = c :: cs := by
  unfold trimLeftChars
  simp [h]

theorem trimLeftChars_ws_cons (c : Char) (cs : List Char) (h : isJsWs c = true) :
    trimLeftChars (c :: cs) = trimLeftChars cs := by
  conv_lhs => rw [trimLeftChars]
  simp [h]

/-- A left-trim fixed point has a non-whitespace head (or is empty). -/
theorem head_not_ws_of_trimLeft_fix (cs : List Char) (h : trimLeftChars cs = cs) :
    cs = [] ∨ ∃ c rest, cs = c :: rest ∧ isJsWs c = false := by
  cases cs with
  | nil => exact Or.inl rfl
  | cons c rest =>
    by_cases hw : isJsWs c
    · exfalso
      rw [trimLeftChars_ws_cons c rest hw] at h
      have := trimLeftChars_length_le rest
      have : (c :: rest).length ≤ rest.length := by rw [← h]; exact this
      simp at this
    · exact Or.inr ⟨c, rest, rfl, by simp [hw]⟩

theorem trimLeftChars_idem (cs : List Char) : trimLeftChars (trimLeftChars cs) = trimLeftChars cs := by
  induction cs with
  | nil => rfl
  | cons c cs ih =>
    by_cases hw : isJsWs c
    · rw [trimLeftChars_ws_cons c cs hw]; exact ih
    · rw [trimLeftChars_of_head c cs (by simp [hw]), trimLeftChars_of_head c cs (by simp [hw])]

/-- Left-trimming a whitespace-free-headed append. -/
theorem trimLeftChars_append_of_head (p rest : List Char) (hp : p ≠ []) (hws : wsFreeL p) :
    trimLeftChars (p ++ rest) = p ++ rest := by
  cases p with
  | nil => exact absurd rfl hp
  | cons c cs => exact trimLeftChars_of_head c (cs ++ rest) (hws c (by simp))

theorem wsFreeL_reverse (p : List Char) (h : wsFreeL p) : wsFreeL p.reverse := by
  intro c hc
  exact h c (List.mem_reverse.mp hc)

/-! ### Split/join/collapse lemmas -/

theorem splitCharAux_acc (sep : Char) (cs : List Char) :
    ∀ acc, splitCharAux sep cs acc =
      (acc.reverse ++ (splitCharAux sep cs []).headD []) :: (splitCharAux sep cs []).tail := by
  induction cs with
  | nil => intro acc; simp [splitCharAux]
  | cons c cs ih =>
    intro acc
    by_cases h : c = sep
    · simp [splitCharAux, h]
    · simp only [splitCharAux, if_neg h]
      rw [ih (c :: acc), ih [c]]
      simp

theorem splitCharAux_sepFree (sep : Char) (cs : List Char) (h : sep ∉ cs) :
    ∀ acc, splitCharAux sep cs acc = [acc.reverse ++ cs] := by
  induction cs with
  | nil => intro acc; simp [splitCharAux]
  | cons c cs ih =>
    intro acc
    have hc : c ≠ sep := fun hc => h (hc ▸ List.mem_cons_self c cs)
    simp only [splitCharAux, if_neg hc]
    rw [ih (fun hm => h (List.mem_cons_of_mem c hm)) (c :: acc)]
    simp

theorem splitCharAux_append (sep : Char) (p rest : List Char) (h : sep ∉ p) :
    ∀ acc, splitCharAux sep (p ++ sep :: rest) acc =
      (acc.reverse ++ p) :: splitCharAux sep rest [] := by
  induction p with
  | nil => intro acc; simp [splitCharAux]
  | cons c p ih =>
    intro acc
    have hc : c ≠ sep := fun hc => h (hc ▸ List.mem_cons_self c p)
    simp only [List.cons_append, splitCharAux, if_neg hc, List.append_eq]
    rw [ih (fun hm => h (List.mem_cons_of_mem c hm)) (c :: acc)]
    simp

theorem joinSep_data_cons (sep t : String) (ts : List String) (h : ts ≠ []) :
    (joinSep sep (t :: ts)).data = t.data ++ sep.data ++ (joinSep sep ts).data := by
  cases ts with
  | nil => exact absurd rfl h
  | cons t2 ts =>
    show (t ++ sep ++ joinSep sep (t2 :: ts)).data = _
    rw [String.data_append, String.data_append]

/-- Splitting the space-join of non-empty space-free tokens recovers the
tokens. -/
theorem split_join_space (toks : List String) (hne : toks ≠ [])
    (hgood : ∀ t ∈ toks, t.data ≠ [] ∧ wsFreeL t.data) :
    splitCharAux ' ' (joinSep " " toks).data [] = toks.map (·.data) := by
  induction toks with
  | nil => exact absurd rfl hne
  | cons t ts ih =>
    cases hts : ts with
    | nil =>
      have hsp : ' ' ∉ t.data := by
        intro hm
        have := (hgood t (by simp)).2 ' ' hm
        simp [isJsWs] at this
      simp only [joinSep, List.map]
      rw [splitCharAux_sepFree ' ' t.data hsp []]
      simp
    | cons t2 ts2 =>
      rw [← hts]
      have htsne : ts ≠ [] := by rw [hts]; simp
      rw [joinSep_data_cons " " t ts htsne]
      have hsp : ' ' ∉ t.data := by
        intro hm
        have := (hgood t (by simp)).2 ' ' hm
        simp [isJsWs] at this
      have : t.data ++ " ".data ++ (joinSep " " ts).data =
          t.data ++ ' ' :: (joinSep " " ts).data := by simp
      rw [this, splitCharAux_append ' ' t.data _ hsp []]
      simp only [List.reverse_nil, List.nil_append, List.map]
      rw [ih htsne (fun x hx => hgood x (List.mem_cons_of_mem t hx))]

/-- The head character of the space-join of good tokens is the head of the
first token. -/
theorem joinSep_head_cons (t : String) (ts : List String) (c : Char) (rest : List Char)
    (h : t.data = c :: rest) :
    ∃ tail, (joinSep " " (t :: ts)).data = c :: tail := by
  cases ts with
  | nil => exact ⟨rest, h⟩
  | cons t2 ts2 =>
    rw [joinSep_data_cons " " t (t2 :: ts2) (by simp), h]
    exact ⟨_, rfl⟩

theorem collapse_wsfree_append (t r : List Char) (h : wsFreeL t) :
    collapseWsAux false (t ++ r) = t ++ collapseWsAux false r := by
  induction t with
  | nil => simp
  | cons c t ih =>
    have hc := h c (by simp)
    simp only [List.cons_append, collapseWsAux, hc]
    simp only [Bool.false_eq_true, if_false, List.append_eq]
    rw [ih (fun x hx => h x (List.mem_cons_of_mem c hx))]

theorem collapse_true_head (c : Char) (r : List Char) (h : isJsWs c = false) :
    collapseWsAux true (c :: r) = collapseWsAux false (c :: r) := by
  simp [collapseWsAux, h]

/-- Collapsing whitespace is the identity on a single-space join of
non-empty whitespace-free tokens. -/
theorem collapse_join_good (toks : List String) (hne : toks ≠ [])
    (hgood : ∀ t ∈ toks, t.data ≠ [] ∧ wsFreeL t.data) :
    collapseWsAux false (joinSep " " toks).data = (joinSep " " toks).data := by
  induction toks with
  | nil => exact absurd rfl hne
  | cons t ts ih =>
    cases hts : ts with
    | nil =>
      show collapseWsAux false t.data = t.data
      have := collapse_wsfree_append t.data [] (hgood t (by simp)).2
      simpa [collapseWsAux] using this
    | cons t2 ts2 =>
      rw [← hts]
      have htsne : ts ≠ [] := by rw [hts]; simp
      rw [joinSep_data_cons " " t ts htsne]
      have hws := (hgood t (by simp)).2
      have : t.data ++ " ".data ++ (joinSep " " ts).data =
          t.data ++ (' ' :: (joinSep " " ts).data) := by simp
      rw [this, collapse_wsfree_append t.data _ hws]
      show t.data ++ (' ' :: collapseWsAux true (joinSep " " ts).data) = _
      have ht2 := (hgood t2 (by rw [hts]; simp)).1
      obtain ⟨c, rest, hc⟩ : ∃ c rest, t2.data = c :: rest := by
        cases h2 : t2.data with
        | nil => exact absurd h2 ht2
        | cons c rest => exact ⟨c, rest, rfl⟩
      obtain ⟨tail, htail⟩ := joinSep_head_cons t2 ts2 c rest hc
      rw [hts, htail]
      have hcws := (hgood t2 (by rw [hts]; simp)).2 c (by rw [hc]; simp)
      rw [collapse_true_head c tail hcws]
      have := ih htsne (fun x hx => hgood x (List.mem_cons_of_mem t hx))
      rw [hts] at this
      rw [htail] at this
      rw [this]

/-- The reverse of the space-join of good tokens starts with a non-whitespace
character. -/
theorem joinSep_reverse_head (toks : List String) (hne : toks ≠ [])
    (hgood : ∀ t ∈ toks, t.data ≠ [] ∧ wsFreeL t.data) :
    ∃ c rest, (joinSep " " toks).data.reverse = c :: rest ∧ isJsWs c = false := by
  induction toks with
  | nil => exact absurd rfl hne
  | cons t ts ih =>
    cases hts : ts with
    | nil =>
      show ∃ c rest, t.data.reverse = c :: rest ∧ _
      have ht := (hgood t (by simp)).1
      obtain ⟨c, rest, hc⟩ : ∃ c rest, t.data.reverse = c :: rest := by
        cases h2 : t.data.reverse with
        | nil => simp at h2; exact absurd h2 ht
        | cons c rest => exact ⟨c, rest, rfl⟩
      refine ⟨c, rest, hc, ?_⟩
      exact (hgood t (by simp)).2 c (List.mem_reverse.mp (by rw [hc]; simp))
    | cons t2 ts2 =>
      rw [← hts]
      have htsne : ts ≠ [] := by rw [hts]; simp
      rw [joinSep_data_cons " " t ts htsne]
      obtain ⟨c, rest, hc, hcws⟩ := ih htsne (fun x hx => hgood x (List.mem_cons_of_mem t hx))
      refine ⟨c, rest ++ " ".data.reverse ++ t.data.reverse, ?_, hcws⟩
      rw [List.reverse_append, List.reverse_append, hc]
      simp

/-- `jsTrim` is the identity on the space-join of good tokens. -/
theorem jsTrim_join_good (toks : List String) (hne : toks ≠ [])
    (hgood : ∀ t ∈ toks, t.data ≠ [] ∧ wsFreeL t.data) :
    jsTrim (joinSep " " toks) = joinSep " " toks := by
  obtain ⟨c, rest, hc, hcws⟩ := joinSep_reverse_head toks hne hgood
  have hhead : ∃ c0 rest0, (joinSep " " toks).data = c0 :: rest0 ∧ isJsWs c0 = false := by
    cases toks with
    | nil => exact absurd rfl hne
    | cons t ts =>
      have ht := (hgood t (by simp)).1
      obtain ⟨c0, r0, h0⟩ : ∃ c0 r0, t.data = c0 :: r0 := by
        cases h2 : t.data with
        | nil => exact absurd h2 ht
        | cons c0 r0 => exact ⟨c0, r0, rfl⟩
      obtain ⟨tail, htail⟩ := joinSep_head_cons t ts c0 r0 h0
      exact ⟨c0, tail, htail, (hgood t (by simp)).2 c0 (by rw [h0]; simp)⟩
  obtain ⟨c0, rest0, h0, h0ws⟩ := hhead
  unfold jsTrim trimRightChars
  rw [h0, trimLeftChars_of_head c0 rest0 h0ws, ← h0, hc,
    trimLeftChars_of_head c rest hcws, ← hc]
  simp

/-! ### Tokens of `split(" ")` after whitespace collapsing are good -/

/-- Every character of a split piece comes from the accumulator or the
input. -/
theorem mem_splitCharAux_sub (sep : Char) (cs : List Char) :
    ∀ acc p c, p ∈ splitCharAux sep cs acc → c ∈ p → c ∈ acc ∨ c ∈ cs := by
  induction cs with
  | nil =>
    intro acc p c hp hc
    simp [splitCharAux] at hp
    subst hp
    exact Or.inl (List.mem_reverse.mp hc)
  | cons d cs ih =>
    intro acc p c hp hc
    by_cases hd : d = sep
    · simp only [splitCharAux, if_pos hd] at hp
      rcases List.mem_cons.mp hp with hp | hp
      · subst hp; exact Or.inl (List.mem_reverse.mp hc)
      · rcases ih [] p c hp hc with h | h
        · simp at h
        · exact Or.inr (List.mem_cons_of_mem d h)
    · simp only [splitCharAux, if_neg hd] at hp
      rcases ih (d :: acc) p c hp hc with h | h
      · rcases List.mem_cons.mp h with h | h
        · exact Or.inr (h ▸ List.mem_cons_self d cs)
        · exact Or.inl h
      · exact Or.inr (List.mem_cons_of_mem d h)

/-- Characters of the collapsed list are spaces or input characters. -/
theorem mem_collapseWsAux_sub (cs : List Char) :
    ∀ flag c, c ∈ collapseWsAux flag cs → c = ' ' ∨ c ∈ cs := by
  induction cs with
  | nil => intro flag c hc; simp [collapseWsAux] at hc
  | cons d cs ih =>
    intro flag c hc
    by_cases hd : isJsWs d
    · simp only [collapseWsAux, hd, if_true] at hc
      rcases List.mem_append.mp hc with h | h
      · cases flag <;> simp at h
        exact Or.inl h
      · rcases ih true c h with h2 | h2
        · exact Or.inl h2
        · exact Or.inr (List.mem_cons_of_mem d h2)
    · simp only [collapseWsAux, hd] at hc
      simp only [Bool.false_eq_true, if_false] at hc
      rcases List.mem_cons.mp hc with h | h
      · exact Or.inr (h ▸ List.mem_cons_self d cs)
      · rcases ih false c h with h2 | h2
        · exact Or.inl h2
        · exact Or.inr (List.mem_cons_of_mem d h2)

/-- Pieces are free of the separator. -/
theorem mem_splitCharAux_no_sep (sep : Char) (cs : List Char) :
    ∀ acc, sep ∉ acc → ∀ p ∈ splitCharAux sep cs acc, sep ∉ p := by
  induction cs with
  | nil =>
    intro acc hacc p hp
    simp [splitCharAux] at hp
    subst hp
    intro hc
    exact hacc (List.mem_reverse.mp hc)
  | cons d cs ih =>
    intro acc hacc p hp
    by_cases hd : d = sep
    · simp only [splitCharAux, if_pos hd] at hp
      rcases List.mem_cons.mp hp with hp | hp
      · subst hp
        intro hc
        exact hacc (List.mem_reverse.mp hc)
      · exact ih [] (by simp) p hp
    · simp only [splitCharAux, if_neg hd] at hp
      exact ih (d :: acc) (by
        intro hc
        rcases List.mem_cons.mp hc with h | h
        · exact hd h.symm
        · exact hacc h) p hp

/-- No character after the last non-whitespace character: every character at
the end is non-whitespace.  `lastOkL u` says the last character of `u` (if
any) is not whitespace. -/
def lastOkL (u : List Char) : Prop :=
  ∀ c, u.getLast? = some c → isJsWs c = false

theorem lastOkL_of_cons (c : Char) (u : List Char) (h : lastOkL (c :: u)) : lastOkL u := by
  intro d hd
  apply h d
  cases u with
  | nil => simp at hd
  | cons e u => rw [List.getLast?_cons_cons]; exact hd

theorem lastOkL_ne_nil (c : Char) (u : List Char) (h : lastOkL (c :: u))
    (hc : isJsWs c = true) : u ≠ [] := by
  intro hu
  subst hu
  have := h c (by simp)
  rw [this] at hc
  cases hc

/-- Main induction: splitting the collapsed list yields non-empty
whitespace-free pieces, under the stated accumulator/flag invariants. -/
theorem goodSplit_main (u : List Char) :
    ∀ (flag : Bool) (acc : List Char), lastOkL u →
      (flag = false → acc ≠ []) → (flag = true → acc = [] ∧ u ≠ []) →
      wsFreeL acc →
      goodPieces (splitCharAux ' ' (collapseWsAux flag u) acc) := by
  induction u with
  | nil =>
    intro flag acc _ hfalse htrue hacc
    cases flag with
    | false =>
      intro p hp
      simp [collapseWsAux, splitCharAux] at hp
      subst hp
      exact ⟨by simp [hfalse rfl], wsFreeL_reverse acc hacc⟩
    | true => exact absurd rfl (htrue rfl).2
  | cons c u ih =>
    intro flag acc hlast hfalse htrue hacc
    by_cases hc : isJsWs c
    · have hune : u ≠ [] := lastOkL_ne_nil c u hlast hc
      have hlast' : lastOkL u := lastOkL_of_cons c u hlast
      cases flag with
      | false =>
        show goodPieces (splitCharAux ' ' (collapseWsAux false (c :: u)) acc)
        have : collapseWsAux false (c :: u) = ' ' :: collapseWsAux true u := by
          simp [collapseWsAux, hc]
        rw [this]
        show goodPieces (splitCharAux ' ' (' ' :: collapseWsAux true u) acc)
        have : splitCharAux ' ' (' ' :: collapseWsAux true u) acc =
            acc.reverse :: splitCharAux ' ' (collapseWsAux true u) [] := by
          simp [splitCharAux]
        rw [this]
        intro p hp
        rcases List.mem_cons.mp hp with hp | hp
        · subst hp
          exact ⟨by simp [hfalse rfl], wsFreeL_reverse acc hacc⟩
        · exact ih true [] hlast' (by intro h; cases h) (fun _ => ⟨rfl, hune⟩)
            (by intro x hx; simp at hx) p hp
      | true =>
        show goodPieces (splitCharAux ' ' (collapseWsAux true (c :: u)) acc)
        have : collapseWsAux true (c :: u) = collapseWsAux true u := by
          simp [collapseWsAux, hc]
        rw [this, (htrue rfl).1]
        exact ih true [] hlast' (by intro h; cases h) (fun _ => ⟨rfl, hune⟩)
          (by intro x hx; simp at hx)
    · have hlast' : lastOkL u := lastOkL_of_cons c u hlast
      have hcoll : collapseWsAux flag (c :: u) = c :: collapseWsAux false u := by
        cases flag <;> simp [collapseWsAux, hc]
      rw [hcoll]
      have hcsp : c ≠ ' ' := by
        intro h
        subst h
        simp [isJsWs] at hc
      have : splitCharAux ' ' (c :: collapseWsAux false u) acc =
          splitCharAux ' ' (collapseWsAux false u) (c :: acc) := by
        simp [splitCharAux, hcsp]
      rw [this]
      exact ih false (c :: acc) hlast' (by intro _; simp) (by intro h; cases h)
        (by
          intro x hx
          rcases List.mem_cons.mp hx with h | h
          · rw [h]; simp [hc]
          · exact hacc x h)

theorem trimRightChars_length_le (cs : List Char) :
    (trimRightChars cs).length ≤ cs.length := by
  unfold trimRightChars
  rw [List.length_reverse]
  calc (trimLeftChars cs.reverse).length ≤ cs.reverse.length :=
        trimLeftChars_length_le cs.reverse
    _ = cs.length := List.length_reverse cs

/-- A `jsTrim`-fixed non-empty string starts with a non-whitespace
character. -/
theorem trimFix_head (s : String) (h : jsTrim s = s) (hne : s.data ≠ []) :
    ∃ c r, s.data = c :: r ∧ isJsWs c = false := by
  have hd : trimRightChars (trimLeftChars s.data) = s.data := congrArg String.data h
  cases hcs : s.data with
  | nil => exact absurd hcs hne
  | cons c r =>
    by_cases hw : isJsWs c
    · exfalso
      rw [hcs] at hd
      rw [trimLeftChars_ws_cons c r hw] at hd
      have h1 := trimRightChars_length_le (trimLeftChars r)
      have h2 := trimLeftChars_length_le r
      rw [hd] at h1
      simp only [List.length_cons] at h1
      omega
    · exact ⟨c, r, rfl, by simp [hw]⟩

/-- A `jsTrim`-fixed non-empty string ends with a non-whitespace character. -/
theorem trimFix_last (s : String) (h : jsTrim s = s) (hne : s.data ≠ []) :
    ∃ c r, s.data.reverse = c :: r ∧ isJsWs c = false := by
  have hd : trimRightChars (trimLeftChars s.data) = s.data := congrArg String.data h
  have hrev : s.data.reverse = trimLeftChars (trimLeftChars s.data).reverse := by
    conv_lhs => rw [← hd]
    unfold trimRightChars
    rw [List.reverse_reverse]
  have hfix : trimLeftChars s.data.reverse = s.data.reverse := by
    rw [hrev, trimLeftChars_idem]
  rcases head_not_ws_of_trimLeft_fix s.data.reverse hfix with h0 | ⟨c, rest, hc, hw⟩
  · exact absurd (by simpa using congrArg List.reverse h0) hne
  · exact ⟨c, rest, hc, hw⟩

/-- `lastOkL` for a trim-fixed string. -/
theorem lastOkL_of_trimFix (s : String) (h : jsTrim s = s) : lastOkL s.data := by
  intro c hc
  have hne : s.data ≠ [] := by
    intro h0
    rw [h0] at hc
    simp at hc
  obtain ⟨d, r, hdr, hw⟩ := trimFix_last s h hne
  have : s.data.getLast? = some d := by
    rw [← List.head?_reverse, hdr]
    rfl
  rw [this] at hc
  cases hc
  exact hw

/-- Splitting the whitespace-collapsed form of a trim-fixed non-empty string
yields non-empty whitespace-free pieces. -/
theorem collapse_split_good (s : String) (h : jsTrim s = s) (hne : s.data ≠ []) :
    goodPieces (splitCharAux ' ' (collapseWsAux false s.data) []) := by
  obtain ⟨c, u, hcu, hcw⟩ := trimFix_head s h hne
  have hlast : lastOkL s.data := lastOkL_of_trimFix s h
  rw [hcu] at hlast ⊢
  have hcoll : collapseWsAux false (c :: u) = c :: collapseWsAux false u := by
    simp [collapseWsAux, hcw]
  rw [hcoll]
  have hcsp : c ≠ ' ' := by
    intro h0
    subst h0
    simp [isJsWs] at hcw
  have hsplit : splitCharAux ' ' (c :: collapseWsAux false u) [] =
      splitCharAux ' ' (collapseWsAux false u) [c] := by
    simp [splitCharAux, hcsp]
  rw [hsplit]
  exact goodSplit_main u false [c] (lastOkL_of_cons c u hlast)
    (by intro _; simp) (by intro h0; cases h0)
    (by
      intro x hx
      rcases List.mem_cons.mp hx with h0 | h0
      · rw [h0]; exact hcw
      · simp at h0)

/-! ### The USPS maps' values are good tokens and `normToken` fixed points -/

/-- A good token: non-empty, whitespace-free, comma-free. -/
def tokGood (t : String) : Prop :=
  t.data ≠ [] ∧ wsFreeL t.data ∧ ',' ∉ t.data

/-- Boolean form of `tokGood`, for `decide`. -/
def tokGoodB (t : String) : Bool :=
  ¬ t.data.isEmpty && t.data.all (fun c => ¬ isJsWs c) && ¬ t.data.contains ','

theorem tokGood_of_B (t : String) (h : tokGoodB t = true) : tokGood t := by
  simp only [tokGoodB, Bool.and_eq_true, decide_eq_true_eq] at h
  obtain ⟨⟨h1, h2⟩, h3⟩ := h
  refine ⟨?_, ?_, ?_⟩
  · intro h0
    exact h1 (by simp [h0])
  · intro c hc
    have := List.all_eq_true.mp h2 c hc
    simp only [decide_eq_true_eq] at this
    simpa using this
  · intro hc
    exact h3 (by simpa [List.contains] using hc)

/-- Every value of the three USPS maps is a good token (checked by
computation). -/
theorem dirValsGood :
    (DIRECTIONAL_MAP.map Prod.snd).all tokGoodB = true := by decide

theorem sufValsGood :
    (STREET_SUFFIX_MAP.map Prod.snd).all tokGoodB = true := by decide

theorem unitValsGood :
    (UNIT_DESIGNATOR_MAP.map Prod.snd).all tokGoodB = true := by decide

/-- A successful association-list lookup returns one of the list's values. -/
theorem lookup_mem_snd {α β : Type} [BEq α] (l : List (α × β)) (k : α) (v : β)
    (h : l.lookup k = some v) : v ∈ l.map Prod.snd := by
  induction l with
  | nil => simp [List.lookup] at h
  | cons p l ih =>
    rw [List.lookup] at h
    by_cases hk : (k == p.1) = true
    · rw [hk] at h
      have h2 : some p.2 = some v := h
      cases h2
      simp
    · rw [Bool.not_eq_true] at hk
      rw [hk] at h
      exact List.mem_cons_of_mem _ (ih h)

/-- Every value of the three USPS maps is a fixed point of `normToken` at
both positions (checked by computation). -/
theorem dirValsFixed :
    (DIRECTIONAL_MAP.map Prod.snd).all
      (fun v => ((normToken true v).1 == v) && ((normToken false v).1 == v)) = true := by
  decide

theorem unitValsFixed :
    (UNIT_DESIGNATOR_MAP.map Prod.snd).all
      (fun v => ((normToken true v).1 == v) && ((normToken false v).1 == v)) = true := by
  decide

set_option maxHeartbeats 1000000 in
set_option maxRecDepth 4000 in
theorem sufValsFixedChunk0 :
    (((STREET_SUFFIX_MAP.map Prod.snd)).take 32).all
      (fun v => ((normToken true v).1 == v) && ((normToken false v).1 == v)) = true := by
  decide

set_option maxHeartbeats 1000000 in
set_option maxRecDepth 4000 in
theorem sufValsFixedChunk1 :
    ((((STREET_SUFFIX_MAP.map Prod.snd)).drop 32).take 32).all
      (fun v => ((normToken true v).1 == v) && ((normToken false v).1 == v)) = true := by
  decide

set_option maxHeartbeats 1000000 in
set_option maxRecDepth 4000 in
theorem sufValsFixedChunk2 :
    (((((STREET_SUFFIX_MAP.map Prod.snd)).drop 32).drop 32).take 32).all
      (fun v => ((normToken true v).1 == v) && ((normToken false v).1 == v)) = true := by
  decide

set_option maxHeartbeats 1000000 in
set_option maxRecDepth 4000 in
theorem sufValsFixedChunk3 :
    ((((((STREET_SUFFIX_MAP.map Prod.snd)).drop 32).drop 32).drop 32).take 32).all
      (fun v => ((normToken true v).1 == v) && ((normToken false v).1 == v)) = true := by
  decide

set_option maxHeartbeats 1000000 in
set_option maxRecDepth 4000 in
theorem sufValsFixedChunk4 :
    (((((((STREET_SUFFIX_MAP.map Prod.snd)).drop 32).drop 32).drop 32).drop 32).take 32).all
      (fun v => ((normToken true v).1 == v) && ((normToken false v).1 == v)) = true := by
  decide

set_option maxHeartbeats 1000000 in
set_option maxRecDepth 4000 in
theorem sufValsFixedChunk5 :
    (((((((STREET_SUFFIX_MAP.map Prod.snd)).drop 32).drop 32).drop 32).drop 32).drop 32).all
      (fun v => ((normToken true v).1 == v) && ((normToken false v).1 == v)) = true := by
  decide

theorem sufValsFixed :
    (STREET_SUFFIX_MAP.map Prod.snd).all
      (fun v => ((normToken true v).1 == v) && ((normToken false v).1 == v)) = true := by
  rw [← List.take_append_drop 32 (STREET_SUFFIX_MAP.map Prod.snd), List.all_append,
    sufValsFixedChunk0, Bool.true_and]
  rw [← List.take_append_drop 32 ((STREET_SUFFIX_MAP.map Prod.snd).drop 32), List.all_append,
    sufValsFixedChunk1, Bool.true_and]
  rw [← List.take_append_drop 32 (((STREET_SUFFIX_MAP.map Prod.snd).drop 32).drop 32),
    List.all_append, sufValsFixedChunk2, Bool.true_and]
  rw [← List.take_append_drop 32 ((((STREET_SUFFIX_MAP.map Prod.snd).drop 32).drop 32).drop 32),
    List.all_append, sufValsFixedChunk3, Bool.true_and]
  rw [← List.take_append_drop 32
      (((((STREET_SUFFIX_MAP.map Prod.snd).drop 32).drop 32).drop 32).drop 32),
    List.all_append, sufValsFixedChunk4, Bool.true_and]
  exact sufValsFixedChunk5

/-- `normToken` either leaves the token unchanged or emits a map value. -/
theorem normToken_out (flag : Bool) (t : String) :
    (normToken flag t).1 = t ∨
    ((normToken flag t).1 ∈ DIRECTIONAL_MAP.map Prod.snd ∨
     (normToken flag t).1 ∈ STREET_SUFFIX_MAP.map Prod.snd ∨
     (normToken flag t).1 ∈ UNIT_DESIGNATOR_MAP.map Prod.snd) := by
  simp only [normToken]
  cases hd : DIRECTIONAL_MAP.lookup (jsToLower t) with
  | some ab =>
    simp only
    exact Or.inr (Or.inl (lookup_mem_snd _ _ _ hd))
  | none =>
    simp only
    cases hs : (if ¬ flag && ¬ isAllDigits t then
        STREET_SUFFIX_MAP.lookup (jsToLower t) else none) with
    | some ab =>
      simp only
      have : STREET_SUFFIX_MAP.lookup (jsToLower t) = some ab := by
        by_cases hc : (¬ flag && ¬ isAllDigits t) = true
        · rwa [if_pos hc] at hs
        · rw [if_neg hc] at hs; cases hs
      exact Or.inr (Or.inr (Or.inl (lookup_mem_snd _ _ _ this)))
    | none =>
      simp only
      cases hu : UNIT_DESIGNATOR_MAP.lookup (jsToLower t) with
      | some ab =>
        simp only
        exact Or.inr (Or.inr (Or.inr (lookup_mem_snd _ _ _ hu)))
      | none => exact Or.inl rfl

/-- Map values are `normToken` fixed points. -/
theorem normToken_val_fixed (flag : Bool) (v : String)
    (h : v ∈ DIRECTIONAL_MAP.map Prod.snd ∨
         v ∈ STREET_SUFFIX_MAP.map Prod.snd ∨
         v ∈ UNIT_DESIGNATOR_MAP.map Prod.snd) :
    (normToken flag v).1 = v := by
  have key : ((normToken true v).1 == v) = true ∧ ((normToken false v).1 == v) = true := by
    rcases h with h | h | h
    · have k := List.all_eq_true.mp dirValsFixed v h
      rw [Bool.and_eq_true] at k
      exact k
    · have k := List.all_eq_true.mp sufValsFixed v h
      rw [Bool.and_eq_true] at k
      exact k
    · have k := List.all_eq_true.mp unitValsFixed v h
      rw [Bool.and_eq_true] at k
      exact k
  cases flag with
  | true => exact eq_of_beq key.1
  | false => exact eq_of_beq key.2

/-- Map values are good tokens. -/
theorem normToken_val_good (v : String)
    (h : v ∈ DIRECTIONAL_MAP.map Prod.snd ∨
         v ∈ STREET_SUFFIX_MAP.map Prod.snd ∨
         v ∈ UNIT_DESIGNATOR_MAP.map Prod.snd) :
    tokGood v := by
  apply tokGood_of_B
  rcases h with h | h | h
  · exact List.all_eq_true.mp dirValsGood v h
  · exact List.all_eq_true.mp sufValsGood v h
  · exact List.all_eq_true.mp unitValsGood v h

/-- The output of `normToken` is itself a `normToken` fixed point. -/
theorem normToken_fst_fixed (flag : Bool) (t : String) :
    (normToken flag ((normToken flag t).1)).1 = (normToken flag t).1 := by
  rcases normToken_out flag t with h | h
  · rw [h]; exact h
  · exact normToken_val_fixed flag _ h

/-- `normToken` preserves token goodness. -/
theorem normToken_good (flag : Bool) (t : String) (ht : tokGood t) :
    tokGood ((normToken flag t).1) := by
  rcases normToken_out flag t with h | h
  · rw [h]; exact ht
  · exact normToken_val_good _ h

/-! ### The token loop preserves goodness and is idempotent -/

theorem normTokensGo_cons (flag : Bool) (t : String) (ts : List String) :
    normTokensGo flag (t :: ts) =
      ((normToken flag t).1 :: (normTokensGo false ts).1,
       (normToken flag t).2.toList ++ (normTokensGo false ts).2) := rfl

theorem normTokensGo_fst_length (flag : Bool) (ts : List String) :
    (normTokensGo flag ts).1.length = ts.length := by
  induction ts generalizing flag with
  | nil => rfl
  | cons t ts ih =>
    rw [normTokensGo_cons]
    simp [ih false]

theorem normTokensGo_fst_good (flag : Bool) (ts : List String)
    (h : ∀ t ∈ ts, tokGood t) : ∀ t ∈ (normTokensGo flag ts).1, tokGood t := by
  induction ts generalizing flag with
  | nil => intro t ht; simp [normTokensGo] at ht
  | cons t ts ih =>
    intro x hx
    rw [normTokensGo_cons] at hx
    rcases List.mem_cons.mp hx with hx | hx
    · rw [hx]
      exact normToken_good flag t (h t (by simp))
    · exact ih false (fun y hy => h y (List.mem_cons_of_mem t hy)) x hx

theorem normTokensGo_fst_fixed (flag : Bool) (ts : List String) :
    (normTokensGo flag ((normTokensGo flag ts).1)).1 = (normTokensGo flag ts).1 := by
  induction ts generalizing flag with
  | nil => rfl
  | cons t ts ih =>
    rw [normTokensGo_cons, normTokensGo_cons]
    simp only [List.cons.injEq]
    exact ⟨normToken_fst_fixed flag t, ih false⟩

/-- Characters of a join come from the separator or the parts. -/
theorem mem_joinSep_sub (sep : String) :
    ∀ (toks : List String) (c : Char), c ∈ (joinSep sep toks).data →
      c ∈ sep.data ∨ ∃ t ∈ toks, c ∈ t.data := by
  intro toks
  induction toks with
  | nil => intro c hc; simp [joinSep] at hc
  | cons t ts ih =>
    intro c hc
    cases hts : ts with
    | nil =>
      rw [hts] at hc
      exact Or.inr ⟨t, by simp, hc⟩
    | cons t2 ts2 =>
      rw [← hts]
      rw [joinSep_data_cons sep t ts (by rw [hts]; simp)] at hc
      rcases List.mem_append.mp hc with hc | hc
      · rcases List.mem_append.mp hc with hc | hc
        · exact Or.inr ⟨t, by simp, hc⟩
        · exact Or.inl hc
      · rcases ih c hc with h | ⟨x, hx, hcx⟩
        · exact Or.inl h
        · exact Or.inr ⟨x, List.mem_cons_of_mem t hx, hcx⟩

/-- Structural properties of `normalizeStreet` on a trimmed, non-empty,
comma-free input: the output is non-empty, comma-free, trimmed, and a fixed
point of `normalizeStreet`. -/
theorem normalizeStreet_props (s : String) (hs : jsTrim s = s)
    (hne : s.data ≠ []) (hcomma : ',' ∉ s.data) :
    (normalizeStreet s).1.data ≠ [] ∧ ',' ∉ (normalizeStreet s).1.data ∧
    jsTrim (normalizeStreet s).1 = (normalizeStreet s).1 ∧
    (normalizeStreet ((normalizeStreet s).1)).1 = (normalizeStreet s).1 := by
  have hdef : normalizeStreet s =
      (joinSep " " (normTokensGo true (jsSplitChar ' ' (collapseWs (jsTrim s)))).1,
       (normTokensGo true (jsSplitChar ' ' (collapseWs (jsTrim s)))).2) := rfl
  rw [hs] at hdef
  have hgoodP : goodPieces (splitCharAux ' ' (collapseWsAux false s.data) []) :=
    collapse_split_good s hs hne
  have htoks : ∀ t ∈ jsSplitChar ' ' (collapseWs s), tokGood t := by
    intro t ht
    obtain ⟨p, hp, hpt⟩ := List.mem_map.mp ht
    subst hpt
    obtain ⟨hp1, hp2⟩ := hgoodP p hp
    refine ⟨hp1, hp2, ?_⟩
    intro hcm
    rcases mem_splitCharAux_sub ' ' (collapseWsAux false s.data) [] p ',' hp hcm with h | h
    · simp at h
    · rcases mem_collapseWsAux_sub s.data false ',' h with h | h
      · cases h
      · exact hcomma h
  have hout : ∀ t ∈ (normTokensGo true (jsSplitChar ' ' (collapseWs s))).1, tokGood t :=
    normTokensGo_fst_good true _ htoks
  have houtw : ∀ t ∈ (normTokensGo true (jsSplitChar ' ' (collapseWs s))).1,
      t.data ≠ [] ∧ wsFreeL t.data := fun t ht => ⟨(hout t ht).1, (hout t ht).2.1⟩
  have houtne : (normTokensGo true (jsSplitChar ' ' (collapseWs s))).1 ≠ [] := by
    intro h0
    have hlen := normTokensGo_fst_length true (jsSplitChar ' ' (collapseWs s))
    rw [h0] at hlen
    have : (jsSplitChar ' ' (collapseWs s)).length = 0 := hlen.symm
    unfold jsSplitChar at this
    rw [List.length_map] at this
    rw [splitCharAux_acc] at this
    simp at this
  set outToks := (normTokensGo true (jsSplitChar ' ' (collapseWs s))).1 with houtdef
  have hnsne : (joinSep " " outToks).data ≠ [] := by
    cases houts : outToks with
    | nil => exact absurd houts houtne
    | cons t ts =>
      have ht := (houtw t (by rw [houts]; simp)).1
      obtain ⟨c, r, hc⟩ : ∃ c r, t.data = c :: r := by
        cases h2 : t.data with
        | nil => exact absurd h2 ht
        | cons c r => exact ⟨c, r, rfl⟩
      obtain ⟨tail, htail⟩ := joinSep_head_cons t ts c r hc
      rw [htail]
      simp
  have hnscomma : ',' ∉ (joinSep " " outToks).data := by
    intro hcm
    rcases mem_joinSep_sub " " outToks ',' hcm with h | ⟨t, ht, hct⟩
    · simp [String.data] at h
    · exact (hout t ht).2.2 hct
  have hnstrim : jsTrim (joinSep " " outToks) = joinSep " " outToks :=
    jsTrim_join_good outToks houtne houtw
  refine ⟨by rw [hdef]; exact hnsne, by rw [hdef]; exact hnscomma,
    by rw [hdef]; exact hnstrim, ?_⟩
  rw [hdef]
  show (normalizeStreet (joinSep " " outToks)).1 = joinSep " " outToks
  have hdef2 : normalizeStreet (joinSep " " outToks) =
      (joinSep " " (normTokensGo true
        (jsSplitChar ' ' (collapseWs (jsTrim (joinSep " " outToks))))).1,
       (normTokensGo true
        (jsSplitChar ' ' (collapseWs (jsTrim (joinSep " " outToks))))).2) := rfl
  rw [hnstrim] at hdef2
  have hcoll : collapseWs (joinSep " " outToks) = joinSep " " outToks := by
    show (⟨collapseWsAux false (joinSep " " outToks).data⟩ : String) = _
    rw [collapse_join_good outToks houtne houtw]
  rw [hcoll] at hdef2
  have hsplit : jsSplitChar ' ' (joinSep " " outToks) = outToks := by
    unfold jsSplitChar
    rw [split_join_space outToks houtne houtw, List.map_map]
    have hid : ((fun p : List Char => (⟨p⟩ : String)) ∘ fun t : String => t.data) = id := rfl
    rw [hid, List.map_id]
  rw [hsplit] at hdef2
  rw [hdef2]
  rw [houtdef]
  rw [normTokensGo_fst_fixed true (jsSplitChar ' ' (collapseWs s))]

/-! ### Trim idempotence and character-class facts -/

theorem trimLeftChars_suffix (cs : List Char) : trimLeftChars cs <:+ cs := by
  induction cs with
  | nil => exact List.suffix_refl []
  | cons c cs ih =>
    by_cases hw : isJsWs c
    · rw [trimLeftChars_ws_cons c cs hw]
      exact ih.trans (List.suffix_cons c cs)
    · rw [trimLeftChars_of_head c cs (by simp [hw])]

theorem trimRightChars_prefixOf (cs : List Char) : trimRightChars cs <+: cs := by
  unfold trimRightChars
  have h := trimLeftChars_suffix cs.reverse
  have := List.reverse_prefix.mpr (by simpa using h)
  simpa using this

theorem trimRightChars_idem (cs : List Char) :
    trimRightChars (trimRightChars cs) = trimRightChars cs := by
  unfold trimRightChars
  rw [List.reverse_reverse, trimLeftChars_idem]

theorem trimLeft_fix_of_trimRight (cs : List Char) (h : trimLeftChars cs = cs) :
    trimLeftChars (trimRightChars cs) = trimRightChars cs := by
  rcases head_not_ws_of_trimLeft_fix cs h with h0 | ⟨c, rest, hc, hw⟩
  · rw [h0]
    rfl
  · have hpre := trimRightChars_prefixOf cs
    cases hts : trimRightChars cs with
    | nil => rfl
    | cons d r =>
      rw [hts, hc] at hpre
      obtain ⟨t, ht⟩ := hpre
      have hdc : d = c := by
        have := congrArg (List.head?) ht
        simpa using this
      rw [hdc]
      exact trimLeftChars_of_head c r hw

theorem jsTrim_idem (s : String) : jsTrim (jsTrim s) = jsTrim s := by
  show (⟨trimRightChars (trimLeftChars (jsTrim s).data)⟩ : String) = jsTrim s
  have hdata : (jsTrim s).data = trimRightChars (trimLeftChars s.data) := rfl
  rw [hdata, trimLeft_fix_of_trimRight (trimLeftChars s.data) (trimLeftChars_idem s.data),
    trimRightChars_idem]
  rfl

/-- Trimming only removes characters. -/
theorem mem_trim_sub (s : String) (c : Char) (h : c ∈ (jsTrim s).data) : c ∈ s.data := by
  have hdata : (jsTrim s).data = trimRightChars (trimLeftChars s.data) := rfl
  rw [hdata] at h
  have h1 := (trimRightChars_prefixOf (trimLeftChars s.data)).sublist.mem h
  exact (trimLeftChars_suffix s.data).sublist.mem h1

/-- A whitespace-free string is `jsTrim`-fixed. -/
theorem trimFix_of_wsFree (s : String) (h : wsFreeL s.data) : jsTrim s = s := by
  have hleft : trimLeftChars s.data = s.data := by
    cases hs : s.data with
    | nil => rfl
    | cons c r => exact trimLeftChars_of_head c r (h c (by rw [hs]; simp))
  have hright : trimRightChars s.data = s.data := by
    unfold trimRightChars
    cases hs : s.data.reverse with
    | nil =>
      have h0 : s.data = [] := by simpa using congrArg List.reverse hs
      rw [h0]
      rfl
    | cons c r =>
      rw [trimLeftChars_of_head c r (wsFreeL_reverse s.data h c (by rw [hs]; simp))]
      rw [← hs, List.reverse_reverse]
  show (⟨trimRightChars (trimLeftChars s.data)⟩ : String) = s
  rw [hleft, hright]

theorem alpha_not_ws (c : Char) (h : c.isAlpha = true) : isJsWs c = false := by
  by_contra h2
  rw [Bool.not_eq_false] at h2
  unfold isJsWs at h2
  simp only [Bool.or_eq_true, decide_eq_true_eq] at h2
  rcases h2 with ((((h2 | h2) | h2) | h2) | h2) | h2 <;> (subst h2; simp at h)

theorem alpha_ne_comma (c : Char) (h : c.isAlpha = true) : c ≠ ',' := by
  intro h2
  subst h2
  simp at h

theorem digit_not_ws (c : Char) (h : c.isDigit = true) : isJsWs c = false := by
  by_contra h2
  rw [Bool.not_eq_false] at h2
  unfold isJsWs at h2
  simp only [Bool.or_eq_true, decide_eq_true_eq] at h2
  rcases h2 with ((((h2 | h2) | h2) | h2) | h2) | h2 <;> (subst h2; simp at h)

theorem digit_ne_comma (c : Char) (h : c.isDigit = true) : c ≠ ',' := by
  intro h2
  subst h2
  simp at h

/-! ### Uppercasing, state and zip shape facts -/

/-- The upper-case map's values (capital letters) are not among its keys
(checked by computation). -/
theorem upperVals_not_keys :
    ((lowerPairs.map (fun p => (p.2, p.1))).map Prod.snd).all
      (fun v => ((lowerPairs.map (fun p => (p.2, p.1))).lookup v).isNone) = true := by
  decide

theorem upperVals_alpha :
    ((lowerPairs.map (fun p => (p.2, p.1))).map Prod.snd).all Char.isAlpha = true := by
  decide

theorem asciiUpperChar_idem (c : Char) :
    asciiUpperChar (asciiUpperChar c) = asciiUpperChar c := by
  unfold asciiUpperChar
  cases hl : (lowerPairs.map (fun p => (p.2, p.1))).lookup c with
  | none => simp [hl]
  | some u =>
    simp only [Option.getD_some]
    have hu : u ∈ (lowerPairs.map (fun p => (p.2, p.1))).map Prod.snd :=
      lookup_mem_snd _ _ _ hl
    have hnone := List.all_eq_true.mp upperVals_not_keys u hu
    cases hl2 : (lowerPairs.map (fun p => (p.2, p.1))).lookup u with
    | none => simp
    | some w => rw [hl2] at hnone; simp at hnone

theorem asciiUpperChar_alpha (c : Char) (h : c.isAlpha = true) :
    (asciiUpperChar c).isAlpha = true := by
  unfold asciiUpperChar
  cases hl : (lowerPairs.map (fun p => (p.2, p.1))).lookup c with
  | none => simpa using h
  | some u =>
    simp only [Option.getD_some]
    exact List.all_eq_true.mp upperVals_alpha u (lookup_mem_snd _ _ _ hl)

theorem jsToUpper_idem (t : String) : jsToUpper (jsToUpper t) = jsToUpper t := by
  show (⟨(jsToUpper t).data.map asciiUpperChar⟩ : String) = jsToUpper t
  have : (jsToUpper t).data = t.data.map asciiUpperChar := rfl
  rw [this, List.map_map]
  show (⟨t.data.map (asciiUpperChar ∘ asciiUpperChar)⟩ : String) = ⟨t.data.map asciiUpperChar⟩
  congr 1
  exact List.map_congr_left (fun c _ => asciiUpperChar_idem c)

/-- Facts about a parsed state abbreviation `jsToUpper t` with
`isTwoAlpha t`. -/
theorem state_props (t : String) (h : isTwoAlpha t = true) :
    (jsToUpper t).data ≠ [] ∧ wsFreeL (jsToUpper t).data ∧
    ',' ∉ (jsToUpper t).data ∧ isTwoAlpha (jsToUpper t) = true ∧
    jsTrim (jsToUpper t) = jsToUpper t := by
  unfold isTwoAlpha at h
  simp only [Bool.and_eq_true, decide_eq_true_eq] at h
  obtain ⟨hlen, hall⟩ := h
  have hdata : (jsToUpper t).data = t.data.map asciiUpperChar := rfl
  have halpha : ∀ c ∈ (jsToUpper t).data, c.isAlpha = true := by
    intro c hc
    rw [hdata] at hc
    obtain ⟨d, hd, hdc⟩ := List.mem_map.mp hc
    rw [← hdc]
    exact asciiUpperChar_alpha d (List.all_eq_true.mp hall d hd)
  have hne : (jsToUpper t).data ≠ [] := by
    rw [hdata]
    intro h0
    rw [List.map_eq_nil_iff] at h0
    rw [h0] at hlen
    simp at hlen
  have hws : wsFreeL (jsToUpper t).data := fun c hc => alpha_not_ws c (halpha c hc)
  refine ⟨hne, hws, ?_, ?_, trimFix_of_wsFree _ hws⟩
  · intro hc
    exact alpha_ne_comma ',' (halpha ',' hc) rfl
  · unfold isTwoAlpha
    rw [hdata]
    simp only [Bool.and_eq_true, decide_eq_true_eq, List.length_map]
    constructor
    · exact hlen
    · rw [List.all_eq_true]
      intro c hc
      rw [← hdata] at hc
      exact halpha c hc

/-- Facts about a string accepted by the zip-code test. -/
theorem zip_props (z : String) (h : isZipcode z = true) :
    z.data ≠ [] ∧ wsFreeL z.data ∧ ',' ∉ z.data ∧ jsTrim z = z := by
  unfold isZipcode at h
  have hchars : ∀ c ∈ z.data, c.isDigit = true ∨ c = '-' := by
    split at h
    · rename_i a b c d e heq
      intro x hx
      rw [heq] at hx
      simp only [List.all_cons, List.all_nil, Bool.and_eq_true] at h
      fin_cases hx <;> simp_all
    · rename_i a b c d e dash f g i j heq
      intro x hx
      rw [heq] at hx
      simp only [List.all_cons, List.all_nil, Bool.and_eq_true, decide_eq_true_eq] at h
      fin_cases hx <;> simp_all
    · cases h
  have hne : z.data ≠ [] := by
    intro h0
    rw [h0] at h
    exact Bool.noConfusion h
  have hws : wsFreeL z.data := by
    intro c hc
    rcases hchars c hc with h2 | h2
    · exact digit_not_ws c h2
    · subst h2; rfl
  refine ⟨hne, hws, ?_, trimFix_of_wsFree _ hws⟩
  intro hc
  rcases hchars ',' hc with h2 | h2
  · exact digit_ne_comma ',' h2 rfl
  · cases h2

/-! ### Reconstruction: splitting a comma-join recovers the parts -/

theorem jsTrim_space_cons (p : List Char) :
    jsTrim ⟨' ' :: p⟩ = jsTrim ⟨p⟩ := by
  show (⟨trimRightChars (trimLeftChars (' ' :: p))⟩ : String) = _
  rw [trimLeftChars_ws_cons ' ' p (by decide)]
  rfl

theorem split_trim_join_comma (parts : List String) (hne : parts ≠ [])
    (hp : ∀ p ∈ parts, ',' ∉ p.data ∧ jsTrim p = p) :
    (jsSplitChar ',' (joinSep ", " parts)).map jsTrim = parts := by
  induction parts with
  | nil => exact absurd rfl hne
  | cons t ts ih =>
    cases hts : ts with
    | nil =>
      show (jsSplitChar ',' t).map jsTrim = [t]
      unfold jsSplitChar
      rw [splitCharAux_sepFree ',' t.data (hp t (by simp)).1 []]
      simp only [List.reverse_nil, List.nil_append, List.map]
      rw [show (⟨t.data⟩ : String) = t from rfl, (hp t (by simp)).2]
    | cons t2 ts2 =>
      rw [← hts]
      have hjoin : (joinSep ", " (t :: ts)).data =
          t.data ++ ',' :: (' ' :: (joinSep ", " ts).data) := by
        rw [joinSep_data_cons ", " t ts (by rw [hts]; simp)]
        simp
      unfold jsSplitChar
      rw [hjoin, splitCharAux_append ',' t.data _ (hp t (by simp)).1 []]
      have hsp : splitCharAux ',' (' ' :: (joinSep ", " ts).data) [] =
          splitCharAux ',' (joinSep ", " ts).data [' '] := by
        have hc : (' ' : Char) ≠ ',' := by decide
        simp [splitCharAux, hc]
      rw [hsp]
      cases hX : splitCharAux ',' (joinSep ", " ts).data [] with
      | nil =>
        exact absurd hX (by rw [splitCharAux_acc]; simp)
      | cons h0 tail0 =>
        have hacc : splitCharAux ',' (joinSep ", " ts).data [' '] = (' ' :: h0) :: tail0 := by
          rw [splitCharAux_acc ',' (joinSep ", " ts).data [' '], hX]
          simp
        rw [hacc]
        have hihx := ih (by rw [hts]; simp) (fun p hp2 => hp p (List.mem_cons_of_mem t hp2))
        unfold jsSplitChar at hihx
        rw [hX] at hihx
        simp only [List.map_cons] at hihx ⊢
        rw [jsTrim_space_cons h0]
        simp only [List.reverse_nil, List.nil_append]
        rw [show (⟨t.data⟩ : String) = t from rfl, (hp t (by simp)).2]
        exact congrArg (List.cons t) hihx

/-! ### `split(/\s+/)` on the reconstructed state-zip part -/

theorem jsSplitWs_single (t : String) (hne : t.data ≠ []) (hws : wsFreeL t.data) :
    jsSplitWs t = [t] := by
  unfold jsSplitWs
  have hcoll : collapseWs t = t := by
    show (⟨collapseWsAux false t.data⟩ : String) = t
    have h2 : collapseWsAux false t.data = t.data := by
      have := collapse_wsfree_append t.data [] hws
      simpa [collapseWsAux] using this
    rw [h2]
  rw [hcoll]
  unfold jsSplitChar
  have hsep : ' ' ∉ t.data := by
    intro hm
    have := hws ' ' hm
    simp [isJsWs] at this
  rw [splitCharAux_sepFree ' ' t.data hsep []]
  simp

theorem jsSplitWs_pair (st z : String) (hst : st.data ≠ []) (hstw : wsFreeL st.data)
    (hz : z.data ≠ []) (hzw : wsFreeL z.data) :
    jsSplitWs (st ++ " " ++ z) = [st, z] := by
  have hj : st ++ " " ++ z = joinSep " " [st, z] := rfl
  rw [hj]
  unfold jsSplitWs
  have hgood : ∀ x ∈ [st, z], x.data ≠ [] ∧ wsFreeL x.data := by
    intro x hx
    rcases List.mem_cons.mp hx with h | h
    · subst h; exact ⟨hst, hstw⟩
    · rcases List.mem_cons.mp h with h2 | h2
      · subst h2; exact ⟨hz, hzw⟩
      · simp at h2
  have hcoll : collapseWs (joinSep " " [st, z]) = joinSep " " [st, z] := by
    show (⟨collapseWsAux false (joinSep " " [st, z]).data⟩ : String) = _
    rw [collapse_join_good [st, z] (by simp) hgood]
  rw [hcoll]
  unfold jsSplitChar
  rw [split_join_space [st, z] (by simp) hgood]
  rfl

/-! ### `jsTrim` is the identity on joins of trimmed non-empty parts -/

theorem joinSep_head_cons_any (sep : String) (t : String) (ts : List String)
    (c : Char) (rest : List Char) (h : t.data = c :: rest) :
    ∃ tail, (joinSep sep (t :: ts)).data = c :: tail := by
  cases ts with
  | nil => exact ⟨rest, h⟩
  | cons t2 ts2 =>
    rw [joinSep_data_cons sep t (t2 :: ts2) (by simp), h]
    exact ⟨_, rfl⟩

theorem joinSep_reverse_head_any (sep : String) (toks : List String) (hne : toks ≠ [])
    (hlast : ∀ t ∈ toks, ∃ c r, t.data.reverse = c :: r ∧ isJsWs c = false) :
    ∃ c rest, (joinSep sep toks).data.reverse = c :: rest ∧ isJsWs c = false := by
  induction toks with
  | nil => exact absurd rfl hne
  | cons t ts ih =>
    cases hts : ts with
    | nil =>
      show ∃ c rest, t.data.reverse = c :: rest ∧ _
      exact hlast t (by simp)
    | cons t2 ts2 =>
      rw [← hts]
      have htsne : ts ≠ [] := by rw [hts]; simp
      rw [joinSep_data_cons sep t ts htsne]
      obtain ⟨c, rest, hc, hcws⟩ := ih htsne (fun x hx => hlast x (List.mem_cons_of_mem t hx))
      refine ⟨c, rest ++ sep.data.reverse ++ t.data.reverse, ?_, hcws⟩
      rw [List.reverse_append, List.reverse_append, hc]
      simp

theorem jsTrim_joinSep_fix (sep : String) (toks : List String) (hne : toks ≠ [])
    (hgood : ∀ t ∈ toks, t.data ≠ [] ∧ jsTrim t = t) :
    jsTrim (joinSep sep toks) = joinSep sep toks := by
  have hlast : ∀ t ∈ toks, ∃ c r, t.data.reverse = c :: r ∧ isJsWs c = false :=
    fun t ht => trimFix_last t (hgood t ht).2 (hgood t ht).1
  obtain ⟨c, rest, hc, hcws⟩ := joinSep_reverse_head_any sep toks hne hlast
  have hhead : ∃ c0 rest0, (joinSep sep toks).data = c0 :: rest0 ∧ isJsWs c0 = false := by
    cases toks with
    | nil => exact absurd rfl hne
    | cons t ts =>
      obtain ⟨c0, r0, h0, h0ws⟩ :=
        trimFix_head t (hgood t (by simp)).2 (hgood t (by simp)).1
      obtain ⟨tail, htail⟩ := joinSep_head_cons_any sep t ts c0 r0 h0
      exact ⟨c0, tail, htail, h0ws⟩
  obtain ⟨c0, rest0, h0, h0ws⟩ := hhead
  unfold jsTrim trimRightChars
  rw [h0, trimLeftChars_of_head c0 rest0 h0ws, ← h0, hc,
    trimLeftChars_of_head c rest hcws, ← hc]
  simp

/-! ### Shapes of the parsed address components -/

/-- Every comma-split-and-trimmed part is trimmed and comma-free. -/
theorem split_parts_good (x : String) :
    ∀ p ∈ (jsSplitChar ',' x).map jsTrim, jsTrim p = p ∧ ',' ∉ p.data := by
  intro p hp
  obtain ⟨q0, hq0, hq0p⟩ := List.mem_map.mp hp
  obtain ⟨q, hq, hqq0⟩ := List.mem_map.mp hq0
  subst hq0p
  subst hqq0
  refine ⟨jsTrim_idem _, ?_⟩
  intro hcm
  have h1 : ',' ∈ (⟨q⟩ : String).data := mem_trim_sub _ ',' hcm
  have h2 : (⟨q⟩ : String).data = q := rfl
  rw [h2] at h1
  exact mem_splitCharAux_no_sep ',' x.data [] (by simp) q hq h1

theorem parseAddressComponents_street (x : String) :
    ∃ s, (parseAddressComponents x).street = some s ∧ jsTrim s = s ∧ ',' ∉ s.data := by
  have hs : (parseAddressComponents x).street = ((jsSplitChar ',' x).map jsTrim).get? 0 := rfl
  cases hP : splitCharAux ',' x.data [] with
  | nil => exact absurd hP (by rw [splitCharAux_acc]; simp)
  | cons q qs =>
    have hparts : (jsSplitChar ',' x).map jsTrim =
        jsTrim ⟨q⟩ :: (qs.map (fun p => (⟨p⟩ : String))).map jsTrim := by
      unfold jsSplitChar
      rw [hP]
      rfl
    refine ⟨jsTrim ⟨q⟩, ?_, ?_⟩
    · rw [hs, hparts]
      rfl
    · exact split_parts_good x (jsTrim ⟨q⟩) (by rw [hparts]; simp)

theorem parseAddressComponents_city (x : String) (c : String)
    (h : (parseAddressComponents x).city = some c) : jsTrim c = c ∧ ',' ∉ c.data := by
  have hc : (parseAddressComponents x).city =
      (if ((jsSplitChar ',' x).map jsTrim).length ≥ 2
       then ((jsSplitChar ',' x).map jsTrim).get? 1 else none) := rfl
  rw [hc] at h
  by_cases hlen : ((jsSplitChar ',' x).map jsTrim).length ≥ 2
  · rw [if_pos hlen] at h
    exact split_parts_good x c (List.get?_mem h)
  · rw [if_neg hlen] at h
    cases h

theorem parseAddressComponents_state (x : String) (st : String)
    (h : (parseAddressComponents x).state = some st) :
    ∃ t, isTwoAlpha t = true ∧ st = jsToUpper t := by
  have hst : (parseAddressComponents x).state =
      (if ((jsSplitChar ',' x).map jsTrim).length ≥ 3 then
         ((match (jsSplitWs (((jsSplitChar ',' x).map jsTrim).getD 2 "")).get? 0 with
           | some t => if isTwoAlpha t then some (jsToUpper t) else none
           | none => none),
          (match (jsSplitWs (((jsSplitChar ',' x).map jsTrim).getD 2 "")).get? 1 with
           | some t => if isZipcode t then some t else none
           | none => none))
       else (none, none)).1 := rfl
  rw [hst] at h
  by_cases hlen : ((jsSplitChar ',' x).map jsTrim).length ≥ 3
  · rw [if_pos hlen] at h
    simp only [] at h
    cases hg : (jsSplitWs (((jsSplitChar ',' x).map jsTrim).getD 2 "")).get? 0 with
    | none => rw [hg] at h; cases h
    | some t =>
      simp only [hg] at h
      by_cases ht : isTwoAlpha t = true
      · rw [if_pos ht] at h
        cases h
        exact ⟨t, ht, rfl⟩
      · rw [if_neg ht] at h
        cases h
  · rw [if_neg hlen] at h
    cases h

theorem parseAddressComponents_zip (x : String) (z : String)
    (h : (parseAddressComponents x).zipCode = some z) : isZipcode z = true := by
  have hz : (parseAddressComponents x).zipCode =
      (if ((jsSplitChar ',' x).map jsTrim).length ≥ 4 then
         match ((jsSplitChar ',' x).map jsTrim).get? 3 with
         | some t => if isZipcode t then some t else
            (if ((jsSplitChar ',' x).map jsTrim).length ≥ 3 then
               ((match (jsSplitWs (((jsSplitChar ',' x).map jsTrim).getD 2 "")).get? 0 with
                 | some t2 => if isTwoAlpha t2 then some (jsToUpper t2) else none
                 | none => none),
                (match (jsSplitWs (((jsSplitChar ',' x).map jsTrim).getD 2 "")).get? 1 with
                 | some t2 => if isZipcode t2 then some t2 else none
                 | none => none))
             else (none, none)).2
         | none =>
            (if ((jsSplitChar ',' x).map jsTrim).length ≥ 3 then
               ((match (jsSplitWs (((jsSplitChar ',' x).map jsTrim).getD 2 "")).get? 0 with
                 | some t2 => if isTwoAlpha t2 then some (jsToUpper t2) else none
                 | none => none),
                (match (jsSplitWs (((jsSplitChar ',' x).map jsTrim).getD 2 "")).get? 1 with
                 | some t2 => if isZipcode t2 then some t2 else none
                 | none => none))
             else (none, none)).2
       else
          (if ((jsSplitChar ',' x).map jsTrim).length ≥ 3 then
             ((match (jsSplitWs (((jsSplitChar ',' x).map jsTrim).getD 2 "")).get? 0 with
               | some t2 => if isTwoAlpha t2 then some (jsToUpper t2) else none
               | none => none),
              (match (jsSplitWs (((jsSplitChar ',' x).map jsTrim).getD 2 "")).get? 1 with
               | some t2 => if isZipcode t2 then some t2 else none
               | none => none))
           else (none, none)).2) := rfl
  rw [hz] at h
  have hzip1 : ∀ z2, (if ((jsSplitChar ',' x).map jsTrim).length ≥ 3 then
         ((match (jsSplitWs (((jsSplitChar ',' x).map jsTrim).getD 2 "")).get? 0 with
           | some t2 => if isTwoAlpha t2 then some (jsToUpper t2) else none
           | none => none),
          (match (jsSplitWs (((jsSplitChar ',' x).map jsTrim).getD 2 "")).get? 1 with
           | some t2 => if isZipcode t2 then some t2 else none
           | none => none))
       else (none, none)).2 = some z2 → isZipcode z2 = true := by
    intro z2 h2
    by_cases hlen : ((jsSplitChar ',' x).map jsTrim).length ≥ 3
    · rw [if_pos hlen] at h2
      simp only [] at h2
      cases hg : (jsSplitWs (((jsSplitChar ',' x).map jsTrim).getD 2 "")).get? 1 with
      | none => rw [hg] at h2; cases h2
      | some t =>
        simp only [hg] at h2
        by_cases ht : isZipcode t = true
        · rw [if_pos ht] at h2
          cases h2
          exact ht
        · rw [if_neg ht] at h2
          cases h2
    · rw [if_neg hlen] at h2
      cases h2
  by_cases hlen4 : ((jsSplitChar ',' x).map jsTrim).length ≥ 4
  · rw [if_pos hlen4] at h
    cases hg : ((jsSplitChar ',' x).map jsTrim).get? 3 with
    | none =>
      rw [hg] at h
      exact hzip1 z h
    | some t =>
      simp only [hg] at h
      by_cases ht : isZipcode t = true
      · rw [if_pos ht] at h
        cases h
        exact ht
      · rw [if_neg ht] at h
        exact hzip1 z h
  · rw [if_neg hlen4] at h
    exact hzip1 z h

theorem parseAddressComponents_street_eq (x : String) :
    (parseAddressComponents x).street = ((jsSplitChar ',' x).map jsTrim).get? 0 := rfl

theorem parseAddressComponents_city_eq (x : String) :
    (parseAddressComponents x).city =
      (if ((jsSplitChar ',' x).map jsTrim).length ≥ 2
       then ((jsSplitChar ',' x).map jsTrim).get? 1 else none) := rfl

theorem parseAddressComponents_state_none (x : String)
    (h3 : ¬ ((jsSplitChar ',' x).map jsTrim).length ≥ 3) :
    (parseAddressComponents x).state = none := by
  have e : (parseAddressComponents x).state =
      (if ((jsSplitChar ',' x).map jsTrim).length ≥ 3 then
         ((match (jsSplitWs (((jsSplitChar ',' x).map jsTrim).getD 2 "")).get? 0 with
           | some t => if isTwoAlpha t then some (jsToUpper t) else none
           | none => none),
          (match (jsSplitWs (((jsSplitChar ',' x).map jsTrim).getD 2 "")).get? 1 with
           | some t => if isZipcode t then some t else none
           | none => none))
       else (none, none)).1 := rfl
  rw [e, if_neg h3]

theorem parseAddressComponents_zip_none (x : String)
    (h3 : ¬ ((jsSplitChar ',' x).map jsTrim).length ≥ 3)
    (h4 : ¬ ((jsSplitChar ',' x).map jsTrim).length ≥ 4) :
    (parseAddressComponents x).zipCode = none := by
  have e : (parseAddressComponents x).zipCode =
      (if ((jsSplitChar ',' x).map jsTrim).length ≥ 4 then
         match ((jsSplitChar ',' x).map jsTrim).get? 3 with
         | some t => if isZipcode t then some t else
            (if ((jsSplitChar ',' x).map jsTrim).length ≥ 3 then
               ((match (jsSplitWs (((jsSplitChar ',' x).map jsTrim).getD 2 "")).get? 0 with
                 | some t2 => if isTwoAlpha t2 then some (jsToUpper t2) else none
                 | none => none),
                (match (jsSplitWs (((jsSplitChar ',' x).map jsTrim).getD 2 "")).get? 1 with
                 | some t2 => if isZipcode t2 then some t2 else none
                 | none => none))
             else (none, none)).2
         | none =>
            (if ((jsSplitChar ',' x).map jsTrim).length ≥ 3 then
               ((match (jsSplitWs (((jsSplitChar ',' x).map jsTrim).getD 2 "")).get? 0 with
                 | some t2 => if isTwoAlpha t2 then some (jsToUpper t2) else none
                 | none => none),
                (match (jsSplitWs (((jsSplitChar ',' x).map jsTrim).getD 2 "")).get? 1 with
                 | some t2 => if isZipcode t2 then some t2 else none
                 | none => none))
             else (none, none)).2
       else
          (if ((jsSplitChar ',' x).map jsTrim).length ≥ 3 then
             ((match (jsSplitWs (((jsSplitChar ',' x).map jsTrim).getD 2 "")).get? 0 with
               | some t2 => if isTwoAlpha t2 then some (jsToUpper t2) else none
               | none => none),
              (match (jsSplitWs (((jsSplitChar ',' x).map jsTrim).getD 2 "")).get? 1 with
               | some t2 => if isZipcode t2 then some t2 else none
               | none => none))
           else (none, none)).2) := rfl
  rw [e, if_neg h4, if_neg h3]

theorem parseAddressComponents_state_zip_of_three (x a b q : String)
    (hp : (jsSplitChar ',' x).map jsTrim = [a, b, q]) :
    (parseAddressComponents x).state =
      (match (jsSplitWs q).get? 0 with
       | some t => if isTwoAlpha t then some (jsToUpper t) else none
       | none => none) ∧
    (parseAddressComponents x).zipCode =
      (match (jsSplitWs q).get? 1 with
       | some t => if isZipcode t then some t else none
       | none => none) := by
  have e1 : (parseAddressComponents x).state =
      (if ((jsSplitChar ',' x).map jsTrim).length ≥ 3 then
         ((match (jsSplitWs (((jsSplitChar ',' x).map jsTrim).getD 2 "")).get? 0 with
           | some t => if isTwoAlpha t then some (jsToUpper t) else none
           | none => none),
          (match (jsSplitWs (((jsSplitChar ',' x).map jsTrim).getD 2 "")).get? 1 with
           | some t => if isZipcode t then some t else none
           | none => none))
       else (none, none)).1 := rfl
  have e2 : (parseAddressComponents x).zipCode =
      (if ((jsSplitChar ',' x).map jsTrim).length ≥ 4 then
         match ((jsSplitChar ',' x).map jsTrim).get? 3 with
         | some t => if isZipcode t then some t else
            (if ((jsSplitChar ',' x).map jsTrim).length ≥ 3 then
               ((match (jsSplitWs (((jsSplitChar ',' x).map jsTrim).getD 2 "")).get? 0 with
                 | some t2 => if isTwoAlpha t2 then some (jsToUpper t2) else none
                 | none => none),
                (match (jsSplitWs (((jsSplitChar ',' x).map jsTrim).getD 2 "")).get? 1 with
                 | some t2 => if isZipcode t2 then some t2 else none
                 | none => none))
             else (none, none)).2
         | none =>
            (if ((jsSplitChar ',' x).map jsTrim).length ≥ 3 then
               ((match (jsSplitWs (((jsSplitChar ',' x).map jsTrim).getD 2 "")).get? 0 with
                 | some t2 => if isTwoAlpha t2 then some (jsToUpper t2) else none
                 | none => none),
                (match (jsSplitWs (((jsSplitChar ',' x).map jsTrim).getD 2 "")).get? 1 with
                 | some t2 => if isZipcode t2 then some t2 else none
                 | none => none))
             else (none, none)).2
       else
          (if ((jsSplitChar ',' x).map jsTrim).length ≥ 3 then
             ((match (jsSplitWs (((jsSplitChar ',' x).map jsTrim).getD 2 "")).get? 0 with
               | some t2 => if isTwoAlpha t2 then some (jsToUpper t2) else none
               | none => none),
              (match (jsSplitWs (((jsSplitChar ',' x).map jsTrim).getD 2 "")).get? 1 with
               | some t2 => if isZipcode t2 then some t2 else none
               | none => none))
           else (none, none)).2) := rfl
  rw [hp] at e1 e2
  constructor
  · rw [e1, if_pos (by simp)]
    rfl
  · rw [e2, if_neg (by simp), if_pos (by simp)]
    rfl

theorem str_ne_empty_of_data (s : String) (h : s.data ≠ []) : s ≠ "" :=
  fun he => h (by rw [he])

theorem data_ne_empty_of_str (s : String) (h : s ≠ "") : s.data ≠ [] := by
  intro hd
  apply h
  have he : s = ⟨s.data⟩ := rfl
  rw [he, hd]

theorem jsStrTruthy_some (s : String) (h : s ≠ "") : jsStrTruthy (some s) = true := by
  simp [jsStrTruthy, h]

/-- The normalized full address, written out from the definition. -/
theorem normalizeAddressForPao_full_eq (input : String) :
    (normalizeAddressForPao input).normalizedFull =
      joinSep ", "
        ((if jsStrTruthy
              ((match (parseAddressComponents (jsTrim input)).street with
                | some s => if s ≠ "" then
                    (some (normalizeStreet s).1, (normalizeStreet s).2)
                  else (some s, ([] : List String))
                | none => (none, [])).1)
          then [((match (parseAddressComponents (jsTrim input)).street with
                | some s => if s ≠ "" then
                    (some (normalizeStreet s).1, (normalizeStreet s).2)
                  else (some s, ([] : List String))
                | none => (none, [])).1).getD ""] else []) ++
         (if jsStrTruthy (parseAddressComponents (jsTrim input)).city
          then [(parseAddressComponents (jsTrim input)).city.getD ""] else []) ++
         (if jsStrTruthy (parseAddressComponents (jsTrim input)).state &&
             jsStrTruthy (parseAddressComponents (jsTrim input)).zipCode then
            [(parseAddressComponents (jsTrim input)).state.getD "" ++ " " ++
             (parseAddressComponents (jsTrim input)).zipCode.getD ""]
          else if jsStrTruthy (parseAddressComponents (jsTrim input)).state then
            [(parseAddressComponents (jsTrim input)).state.getD ""]
          else if jsStrTruthy (parseAddressComponents (jsTrim input)).zipCode then
            [(parseAddressComponents (jsTrim input)).zipCode.getD ""]
          else [])) := rfl


/-- Round trip for a normalized address with only a street part. -/
theorem pao_roundtrip_one (ns : String)
    (hnsd : ns.data ≠ []) (hnst : jsTrim ns = ns) (hnsc : ',' ∉ ns.data)
    (hfix : (normalizeStreet ns).1 = ns) :
    (normalizeAddressForPao (joinSep ", " [ns])).normalizedFull = joinSep ", " [ns] := by
  have hnsne : ns ≠ "" := str_ne_empty_of_data ns hnsd
  have hFeq : joinSep ", " [ns] = ns := rfl
  rw [hFeq]
  have hparts : (jsSplitChar ',' ns).map jsTrim = [ns] := by
    have := split_trim_join_comma [ns] (by simp)
      (by
        intro p hp
        rcases List.mem_cons.mp hp with h | h
        · subst h; exact ⟨hnsc, hnst⟩
        · simp at h)
    simpa using this
  have hstreet2 : (parseAddressComponents ns).street = some ns := by
    rw [parseAddressComponents_street_eq, hparts]
    rfl
  have hcity2 : (parseAddressComponents ns).city = none := by
    rw [parseAddressComponents_city_eq, hparts]
    simp
  have hstate2 : (parseAddressComponents ns).state = none :=
    parseAddressComponents_state_none ns (by rw [hparts]; simp)
  have hzip2 : (parseAddressComponents ns).zipCode = none :=
    parseAddressComponents_zip_none ns (by rw [hparts]; simp) (by rw [hparts]; simp)
  rw [normalizeAddressForPao_full_eq ns, hnst]
  simp only [hstreet2, hcity2, hstate2, hzip2]
  rw [if_pos hnsne, hfix]
  simp [jsStrTruthy, hnsne]
  rfl

/-- Round trip for a normalized address of the form street, extra-part. -/
theorem pao_roundtrip_two (ns p : String)
    (hnsd : ns.data ≠ []) (hnst : jsTrim ns = ns) (hnsc : ',' ∉ ns.data)
    (hfix : (normalizeStreet ns).1 = ns)
    (hpd : p.data ≠ []) (hpt : jsTrim p = p) (hpc : ',' ∉ p.data) :
    (normalizeAddressForPao (joinSep ", " [ns, p])).normalizedFull = joinSep ", " [ns, p] := by
  have hnsne : ns ≠ "" := str_ne_empty_of_data ns hnsd
  have hpne : p ≠ "" := str_ne_empty_of_data p hpd
  have hgood : ∀ t ∈ [ns, p], t.data ≠ [] ∧ jsTrim t = t := by
    intro t ht
    rcases List.mem_cons.mp ht with h | h
    · subst h; exact ⟨hnsd, hnst⟩
    · rcases List.mem_cons.mp h with h2 | h2
      · subst h2; exact ⟨hpd, hpt⟩
      · simp at h2
  have hFtrim : jsTrim (joinSep ", " [ns, p]) = joinSep ", " [ns, p] :=
    jsTrim_joinSep_fix ", " [ns, p] (by simp) hgood
  have hparts : (jsSplitChar ',' (joinSep ", " [ns, p])).map jsTrim = [ns, p] := by
    apply split_trim_join_comma [ns, p] (by simp)
    intro q hq
    rcases List.mem_cons.mp hq with h | h
    · subst h; exact ⟨hnsc, hnst⟩
    · rcases List.mem_cons.mp h with h2 | h2
      · subst h2; exact ⟨hpc, hpt⟩
      · simp at h2
  have hstreet2 : (parseAddressComponents (joinSep ", " [ns, p])).street = some ns := by
    rw [parseAddressComponents_street_eq, hparts]
    rfl
  have hcity2 : (parseAddressComponents (joinSep ", " [ns, p])).city = some p := by
    rw [parseAddressComponents_city_eq, hparts]
    simp
  have hstate2 : (parseAddressComponents (joinSep ", " [ns, p])).state = none :=
    parseAddressComponents_state_none _ (by rw [hparts]; simp)
  have hzip2 : (parseAddressComponents (joinSep ", " [ns, p])).zipCode = none :=
    parseAddressComponents_zip_none _ (by rw [hparts]; simp) (by rw [hparts]; simp)
  rw [normalizeAddressForPao_full_eq, hFtrim]
  simp only [hstreet2, hcity2, hstate2, hzip2]
  rw [if_pos hnsne, hfix]
  simp [jsStrTruthy, hnsne, hpne]

/-- Round trip for street, city, two-letter state. -/
theorem pao_roundtrip_state (ns c st : String)
    (hnsd : ns.data ≠ []) (hnst : jsTrim ns = ns) (hnsc : ',' ∉ ns.data)
    (hfix : (normalizeStreet ns).1 = ns)
    (hcd : c.data ≠ []) (hct : jsTrim c = c) (hcc : ',' ∉ c.data)
    (hst2 : isTwoAlpha st = true) (hstu : jsToUpper st = st) :
    (normalizeAddressForPao (joinSep ", " [ns, c, st])).normalizedFull =
      joinSep ", " [ns, c, st] := by
  have hsp := state_props st hst2
  rw [hstu] at hsp
  obtain ⟨hstd, hstw, hstc, hst2b, hstt⟩ := hsp
  have hnsne : ns ≠ "" := str_ne_empty_of_data ns hnsd
  have hcne : c ≠ "" := str_ne_empty_of_data c hcd
  have hstne : st ≠ "" := str_ne_empty_of_data st hstd
  have hgood : ∀ t ∈ [ns, c, st], t.data ≠ [] ∧ jsTrim t = t := by
    intro t ht
    rcases List.mem_cons.mp ht with h | h
    · subst h; exact ⟨hnsd, hnst⟩
    · rcases List.mem_cons.mp h with h2 | h2
      · subst h2; exact ⟨hcd, hct⟩
      · rcases List.mem_cons.mp h2 with h3 | h3
        · subst h3; exact ⟨hstd, hstt⟩
        · simp at h3
  have hFtrim : jsTrim (joinSep ", " [ns, c, st]) = joinSep ", " [ns, c, st] :=
    jsTrim_joinSep_fix ", " [ns, c, st] (by simp) hgood
  have hparts : (jsSplitChar ',' (joinSep ", " [ns, c, st])).map jsTrim = [ns, c, st] := by
    apply split_trim_join_comma [ns, c, st] (by simp)
    intro q hq
    rcases List.mem_cons.mp hq with h | h
    · subst h; exact ⟨hnsc, hnst⟩
    · rcases List.mem_cons.mp h with h2 | h2
      · subst h2; exact ⟨hcc, hct⟩
      · rcases List.mem_cons.mp h2 with h3 | h3
        · subst h3; exact ⟨hstc, hstt⟩
        · simp at h3
  have hstreet2 : (parseAddressComponents (joinSep ", " [ns, c, st])).street = some ns := by
    rw [parseAddressComponents_street_eq, hparts]
    rfl
  have hcity2 : (parseAddressComponents (joinSep ", " [ns, c, st])).city = some c := by
    rw [parseAddressComponents_city_eq, hparts]
    simp
  obtain ⟨hstate2, hzip2⟩ := parseAddressComponents_state_zip_of_three _ ns c st hparts
  rw [jsSplitWs_single st hstd hstw] at hstate2 hzip2
  simp only [List.get?] at hstate2 hzip2
  rw [if_pos hst2] at hstate2
  rw [hstu] at hstate2
  rw [normalizeAddressForPao_full_eq, hFtrim]
  simp only [hstreet2, hcity2, hstate2, hzip2]
  rw [if_pos hnsne, hfix]
  simp [jsStrTruthy, hnsne, hcne, hstne]

/-- Round trip for street, city, state-zip. -/
theorem pao_roundtrip_statezip (ns c st z : String)
    (hnsd : ns.data ≠ []) (hnst : jsTrim ns = ns) (hnsc : ',' ∉ ns.data)
    (hfix : (normalizeStreet ns).1 = ns)
    (hcd : c.data ≠ []) (hct : jsTrim c = c) (hcc : ',' ∉ c.data)
    (hst2 : isTwoAlpha st = true) (hstu : jsToUpper st = st)
    (hz : isZipcode z = true) :
    (normalizeAddressForPao (joinSep ", " [ns, c, st ++ " " ++ z])).normalizedFull =
      joinSep ", " [ns, c, st ++ " " ++ z] := by
  have hsp := state_props st hst2
  rw [hstu] at hsp
  obtain ⟨hstd, hstw, hstc, hst2b, hstt⟩ := hsp
  obtain ⟨hzd, hzw, hzc, hzt⟩ := zip_props z hz
  have hnsne : ns ≠ "" := str_ne_empty_of_data ns hnsd
  have hcne : c ≠ "" := str_ne_empty_of_data c hcd
  have hstne : st ≠ "" := str_ne_empty_of_data st hstd
  have hzne : z ≠ "" := str_ne_empty_of_data z hzd
  have hqdata : (st ++ " " ++ z).data = st.data ++ ' ' :: z.data := by
    rw [String.data_append, String.data_append]
    simp
  have hqd : (st ++ " " ++ z).data ≠ [] := by
    rw [hqdata]
    cases hs : st.data with
    | nil => exact absurd hs hstd
    | cons a r => simp
  have hqw : ∀ x ∈ (st ++ " " ++ z).data, isJsWs x = false ∨ x = ' ' := by
    intro x hx
    rw [hqdata] at hx
    rcases List.mem_append.mp hx with h | h
    · exact Or.inl (hstw x h)
    · rcases List.mem_cons.mp h with h2 | h2
      · exact Or.inr h2
      · exact Or.inl (hzw x h2)
  have hqt : jsTrim (st ++ " " ++ z) = st ++ " " ++ z := by
    have hj : st ++ " " ++ z = joinSep " " [st, z] := rfl
    rw [hj]
    apply jsTrim_join_good [st, z] (by simp)
    intro t ht
    rcases List.mem_cons.mp ht with h | h
    · subst h; exact ⟨hstd, hstw⟩
    · rcases List.mem_cons.mp h with h2 | h2
      · subst h2; exact ⟨hzd, hzw⟩
      · simp at h2
  have hqc : ',' ∉ (st ++ " " ++ z).data := by
    rw [hqdata]
    intro hx
    rcases List.mem_append.mp hx with h | h
    · exact hstc h
    · rcases List.mem_cons.mp h with h2 | h2
      · cases h2
      · exact hzc h2
  have hqne : st ++ " " ++ z ≠ "" := str_ne_empty_of_data _ hqd
  have hgood : ∀ t ∈ [ns, c, st ++ " " ++ z], t.data ≠ [] ∧ jsTrim t = t := by
    intro t ht
    rcases List.mem_cons.mp ht with h | h
    · subst h; exact ⟨hnsd, hnst⟩
    · rcases List.mem_cons.mp h with h2 | h2
      · subst h2; exact ⟨hcd, hct⟩
      · rcases List.mem_cons.mp h2 with h3 | h3
        · subst h3; exact ⟨hqd, hqt⟩
        · simp at h3
  have hFtrim : jsTrim (joinSep ", " [ns, c, st ++ " " ++ z]) =
      joinSep ", " [ns, c, st ++ " " ++ z] :=
    jsTrim_joinSep_fix ", " [ns, c, st ++ " " ++ z] (by simp) hgood
  have hparts : (jsSplitChar ',' (joinSep ", " [ns, c, st ++ " " ++ z])).map jsTrim =
      [ns, c, st ++ " " ++ z] := by
    apply split_trim_join_comma [ns, c, st ++ " " ++ z] (by simp)
    intro q hq
    rcases List.mem_cons.mp hq with h | h
    · subst h; exact ⟨hnsc, hnst⟩
    · rcases List.mem_cons.mp h with h2 | h2
      · subst h2; exact ⟨hcc, hct⟩
      · rcases List.mem_cons.mp h2 with h3 | h3
        · subst h3; exact ⟨hqc, hqt⟩
        · simp at h3
  have hstreet2 : (parseAddressComponents (joinSep ", " [ns, c, st ++ " " ++ z])).street =
      some ns := by
    rw [parseAddressComponents_street_eq, hparts]
    rfl
  have hcity2 : (parseAddressComponents (joinSep ", " [ns, c, st ++ " " ++ z])).city =
      some c := by
    rw [parseAddressComponents_city_eq, hparts]
    simp
  obtain ⟨hstate2, hzip2⟩ := parseAddressComponents_state_zip_of_three _ ns c _ hparts
  rw [jsSplitWs_pair st z hstd hstw hzd hzw] at hstate2 hzip2
  simp only [List.get?] at hstate2 hzip2
  rw [if_pos hst2] at hstate2
  rw [hstu] at hstate2
  rw [if_pos hz] at hzip2
  rw [normalizeAddressForPao_full_eq, hFtrim]
  simp only [hstreet2, hcity2, hstate2, hzip2]
  rw [if_pos hnsne, hfix]
  simp [jsStrTruthy, hnsne, hcne, hstne, hzne]

/-- The reconstructed state-zip part is a good address part. -/
theorem statezip_part_good (st z : String)
    (hst2 : isTwoAlpha st = true) (hstu : jsToUpper st = st) (hz : isZipcode z = true) :
    (st ++ " " ++ z).data ≠ [] ∧ jsTrim (st ++ " " ++ z) = st ++ " " ++ z ∧
      ',' ∉ (st ++ " " ++ z).data := by
  have hsp := state_props st hst2
  rw [hstu] at hsp
  obtain ⟨hstd, hstw, hstc, hst2b, hstt⟩ := hsp
  obtain ⟨hzd, hzw, hzc, hzt⟩ := zip_props z hz
  have hqdata : (st ++ " " ++ z).data = st.data ++ ' ' :: z.data := by
    rw [String.data_append, String.data_append]
    simp
  refine ⟨?_, ?_, ?_⟩
  · rw [hqdata]
    cases hs : st.data with
    | nil => exact absurd hs hstd
    | cons a r => simp
  · have hj : st ++ " " ++ z = joinSep " " [st, z] := rfl
    rw [hj]
    apply jsTrim_join_good [st, z] (by simp)
    intro t ht
    rcases List.mem_cons.mp ht with h | h
    · subst h; exact ⟨hstd, hstw⟩
    · rcases List.mem_cons.mp h with h2 | h2
      · subst h2; exact ⟨hzd, hzw⟩
      · simp at h2
  · rw [hqdata]
    intro hx
    rcases List.mem_append.mp hx with h | h
    · exact hstc h
    · rcases List.mem_cons.mp h with h2 | h2
      · cases h2
      · exact hzc h2

theorem jsStrTruthy_none : jsStrTruthy none = false := rfl

/-- **C5** (amended).  Normalization is idempotent on `normalizedFull` for
every address whose trimmed input parses to a non-empty street component and
whose components do not carry a zip code without a state: renormalizing the
normalized full address reproduces it exactly.  (Without these provisos the
claim fails, see the counterexample.) -/
theorem normalizeAddressForPao_idempotent_amended (x : String)
    (h1 : (parseAddressComponents (jsTrim x)).street ≠ some "")
    (h2 : (parseAddressComponents (jsTrim x)).zipCode.isSome = true →
          (parseAddressComponents (jsTrim x)).state.isSome = true) :
    (normalizeAddressForPao ((normalizeAddressForPao x).normalizedFull)).normalizedFull
      = (normalizeAddressForPao x).normalizedFull := by
  obtain ⟨s0, hstreet, hs0trim, hs0comma⟩ := parseAddressComponents_street (jsTrim x)
  have hs0ne : s0 ≠ "" := by
    intro h
    exact h1 (by rw [hstreet, h])
  have hs0d : s0.data ≠ [] := data_ne_empty_of_str s0 hs0ne
  obtain ⟨hnsd, hnsc, hnst, hnsfix⟩ := normalizeStreet_props s0 hs0trim hs0d hs0comma
  have hnsne : (normalizeStreet s0).1 ≠ "" := str_ne_empty_of_data _ hnsd
  rw [normalizeAddressForPao_full_eq x]
  simp only [hstreet]
  rw [if_pos hs0ne]
  simp only [jsStrTruthy_some _ hnsne, if_true, Option.getD_some]
  cases hzip : (parseAddressComponents (jsTrim x)).zipCode with
  | some z =>
    have hz := parseAddressComponents_zip _ z hzip
    have hzne : z ≠ "" := str_ne_empty_of_data z (zip_props z hz).1
    have hstSome : (parseAddressComponents (jsTrim x)).state.isSome = true :=
      h2 (by rw [hzip]; rfl)
    cases hstate : (parseAddressComponents (jsTrim x)).state with
    | none => rw [hstate] at hstSome; cases hstSome
    | some st =>
      obtain ⟨t, ht2, hsteq⟩ := parseAddressComponents_state _ st hstate
      have hst2 : isTwoAlpha st = true := by
        rw [hsteq]
        exact (state_props t ht2).2.2.2.1
      have hstu : jsToUpper st = st := by
        rw [hsteq]
        exact jsToUpper_idem t
      have hstne : st ≠ "" := by
        rw [hsteq]
        exact str_ne_empty_of_data _ (state_props t ht2).1
      obtain ⟨hqd, hqt, hqc⟩ := statezip_part_good st z hst2 hstu hz
      cases hctr : jsStrTruthy (parseAddressComponents (jsTrim x)).city with
      | false =>
        simp only [jsStrTruthy_some _ hstne, jsStrTruthy_some _ hzne, Bool.and_self,
          if_true, Option.getD_some, Bool.false_eq_true, if_false, List.append_nil,
          List.nil_append, List.singleton_append]
        exact pao_roundtrip_two (normalizeStreet s0).1 (st ++ " " ++ z)
          hnsd hnst hnsc hnsfix hqd hqt hqc
      | true =>
        cases hcity : (parseAddressComponents (jsTrim x)).city with
        | none => rw [hcity] at hctr; cases hctr
        | some c =>
          have hcne : c ≠ "" := by
            rw [hcity] at hctr
            simpa [jsStrTruthy] using hctr
          obtain ⟨hctrim, hccomma⟩ := parseAddressComponents_city _ c hcity
          have hcd : c.data ≠ [] := data_ne_empty_of_str c hcne
          simp only [jsStrTruthy_some _ hstne, jsStrTruthy_some _ hzne, Bool.and_self,
            if_true, Option.getD_some, List.singleton_append, List.cons_append,
            List.nil_append]
          exact pao_roundtrip_statezip (normalizeStreet s0).1 c st z
            hnsd hnst hnsc hnsfix hcd hctrim hccomma hst2 hstu hz
  | none =>
    cases hstate : (parseAddressComponents (jsTrim x)).state with
    | some st =>
      obtain ⟨t, ht2, hsteq⟩ := parseAddressComponents_state _ st hstate
      have hst2 : isTwoAlpha st = true := by
        rw [hsteq]
        exact (state_props t ht2).2.2.2.1
      have hstu : jsToUpper st = st := by
        rw [hsteq]
        exact jsToUpper_idem t
      have hstprops := state_props t ht2
      rw [← hsteq] at hstprops
      obtain ⟨hstd, hstw, hstc, hst2b, hstt⟩ := hstprops
      have hstne : st ≠ "" := str_ne_empty_of_data _ hstd
      cases hctr : jsStrTruthy (parseAddressComponents (jsTrim x)).city with
      | false =>
        simp only [jsStrTruthy_none, jsStrTruthy_some _ hstne, Bool.and_false,
          if_true, if_false, Option.getD_some, Bool.false_eq_true, List.append_nil,
          List.nil_append, List.singleton_append]
        exact pao_roundtrip_two (normalizeStreet s0).1 st
          hnsd hnst hnsc hnsfix hstd hstt hstc
      | true =>
        cases hcity : (parseAddressComponents (jsTrim x)).city with
        | none => rw [hcity] at hctr; cases hctr
        | some c =>
          have hcne : c ≠ "" := by
            rw [hcity] at hctr
            simpa [jsStrTruthy] using hctr
          obtain ⟨hctrim, hccomma⟩ := parseAddressComponents_city _ c hcity
          have hcd : c.data ≠ [] := data_ne_empty_of_str c hcne
          simp only [jsStrTruthy_none, jsStrTruthy_some _ hstne, Bool.and_false,
            if_true, if_false, Option.getD_some, Bool.false_eq_true,
            List.singleton_append, List.cons_append, List.nil_append]
          exact pao_roundtrip_state (normalizeStreet s0).1 c st
            hnsd hnst hnsc hnsfix hcd hctrim hccomma hst2 hstu
    | none =>
      cases hctr : jsStrTruthy (parseAddressComponents (jsTrim x)).city with
      | false =>
        simp only [jsStrTruthy_none, Bool.and_self, if_false, Bool.false_eq_true,
          List.append_nil, List.singleton_append]
        exact pao_roundtrip_one (normalizeStreet s0).1 hnsd hnst hnsc hnsfix
      | true =>
        cases hcity : (parseAddressComponents (jsTrim x)).city with
        | none => rw [hcity] at hctr; cases hctr
        | some c =>
          have hcne : c ≠ "" := by
            rw [hcity] at hctr
            simpa [jsStrTruthy] using hctr
          obtain ⟨hctrim, hccomma⟩ := parseAddressComponents_city _ c hcity
          have hcd : c.data ≠ [] := data_ne_empty_of_str c hcne
          simp only [jsStrTruthy_none, Bool.and_self, if_true, if_false,
            Bool.false_eq_true, Option.getD_some, List.append_nil,
            List.singleton_append]
          exact pao_roundtrip_two (normalizeStreet s0).1 c
            hnsd hnst hnsc hnsfix hcd hctrim hccomma


/-- **C5** witness: the amended idempotence theorem applied to the concrete
address `"4659 56th Terrace East, Bradenton, FL 34208"`. -/
theorem normalizeAddressForPao_idempotent_amended_witness :
    (parseAddressComponents (jsTrim "4659 56th Terrace East, Bradenton, FL 34208")).street
      ≠ some "" ∧
    ((parseAddressComponents (jsTrim "4659 56th Terrace East, Bradenton, FL 34208")).zipCode.isSome = true →
     (parseAddressComponents (jsTrim "4659 56th Terrace East, Bradenton, FL 34208")).state.isSome = true) ∧
    (normalizeAddressForPao
        ((normalizeAddressForPao "4659 56th Terrace East, Bradenton, FL 34208").normalizedFull)).normalizedFull
      = (normalizeAddressForPao "4659 56th Terrace East, Bradenton, FL 34208").normalizedFull :=
  ⟨by decide, by decide,
   normalizeAddressForPao_idempotent_amended "4659 56th Terrace East, Bradenton, FL 34208"
     (by decide) (by decide)⟩
